import Mathlib

/-! Klusterlet add-on controller: image resolution and add-on reconciliation.

A shallow embedding of

* `pkg/apis/multicloud/v1beta1/image_utils.go` (the version/component image tables and
  `Endpoint.GetImage`),
* `pkg/appmgr/v1beta1/reconcile.go`, `pkg/certmgr/v1beta1/reconcile.go` and
  `pkg/topology/topology.go` (child builders and reconcilers),
* `pkg/controller/managedcluster/managed_cluster_controller.go` (the default
  KlusterletAddonConfig of a ManagedCluster).

Go maps are association lists (a Go map literal has no duplicate key), Go `(value, error)`
returns are pairs with an `Option GoError`, pointers that may be `nil` are `Option`s, and the
cluster client is an oracle answering each call from the history of the calls made before it.
-/

namespace Klusterlet

/-! ## Errors -/

/-- A Go `error` value: either built by `fmt.Errorf` (only its message is observable) or an
API status error returned by the client, whose reason `errors.IsNotFound` and
`errors.IsConflict` inspect. -/
inductive GoError where
  | errorf (msg : String)
  | status (reason : String) (msg : String)
  deriving DecidableEq, Repr

namespace GoError

/-- The k8s `errors.IsNotFound`: the status reason is `NotFound`. -/
def IsNotFound : GoError → Bool
  | status reason _ => reason == "NotFound"
  | errorf _ => false

/-- The k8s `errors.IsConflict`: the status reason is `Conflict`. -/
def IsConflict : GoError → Bool
  | status reason _ => reason == "Conflict"
  | errorf _ => false

end GoError

/-! ## Images and the version tables (`image_utils.go`) -/

/-- The struct `image.Image`; the zero value has three empty strings. -/
structure Image where
  Repository : String := ""
  Tag : String := ""
  PullPolicy : String := ""
  deriving DecidableEq, Repr

/-- The table `versionComponentImageNameMap` (lines 15-107). -/
def versionComponentImageNameMap : List (String × List (String × String)) :=
  [("3.2.0", [
      ("search-collector", "search-collector"),
      ("weave", "mcm-weave-scope"),
      ("topology-collector", "weave-collector"),
      ("router", "icp-management-ingress"),
      ("tiller", "tiller"),
      ("work-manager", "mcm-klusterlet"),
      ("deployable", "deployable"),
      ("connection-manager", "mcm-operator"),
      ("cert-manager-controller", "icp-cert-manager-controller"),
      ("cert-manager-acmesolver", "icp-cert-manager-acmesolver"),
      ("service-registry", "mcm-service-registry"),
      ("coredns", "coredns"),
      ("component-operator", "klusterlet-component-operator"),
      ("policy-controller", "mcm-compliance"),
      ("metering-reader", "metering-data-manager"),
      ("metering-sender", "metering-data-manager"),
      ("metering-dm", "metering-data-manager"),
      ("curl", "curl"),
      ("mongodb", "icp-mongodb"),
      ("mongodb-install", "icp-mongodb-install"),
      ("mongodb-metrics", "icp-mongodb-exporter"),
      ("subscription", "subscription"),
      ("helmcrd", "helm-crd-controller"),
      ("helmcrd_admission_controller", "helm-crd-admission-controller")]),
   ("3.2.1", [
      ("search-collector", "search-collector"),
      ("weave", "mcm-weave-scope"),
      ("topology-collector", "weave-collector"),
      ("router", "icp-management-ingress"),
      ("tiller", "tiller"),
      ("work-manager", "mcm-klusterlet"),
      ("deployable", "deployable"),
      ("connection-manager", "mcm-operator"),
      ("cert-manager-controller", "icp-cert-manager-controller"),
      ("cert-manager-acmesolver", "icp-cert-manager-acmesolver"),
      ("service-registry", "mcm-service-registry"),
      ("coredns", "coredns"),
      ("component-operator", "klusterlet-component-operator"),
      ("policy-controller", "mcm-compliance"),
      ("metering-reader", "metering-data-manager"),
      ("metering-sender", "metering-data-manager"),
      ("metering-dm", "metering-data-manager"),
      ("curl", "curl"),
      ("mongodb", "icp-mongodb"),
      ("mongodb-install", "icp-mongodb-install"),
      ("mongodb-metrics", "icp-mongodb-exporter"),
      ("prometheus", "prometheus-amd64"),
      ("configmap-reload", "configmap-reload-amd64"),
      ("monitoring-router", "icp-management-ingress-amd64"),
      ("alertrule-controller", "alert-rule-controller-amd64"),
      ("prometheus-operator-controller", "prometheus-operator-controller-amd64"),
      ("prometheus-operator", "prometheus-operator-amd64"),
      ("prometheus-config-reloader", "prometheus-config-reloader-amd64"),
      ("subscription", "subscription"),
      ("helmcrd", "helm-crd-controller"),
      ("helmcrd-admission-controller", "helm-crd-admission-controller")]),
   ("latest", [
      ("search-collector", "search-collector"),
      ("weave", "mcm-weave-scope"),
      ("topology-collector", "weave-collector"),
      ("router", "icp-management-ingress"),
      ("tiller", "tiller"),
      ("work-manager", "mcm-klusterlet"),
      ("deployable", "deployable"),
      ("connection-manager", "mcm-operator"),
      ("cert-manager-controller", "icp-cert-manager-controller"),
      ("cert-manager-acmesolver", "icp-cert-manager-acmesolver"),
      ("service-registry", "mcm-service-registry"),
      ("coredns", "coredns"),
      ("component-operator", "klusterlet-component-operator"),
      ("policy-controller", "mcm-compliance"),
      ("metering-reader", "metering-data-manager"),
      ("metering-sender", "metering-data-manager"),
      ("metering-dm", "metering-data-manager"),
      ("curl", "curl"),
      ("mongodb", "icp-mongodb"),
      ("mongodb-install", "icp-mongodb-install"),
      ("mongodb-metrics", "icp-mongodb-exporter"),
      ("prometheus", "prometheus"),
      ("configmap-reload", "configmap-reload"),
      ("alertrule-controller", "alert-rule-controller"),
      ("prometheus-operator-controller", "prometheus-operator-controller"),
      ("prometheus-operator", "prometheus-operator"),
      ("prometheus-config-reloader", "prometheus-config-reloader"),
      ("subscription", "subscription"),
      ("helmcrd", "helm-crd-controller"),
      ("helmcrd-admission-controller", "helm-crd-admission-controller")])]

/-- The table `versionComponentTagMap` (lines 109-200). -/
def versionComponentTagMap : List (String × List (String × String)) :=
  [("3.2.0", [
      ("search-collector", "3.2.0"),
      ("weave", "3.2.0"),
      ("topology-collector", "3.2.0"),
      ("router", "2.3.0"),
      ("tiller", "v2.12.3-icp-3.2.0"),
      ("work-manager", "3.2.0"),
      ("deployable", "3.2.0"),
      ("connection-manager", "3.2.0"),
      ("cert-manager-controller", "0.7.0"),
      ("cert-manager-acmesolver", "0.7.0"),
      ("service-registry", "3.2.0"),
      ("coredns", "1.2.6"),
      ("policy-controller", "3.2.0"),
      ("component-operator", "3.2.0"),
      ("metering-reader", "3.2.0"),
      ("metering-sender", "3.2.0"),
      ("metering-dm", "3.2.0"),
      ("curl", "4.2.0-f3"),
      ("mongodb", "4.0.6-f1"),
      ("mongodb-install", "3.2.0"),
      ("mongodb-metrics", "3.2.0"),
      ("subscription", "3.2.0"),
      ("helmcrd", "3.2.0"),
      ("helmcrd-admission-controller", "3.2.0")]),
   ("3.2.1", [
      ("search-collector", "3.2.1"),
      ("weave", "3.2.1"),
      ("topology-collector", "3.2.1"),
      ("router", "3.2.1"),
      ("tiller", "v2.12.3-icp-3.2.1"),
      ("work-manager", "3.2.1"),
      ("deployable", "3.2.1"),
      ("connection-manager", "3.2.1"),
      ("cert-manager-controller", "0.7.0.1"),
      ("cert-manager-acmesolver", "0.7.0.1"),
      ("service-registry", "3.2.1"),
      ("coredns", "1.2.6"),
      ("policy-controller", "3.2.1"),
      ("component-operator", "3.2.1"),
      ("metering-reader", "3.2.1"),
      ("metering-sender", "3.2.1"),
      ("metering-dm", "3.2.1"),
      ("curl", "4.2.0-f4"),
      ("mongodb", "4.0.6-f1"),
      ("mongodb-install", "3.2.1"),
      ("mongodb-metrics", "3.2.1"),
      ("prometheus", "v2.8.0-f1"),
      ("configmap-reload", "v0.2.2-f4"),
      ("alertrule-controller", "v1.1.0-f1"),
      ("prometheus-operator-controller", "v1.0.0"),
      ("prometheus-operator", "v0.31"),
      ("prometheus-config-reloader", "v0.31"),
      ("subscription", "3.2.1"),
      ("helmcrd", "3.2.1"),
      ("helmcrd-admission-controller", "3.2.1")]),
   ("latest", [
      ("search-collector", "latest"),
      ("weave", "latest"),
      ("topology-collector", "latest"),
      ("router", "latest"),
      ("tiller", "v2.12.3-icp-latest"),
      ("work-manager", "latest"),
      ("deployable", "latest"),
      ("connection-manager", "latest"),
      ("cert-manager-controller", "0.7.0.1"),
      ("cert-manager-acmesolver", "0.7.0.1"),
      ("service-registry", "latest"),
      ("coredns", "1.2.6"),
      ("policy-controller", "latest"),
      ("component-operator", "latest"),
      ("metering-reader", "latest"),
      ("metering-sender", "latest"),
      ("metering-dm", "latest"),
      ("curl", "4.2.0-f4"),
      ("mongodb", "4.0.6-f1"),
      ("mongodb-install", "latest"),
      ("mongodb-metrics", "latest"),
      ("prometheus", "v2.8.0-f1"),
      ("configmap-reload", "v0.2.2-f4"),
      ("alertrule-controller", "v1.1.0-f1"),
      ("prometheus-operator-controller", "v1.0.0"),
      ("prometheus-operator", "v0.31"),
      ("prometheus-config-reloader", "v0.31"),
      ("subscription", "latest"),
      ("helmcrd", "latest"),
      ("helmcrd-admission-controller", "latest")])]

/-! ## Kubernetes object metadata and the parent resource -/

/-- The struct `metav1.OwnerReference`, as far as `SetControllerReference` fills it. -/
structure OwnerReference where
  APIVersion : String := ""
  Kind : String := ""
  Name : String := ""
  UID : String := ""
  Controller : Bool := false
  BlockOwnerDeletion : Bool := false
  deriving DecidableEq, Repr

/-- The struct `metav1.ObjectMeta`, restricted to the fields the controllers read or write.
A deletion timestamp is a point in time (seconds), `none` for the Go `nil`. -/
structure ObjectMeta where
  Name : String := ""
  Namespace : String := ""
  UID : String := ""
  Labels : List (String × String) := []
  Annotations : List (String × String) := []
  DeletionTimestamp : Option Nat := none
  Finalizers : List String := []
  OwnerReferences : List OwnerReference := []
  deriving DecidableEq, Repr

/-- The struct `EndpointApplicationManagerSpec` of the parent spec. -/
structure ApplicationManagerConfig where
  Enabled : Bool := false
  deriving DecidableEq, Repr

/-- The struct `multicloudv1beta1.EndpointSpec`, restricted to the fields read by the code. -/
structure EndpointSpec where
  Version : String := ""
  ClusterName : String := ""
  ClusterNamespace : String := ""
  ImageRegistry : String := ""
  ImageNamePostfix : String := ""
  ImagePullPolicy : String := ""
  ImagePullSecret : String := ""
  ApplicationManagerConfig : ApplicationManagerConfig := {}
  deriving DecidableEq, Repr

/-- The parent resource `multicloudv1beta1.Endpoint`; the metadata is embedded as in Go. -/
structure Endpoint extends ObjectMeta where
  Spec : EndpointSpec := {}
  deriving DecidableEq, Repr

/-- The method `Endpoint.GetImage` (lines 203-238). The Go function returns the partially filled
image next to the error; both components of the pair are kept. -/
def GetImage (inst : Endpoint) (name : String) : Image × Option GoError :=
  let img : Image := {}
  match versionComponentImageNameMap.lookup inst.Spec.Version with
  | some componentImageMap =>
    match componentImageMap.lookup name with
    | some imageName =>
      let img : Image :=
        if inst.Spec.ImageRegistry ≠ "" then
          { img with Repository := inst.Spec.ImageRegistry ++ "/" ++ imageName }
        else
          { img with Repository := imageName }
      let img : Image :=
        if inst.Spec.ImageNamePostfix ≠ "" then
          { img with Repository := img.Repository ++ inst.Spec.ImageNamePostfix }
        else img
      match versionComponentTagMap.lookup inst.Spec.Version with
      | some componentTagMap =>
        match componentTagMap.lookup name with
        | some tag =>
          let img : Image := { img with Tag := tag }
          let img : Image := { img with PullPolicy := inst.Spec.ImagePullPolicy }
          (img, none)
        | none =>
          (img, some (.errorf ("unable to locate image tag for component " ++ name)))
      | none =>
        (img, some (.errorf ("unable to locate image name for version " ++ inst.Spec.Version)))
    | none => (img, some (.errorf ("unable to locate image name for component " ++ name)))
  | none => (img, some (.errorf ("unable to locate image name for version " ++ inst.Spec.Version)))

/-- The error kind `VersionNotFound`: the message of the two version branches of `GetImage`
(lines 217 and 231), followed by the version. -/
def IsVersionNotFound : GoError → Prop
  | .errorf msg => "unable to locate image name for version ".data <+: msg.data
  | .status _ _ => False

/-- The error kind `ComponentNotFound`: the message of one of the two component branches of
`GetImage` (lines 214 and 228), followed by the component name. -/
def IsComponentNotFound : GoError → Prop
  | .errorf msg =>
    "unable to locate image name for component ".data <+: msg.data ∨
      "unable to locate image tag for component ".data <+: msg.data
  | .status _ _ => False

instance : DecidablePred IsVersionNotFound
  | .errorf msg => inferInstanceAs (Decidable (_ <+: msg.data))
  | .status _ _ => inferInstanceAs (Decidable False)

instance : DecidablePred IsComponentNotFound
  | .errorf msg => inferInstanceAs (Decidable (_ <+: msg.data ∨ _ <+: msg.data))
  | .status _ _ => inferInstanceAs (Decidable False)

/-- The entry of the image-name table for a version and a component, `none` when the version or
the component is not a key. -/
def imageNameFor (version name : String) : Option String :=
  (versionComponentImageNameMap.lookup version).bind fun componentImageMap =>
    componentImageMap.lookup name

/-- The entry of the tag table for a version and a component, `none` when the version or the
component is not a key. -/
def tagFor (version name : String) : Option String :=
  (versionComponentTagMap.lookup version).bind fun componentTagMap =>
    componentTagMap.lookup name

/-! ## Child and ancillary resources -/

/-- The struct `ApplicationManagerDeployableSpec`. -/
structure ApplicationManagerDeployableSpec where
  Image : Klusterlet.Image := {}
  deriving DecidableEq, Repr

/-- The struct `ApplicationManagerSubscriptionSpec`. -/
structure ApplicationManagerSubscriptionSpec where
  Image : Klusterlet.Image := {}
  deriving DecidableEq, Repr

/-- The struct `multicloudv1beta1.ApplicationManagerSpec`. -/
structure ApplicationManagerSpec where
  FullNameOverride : String := ""
  ConnectionManager : String := ""
  ClusterName : String := ""
  ClusterNamespace : String := ""
  DeployableSpec : ApplicationManagerDeployableSpec := {}
  SubscriptionSpec : ApplicationManagerSubscriptionSpec := {}
  ImagePullSecret : String := ""
  deriving DecidableEq, Repr

/-- The child resource `multicloudv1beta1.ApplicationManager`. -/
structure ApplicationManager extends ObjectMeta where
  Spec : ApplicationManagerSpec := {}
  deriving DecidableEq, Repr

/-- The struct `CertManagerServiceAccount`. -/
structure CertManagerServiceAccount where
  Name : String := ""
  deriving DecidableEq, Repr

/-- The struct `CertManagerPolicyControllerSpec`. -/
structure CertManagerPolicyControllerSpec where
  Enabled : Bool := false
  deriving DecidableEq, Repr

/-- The struct `multicloudv1beta1.CertManagerSpec`. -/
structure CertManagerSpec where
  FullNameOverride : String := ""
  ClusterResourceNamespace : String := ""
  ServiceAccount : CertManagerServiceAccount := {}
  Image : Klusterlet.Image := {}
  PolicyController : CertManagerPolicyControllerSpec := {}
  deriving DecidableEq, Repr

/-- The child resource `multicloudv1beta1.CertManager`. -/
structure CertManager extends ObjectMeta where
  Spec : CertManagerSpec := {}
  deriving DecidableEq, Repr

/-- The struct `TopologyCollectorServiceAccount`. -/
structure TopologyCollectorServiceAccount where
  Name : String := ""
  deriving DecidableEq, Repr

/-- The struct `klusterletv1alpha1.TopologyCollectorSpec`. The update interval is only copied
from the parent; it is kept as an integer. -/
structure TopologyCollectorSpec where
  FullNameOverride : String := ""
  ClusterName : String := ""
  ClusterNamespace : String := ""
  ConnectionManager : String := ""
  ContainerRuntime : String := ""
  Enabled : Bool := false
  UpdateInterval : Int := 0
  CACertIssuer : String := ""
  ServiceAccount : TopologyCollectorServiceAccount := {}
  WeaveImage : Image := {}
  CollectorImage : Image := {}
  RouterImage : Image := {}
  ImagePullSecret : String := ""
  deriving DecidableEq, Repr

/-- The child resource `klusterletv1alpha1.TopologyCollector`. -/
structure TopologyCollector extends ObjectMeta where
  Spec : TopologyCollectorSpec := {}
  deriving DecidableEq, Repr

/-- The topology part of the `KlusterletService` spec. -/
structure TopologyCollectorConfig where
  Enabled : Bool := false
  CollectorUpdateInterval : Int := 0
  deriving DecidableEq, Repr

/-- The struct `klusterletv1alpha1.KlusterletServiceSpec`, restricted to the fields read by
`topology.go`. -/
structure KlusterletServiceSpec where
  ClusterName : String := ""
  ClusterNamespace : String := ""
  ImagePullSecret : String := ""
  TopologyCollectorConfig : TopologyCollectorConfig := {}
  deriving DecidableEq, Repr

/-- The parent resource `klusterletv1alpha1.KlusterletService` of the topology collector. -/
structure KlusterletService extends ObjectMeta where
  Spec : KlusterletServiceSpec := {}
  deriving DecidableEq, Repr

/-- An `extensionsv1beta1.Deployment`; only its existence is observed. -/
structure Deployment extends ObjectMeta where
  deriving DecidableEq, Repr

/-- A `corev1.ConfigMap`; only its identity is observed. -/
structure ConfigMap extends ObjectMeta where
  deriving DecidableEq, Repr

/-- A `corev1.Secret`; only its identity is observed. -/
structure Secret extends ObjectMeta where
  deriving DecidableEq, Repr

/-- The struct `certmanagerv1alpha1.IssuerSpec`: whether the self-signed issuer is configured
(the Go pointer `SelfSigned` is non-nil). -/
structure IssuerSpec where
  SelfSigned : Bool := false
  deriving DecidableEq, Repr

/-- A `certmanagerv1alpha1.ClusterIssuer`. -/
structure ClusterIssuer extends ObjectMeta where
  Spec : IssuerSpec := {}
  deriving DecidableEq, Repr

/-- A `corev1.ServiceAccount` with the names of its image pull secrets. -/
structure ServiceAccount extends ObjectMeta where
  ImagePullSecrets : List String := []
  deriving DecidableEq, Repr

/-- An `openshiftsecurityv1.SecurityContextConstraints` with its user list. -/
structure SecurityContextConstraints extends ObjectMeta where
  Users : List String := []
  deriving DecidableEq, Repr

/-- The struct `corev1.NodeSystemInfo`. -/
structure NodeSystemInfo where
  ContainerRuntimeVersion : String := ""
  deriving DecidableEq, Repr

/-- The struct `corev1.NodeStatus`. -/
structure NodeStatus where
  NodeInfo : NodeSystemInfo := {}
  deriving DecidableEq, Repr

/-- A `corev1.Node`. -/
structure Node extends ObjectMeta where
  Status : NodeStatus := {}
  deriving DecidableEq, Repr

/-- A `corev1.NodeList`. -/
structure NodeList where
  Items : List Node := []
  deriving DecidableEq, Repr

/-! ## The cluster client and the scheme -/

/-- The resource kinds the controllers read or write. -/
inductive Kind where
  | Endpoint | KlusterletService
  | ApplicationManager | CertManager | TopologyCollector
  | Deployment | ConfigMap | Secret | ClusterIssuer | ServiceAccount
  | SecurityContextConstraints | Node
  deriving DecidableEq, Repr

/-- An object handed to `client.Create`, `client.Update` or `client.Delete`. -/
inductive Obj where
  | applicationManager (o : ApplicationManager)
  | certManager (o : CertManager)
  | topologyCollector (o : TopologyCollector)
  | deployment (o : Deployment)
  | configMap (o : ConfigMap)
  | secret (o : Secret)
  | clusterIssuer (o : ClusterIssuer)
  | serviceAccount (o : ServiceAccount)
  | securityContextConstraints (o : SecurityContextConstraints)
  deriving DecidableEq, Repr

/-- The kind of an object. -/
def Obj.kind : Obj → Kind
  | .applicationManager _ => .ApplicationManager
  | .certManager _ => .CertManager
  | .topologyCollector _ => .TopologyCollector
  | .deployment _ => .Deployment
  | .configMap _ => .ConfigMap
  | .secret _ => .Secret
  | .clusterIssuer _ => .ClusterIssuer
  | .serviceAccount _ => .ServiceAccount
  | .securityContextConstraints _ => .SecurityContextConstraints

/-- The struct `types.NamespacedName`. -/
structure NamespacedName where
  Namespace : String := ""
  Name : String := ""
  deriving DecidableEq, Repr

/-- One call on the `client.Client` interface. -/
inductive Call where
  | Get (kind : Kind) (key : NamespacedName)
  | Create (obj : Obj)
  | Update (obj : Obj)
  | Delete (obj : Obj)
  | List (kind : Kind)
  deriving DecidableEq, Repr

/-- The calls issued so far, oldest first. -/
abbrev History := List Call

/-- Whether the call reads or writes an object of the kind. -/
def Call.touches (k : Kind) : Call → Bool
  | .Get kind _ => kind == k
  | .Create obj => obj.kind == k
  | .Update obj => obj.kind == k
  | .Delete obj => obj.kind == k
  | .List kind => kind == k

/-- Whether the call is a Create, an Update or a Delete. -/
def Call.isMutation : Call → Bool
  | .Create _ => true
  | .Update _ => true
  | .Delete _ => true
  | _ => false

/-- The cluster behind `client.Client`. The controllers only see the answers to their calls, so
a client is any function from the calls issued so far and the present call to an answer; this
covers every store state and every failure of a call. A Get is typed by the object it fills. -/
structure Client where
  GetApplicationManager : History → NamespacedName → Except GoError ApplicationManager
  GetCertManager : History → NamespacedName → Except GoError CertManager
  GetTopologyCollector : History → NamespacedName → Except GoError TopologyCollector
  GetDeployment : History → NamespacedName → Except GoError Deployment
  GetConfigMap : History → NamespacedName → Except GoError ConfigMap
  GetSecret : History → NamespacedName → Except GoError Secret
  GetClusterIssuer : History → NamespacedName → Except GoError ClusterIssuer
  GetServiceAccount : History → NamespacedName → Except GoError ServiceAccount
  GetSecurityContextConstraints :
    History → NamespacedName → Except GoError SecurityContextConstraints
  Create : History → Obj → Option GoError
  Update : History → Obj → Option GoError
  Delete : History → Obj → Option GoError
  ListNodes : History → Except GoError NodeList

namespace Client

/-- The call `client.Get` into an ApplicationManager, recorded in the history. -/
def getApplicationManager (c : Client) (key : NamespacedName) (h : History) :
    Except GoError ApplicationManager × History :=
  (c.GetApplicationManager h key, h ++ [.Get .ApplicationManager key])

/-- The call `client.Get` into a CertManager, recorded in the history. -/
def getCertManager (c : Client) (key : NamespacedName) (h : History) :
    Except GoError CertManager × History :=
  (c.GetCertManager h key, h ++ [.Get .CertManager key])

/-- The call `client.Get` into a TopologyCollector, recorded in the history. -/
def getTopologyCollector (c : Client) (key : NamespacedName) (h : History) :
    Except GoError TopologyCollector × History :=
  (c.GetTopologyCollector h key, h ++ [.Get .TopologyCollector key])

/-- The call `client.Get` into a Deployment, recorded in the history. -/
def getDeployment (c : Client) (key : NamespacedName) (h : History) :
    Except GoError Deployment × History :=
  (c.GetDeployment h key, h ++ [.Get .Deployment key])

/-- The call `client.Get` into a ConfigMap, recorded in the history. -/
def getConfigMap (c : Client) (key : NamespacedName) (h : History) :
    Except GoError ConfigMap × History :=
  (c.GetConfigMap h key, h ++ [.Get .ConfigMap key])

/-- The call `client.Get` into a Secret, recorded in the history. -/
def getSecret (c : Client) (key : NamespacedName) (h : History) :
    Except GoError Secret × History :=
  (c.GetSecret h key, h ++ [.Get .Secret key])

/-- The call `client.Get` into a ClusterIssuer, recorded in the history. -/
def getClusterIssuer (c : Client) (key : NamespacedName) (h : History) :
    Except GoError ClusterIssuer × History :=
  (c.GetClusterIssuer h key, h ++ [.Get .ClusterIssuer key])

/-- The call `client.Get` into a ServiceAccount, recorded in the history. -/
def getServiceAccount (c : Client) (key : NamespacedName) (h : History) :
    Except GoError ServiceAccount × History :=
  (c.GetServiceAccount h key, h ++ [.Get .ServiceAccount key])

/-- The call `client.Get` into a SecurityContextConstraints, recorded in the history. -/
def getSecurityContextConstraints (c : Client) (key : NamespacedName) (h : History) :
    Except GoError SecurityContextConstraints × History :=
  (c.GetSecurityContextConstraints h key, h ++ [.Get .SecurityContextConstraints key])

/-- The call `client.Create`, recorded in the history. -/
def create (c : Client) (obj : Obj) (h : History) : Option GoError × History :=
  (c.Create h obj, h ++ [.Create obj])

/-- The call `client.Update`, recorded in the history. -/
def update (c : Client) (obj : Obj) (h : History) : Option GoError × History :=
  (c.Update h obj, h ++ [.Update obj])

/-- The call `client.Delete`, recorded in the history. -/
def delete (c : Client) (obj : Obj) (h : History) : Option GoError × History :=
  (c.Delete h obj, h ++ [.Delete obj])

/-- The call `client.List` of the nodes, recorded in the history. -/
def listNodes (c : Client) (h : History) : Except GoError NodeList × History :=
  (c.ListNodes h, h ++ [.List .Node])

end Client

/-- The struct `schema.GroupVersionKind`. -/
structure GroupVersionKind where
  Group : String := ""
  Version : String := ""
  Kind : String := ""
  deriving DecidableEq, Repr

/-- The `runtime.Scheme`, seen through `apiutil.GVKForObject`: the registered group, version and
kind of an owner, or the lookup error. -/
structure Scheme where
  GVKForObject : Kind → Except GoError GroupVersionKind

/-- The library function `controllerutil.SetControllerReference`, at its interface: it fails
with the scheme's lookup error, and otherwise adds a controller reference to the owner. Every
object it receives in this repository was built just before and has no owner reference, so the
library's check for another controller never fires and the reference is appended. -/
def SetControllerReference (ownerKind : Kind) (owner : ObjectMeta) (object : ObjectMeta)
    (scheme : Scheme) : ObjectMeta × Option GoError :=
  match scheme.GVKForObject ownerKind with
  | .error e => (object, some e)
  | .ok gvk =>
    let ref : OwnerReference :=
      { APIVersion := if gvk.Group = "" then gvk.Version else gvk.Group ++ "/" ++ gvk.Version,
        Kind := gvk.Kind, Name := owner.Name, UID := owner.UID,
        Controller := true, BlockOwnerDeletion := true }
    ({ object with OwnerReferences := object.OwnerReferences ++ [ref] }, none)

/-- What a reconciler hands back: the Go results `(requeue, err)`, the parent as the call left
it (the reconciler mutates it through its pointer), and the history of client calls. -/
structure ReconcileResult where
  requeue : Bool
  err : Option GoError
  inst : Endpoint
  calls : History
  deriving DecidableEq, Repr

/-! ## ApplicationManager (`pkg/appmgr/v1beta1/reconcile.go`) -/

namespace appmgr

/-- The function `newApplicationManagerCR` (lines 101-138): the Go pair of a pointer that may be
nil and an error. -/
def newApplicationManagerCR (inst : Endpoint) : Option ApplicationManager × Option GoError :=
  let labels := [("app", inst.Name)]
  match GetImage inst "deployable" with
  | (_, some err) => (none, some err)
  | (deployableImage, none) =>
    match GetImage inst "subscription" with
    | (_, some err) => (none, some err)
    | (subscriptionImage, none) =>
      (some
        { Name := inst.Name ++ "-appmgr"
          Namespace := inst.Namespace
          Labels := labels
          Spec :=
            { FullNameOverride := inst.Name ++ "-appmgr"
              ConnectionManager := inst.Name ++ "-connmgr"
              ClusterName := inst.Spec.ClusterName
              ClusterNamespace := inst.Spec.ClusterNamespace
              DeployableSpec := { Image := deployableImage }
              SubscriptionSpec := { Image := subscriptionImage }
              ImagePullSecret := inst.Spec.ImagePullSecret } },
       none)

/-- The package functions `create`, `update`, `delete` and `finalize` that `Reconcile` calls.
Their file is not part of the sources, so they are parameters: each may call the client, and
those that receive the parent pointer may change the parent. -/
structure Helpers where
  create : Endpoint → ApplicationManager → Client → History → Option GoError × Endpoint × History
  update : Endpoint → ApplicationManager → ApplicationManager → Client → History →
    Option GoError × Endpoint × History
  delete : ApplicationManager → Client → History → Option GoError × History
  finalize : Endpoint → ApplicationManager → Client → History →
    Option GoError × Endpoint × History

/-- The function `Reconcile` (lines 24-99). The result is `none` when the Go code would
dereference a nil child pointer. -/
def Reconcile (helpers : Helpers) (inst : Endpoint) (client : Client) (scheme : Scheme)
    (h : History) : Option ReconcileResult :=
  match newApplicationManagerCR inst with
  | (_, some err) => some ⟨false, some err, inst, h⟩
  | (none, none) => none
  | (some appMgrCR, none) =>
    match SetControllerReference .Endpoint inst.toObjectMeta appMgrCR.toObjectMeta scheme with
    | (_, some err) => some ⟨false, some err, inst, h⟩
    | (objectMeta, none) =>
      let appMgrCR : ApplicationManager := { appMgrCR with toObjectMeta := objectMeta }
      match client.getApplicationManager
          { Name := appMgrCR.Name, Namespace := appMgrCR.Namespace } h with
      | (.error err, h) =>
        if err.IsNotFound then
          if inst.DeletionTimestamp = none then
            if inst.Spec.ApplicationManagerConfig.Enabled then
              match helpers.create inst appMgrCR client h with
              | (some err, inst, h) => some ⟨false, some err, inst, h⟩
              | (none, inst, h) => some ⟨false, none, inst, h⟩
            else
              match helpers.finalize inst appMgrCR client h with
              | (some err, inst, h) => some ⟨false, some err, inst, h⟩
              | (none, inst, h) => some ⟨false, none, inst, h⟩
          else
            match helpers.finalize inst appMgrCR client h with
            | (some err, inst, h) => some ⟨false, some err, inst, h⟩
            | (none, inst, h) => some ⟨false, none, inst, h⟩
        else
          some ⟨false, some err, inst, h⟩
      | (.ok foundAppMgrCR, h) =>
        if foundAppMgrCR.DeletionTimestamp = none then
          if inst.DeletionTimestamp = none ∧ inst.Spec.ApplicationManagerConfig.Enabled then
            match helpers.update inst appMgrCR foundAppMgrCR client h with
            | (some err, inst, h) => some ⟨false, some err, inst, h⟩
            | (none, inst, h) => some ⟨false, none, inst, h⟩
          else
            match helpers.delete foundAppMgrCR client h with
            | (some err, h) => some ⟨false, some err, inst, h⟩
            | (none, h) => some ⟨true, none, inst, h⟩
        else
          some ⟨true, none, inst, h⟩

end appmgr

/-! ## CertManager (`pkg/certmgr/v1beta1/reconcile.go`) -/

namespace certmgr

/-- The function `newCertManagerCR` (lines 260-289). -/
def newCertManagerCR (cr : Endpoint) : Option CertManager × Option GoError :=
  let labels := [("app", cr.Name)]
  match GetImage cr "cert-manager-controller" with
  | (_, some err) => (none, some err)
  | (image, none) =>
    (some
      { Name := cr.Name ++ "-certmgr"
        Namespace := cr.Namespace
        Labels := labels
        Spec :=
          { FullNameOverride := cr.Name ++ "-certmgr"
            ClusterResourceNamespace := cr.Namespace
            ServiceAccount := { Name := cr.Name ++ "-certmgr" }
            Image := image
            PolicyController := { Enabled := false } } },
     none)

/-- The function `createSelfSignClusterIssuer` (lines 161-186). -/
def createSelfSignClusterIssuer (client : Client) (scheme : Scheme) (cr : Endpoint)
    (h : History) : Option GoError × History :=
  let clusterIssuer : ClusterIssuer :=
    { Name := cr.Name ++ "-self-signed", Spec := { SelfSigned := true } }
  match SetControllerReference .Endpoint cr.toObjectMeta clusterIssuer.toObjectMeta scheme with
  | (_, some err) => (some err, h)
  | (objectMeta, none) =>
    let clusterIssuer : ClusterIssuer := { clusterIssuer with toObjectMeta := objectMeta }
    match client.getClusterIssuer { Name := clusterIssuer.Name } h with
    | (.error err, h) =>
      if err.IsNotFound then
        client.create (.clusterIssuer clusterIssuer) h
      else
        (some err, h)
    | (.ok _, h) => (none, h)

/-- The function `deleteSelfSignClusterIssuer` (lines 188-213). -/
def deleteSelfSignClusterIssuer (client : Client) (scheme : Scheme) (cr : Endpoint)
    (h : History) : Option GoError × History :=
  let clusterIssuer : ClusterIssuer :=
    { Name := cr.Name ++ "-self-signed", Spec := { SelfSigned := true } }
  match SetControllerReference .Endpoint cr.toObjectMeta clusterIssuer.toObjectMeta scheme with
  | (_, some err) => (some err, h)
  | (objectMeta, none) =>
    let clusterIssuer : ClusterIssuer := { clusterIssuer with toObjectMeta := objectMeta }
    match client.getClusterIssuer { Name := clusterIssuer.Name } h with
    | (.ok foundClusterIssuer, h) => client.delete (.clusterIssuer foundClusterIssuer) h
    | (.error _, h) => (none, h)

/-- The function `createServiceAccount` (lines 215-258). -/
def createServiceAccount (client : Client) (scheme : Scheme) (inst : Endpoint)
    (certmgr : CertManager) (h : History) : Option GoError × History :=
  let serviceAccount : ServiceAccount :=
    { Name := certmgr.Spec.ServiceAccount.Name
      Namespace := certmgr.Namespace
      ImagePullSecrets := [inst.Spec.ImagePullSecret] }
  match SetControllerReference .Endpoint inst.toObjectMeta serviceAccount.toObjectMeta scheme with
  | (_, some err) => (some err, h)
  | (objectMeta, none) =>
    let serviceAccount : ServiceAccount := { serviceAccount with toObjectMeta := objectMeta }
    let grant (h : History) : Option GoError × History :=
      match client.getSecurityContextConstraints { Name := "privileged", Namespace := "" } h with
      | (.ok foundPrivilegedSCC, h) =>
        let user :=
          "system:serviceaccount:" ++ serviceAccount.Namespace ++ ":" ++ serviceAccount.Name
        let foundPrivilegedSCC : SecurityContextConstraints :=
          { foundPrivilegedSCC with Users := foundPrivilegedSCC.Users ++ [user] }
        match client.update (.securityContextConstraints foundPrivilegedSCC) h with
        | (some err, h) => (some err, h)
        | (none, h) => (none, h)
      | (.error _, h) => (none, h)
    match client.getServiceAccount
        { Name := serviceAccount.Name, Namespace := serviceAccount.Namespace } h with
    | (.error err, h) =>
      if err.IsNotFound then
        match client.create (.serviceAccount serviceAccount) h with
        | (some err, h) => (some err, h)
        | (none, h) => grant h
      else
        (some err, h)
    | (.ok _, h) => grant h

end certmgr

namespace certmgr

/-- The body of the loop `for i, finalizer := range instance.Finalizers` of `Reconcile`
(lines 100-123), started at index `i` on the entries not yet visited. The first entry equal to
the child name runs the cleanup and returns from `Reconcile`; `none` means the loop ended
without returning. -/
def removeFinalizer (inst : Endpoint) (certMgr : CertManager) (client : Client)
    (scheme : Scheme) (h : History) : Nat → List String → Option ReconcileResult
  | _, [] => none
  | i, finalizer :: rest =>
    if finalizer = certMgr.Name then
      let deleteIssuerAndReturn (h : History) : ReconcileResult :=
        match deleteSelfSignClusterIssuer client scheme inst h with
        | (some err, h) => ⟨false, some err, inst, h⟩
        | (none, h) =>
          let inst : Endpoint :=
            { inst with Finalizers := inst.Finalizers.take i ++ inst.Finalizers.drop (i + 1) }
          ⟨true, none, inst, h⟩
      match client.getConfigMap
          { Name := "cert-manager-controller", Namespace := certMgr.Namespace } h with
      | (.ok foundConfigMap, h) =>
        match client.delete (.configMap foundConfigMap) h with
        | (some err, h) => some ⟨false, some err, inst, h⟩
        | (none, h) => some (deleteIssuerAndReturn h)
      | (.error _, h) => some (deleteIssuerAndReturn h)
    else
      removeFinalizer inst certMgr client scheme h (i + 1) rest

/-- The function `Reconcile` (lines 34-159). The result of `createSelfSignClusterIssuer` on
line 90 is discarded by the Go code, and `err` still holds the nil of the Create before it. The
result is `none` when the Go code would dereference a nil child pointer. -/
def Reconcile (inst : Endpoint) (client : Client) (scheme : Scheme) (h : History) :
    Option ReconcileResult :=
  match client.getDeployment
      { Name := "cert-manager-ibm-cert-manager", Namespace := "cert-manager" } h with
  | (.ok _, h) =>
    match createSelfSignClusterIssuer client scheme inst h with
    | (some err, h) => some ⟨false, some err, inst, h⟩
    | (none, h) => some ⟨false, none, inst, h⟩
  | (.error _, h) =>
    match newCertManagerCR inst with
    | (_, some err) => some ⟨false, some err, inst, h⟩
    | (none, none) => none
    | (some certMgr, none) =>
      match SetControllerReference .Endpoint inst.toObjectMeta certMgr.toObjectMeta scheme with
      | (_, some err) => some ⟨false, some err, inst, h⟩
      | (objectMeta, none) =>
        let certMgr : CertManager := { certMgr with toObjectMeta := objectMeta }
        match client.getCertManager { Name := certMgr.Name, Namespace := certMgr.Namespace } h with
        | (.error err, h) =>
          if err.IsNotFound then
            if inst.DeletionTimestamp = none then
              match createServiceAccount client scheme inst certMgr h with
              | (some err, h) => some ⟨false, some err, inst, h⟩
              | (none, h) =>
                match client.create (.certManager certMgr) h with
                | (some err, h) => some ⟨false, some err, inst, h⟩
                | (none, h) =>
                  let (_, h) := createSelfSignClusterIssuer client scheme inst h
                  let inst : Endpoint :=
                    { inst with Finalizers := inst.Finalizers ++ [certMgr.Name] }
                  some ⟨false, none, inst, h⟩
            else
              match removeFinalizer inst certMgr client scheme h 0 inst.Finalizers with
              | some result => some result
              | none => some ⟨false, none, inst, h⟩
          else
            some ⟨false, some err, inst, h⟩
        | (.ok foundCertManager, h) =>
          if foundCertManager.DeletionTimestamp = none then
            if inst.DeletionTimestamp = none then
              let foundCertManager : CertManager := { foundCertManager with Spec := certMgr.Spec }
              match client.update (.certManager foundCertManager) h with
              | (some err, h) =>
                if ¬ err.IsConflict then
                  some ⟨false, some err, inst, h⟩
                else
                  some ⟨false, none, inst, h⟩
              | (none, h) => some ⟨false, none, inst, h⟩
            else
              match client.delete (.certManager foundCertManager) h with
              | (some err, h) => some ⟨false, some err, inst, h⟩
              | (none, h) => some ⟨true, none, inst, h⟩
          else
            some ⟨true, none, inst, h⟩

end certmgr

/-! ## TopologyCollector (`pkg/topology/topology.go`) -/

/-- The library function `strings.Split` for a separator of one character: the pieces of the
string between the occurrences of the separator (one piece, the string itself, when there is
none). -/
def strings.Split (s : String) (sep : Char) : List String :=
  (s.data.splitOn sep).map String.mk

namespace topology

/-- The function `determineRuntime` (lines 180-189). The result is `none` when an index
expression panics (`nodelist.Items[0]` on an empty list). -/
def determineRuntime (kubeclient : Client) (h : History) : Option (String × History) :=
  match kubeclient.listNodes h with
  | (.error _, h) => some ("docker", h)
  | (.ok nodelist, h) =>
    match nodelist.Items[0]? with
    | none => none
    | some node =>
      let runtime := node.Status.NodeInfo.ContainerRuntimeVersion
      match (strings.Split runtime ':')[0]? with
      | none => none
      | some first => some (first, h)

/-- The function `newTopologyCollectorCR` (lines 131-178). The method `GetImage` of
`KlusterletService` is not part of the sources and is a parameter. The result is `none` when
`determineRuntime` panics. -/
def newTopologyCollectorCR (GetImage : KlusterletService → String → Image × Option GoError)
    (cr : KlusterletService) (client : Client) (h : History) :
    Option ((Option TopologyCollector × Option GoError) × History) :=
  let labels := [("app", cr.Name)]
  match GetImage cr "weave" with
  | (_, some err) => some ((none, some err), h)
  | (weaveImage, none) =>
    match GetImage cr "collector" with
    | (_, some err) => some ((none, some err), h)
    | (collectorImage, none) =>
      match GetImage cr "router" with
      | (_, some err) => some ((none, some err), h)
      | (routerImage, none) =>
        match determineRuntime client h with
        | none => none
        | some (containerRuntime, h) =>
          some ((some
            { Name := cr.Name ++ "-topology"
              Namespace := cr.Namespace
              Labels := labels
              Spec :=
                { FullNameOverride := cr.Name ++ "-topology"
                  ClusterName := cr.Spec.ClusterName
                  ClusterNamespace := cr.Spec.ClusterNamespace
                  ConnectionManager := cr.Name ++ "-connmgr"
                  ContainerRuntime := containerRuntime
                  Enabled := true
                  UpdateInterval := cr.Spec.TopologyCollectorConfig.CollectorUpdateInterval
                  CACertIssuer := cr.Name ++ "-self-signed"
                  ServiceAccount := { Name := cr.Name ++ "-topology-collector" }
                  WeaveImage := weaveImage
                  CollectorImage := collectorImage
                  RouterImage := routerImage
                  ImagePullSecret := cr.Spec.ImagePullSecret } },
            none), h)

end topology

/-- A client of an unreachable cluster: every call fails with the same status error. -/
def Client.unavailable : Client where
  GetApplicationManager _ _ := .error (.status "ServiceUnavailable" "")
  GetCertManager _ _ := .error (.status "ServiceUnavailable" "")
  GetTopologyCollector _ _ := .error (.status "ServiceUnavailable" "")
  GetDeployment _ _ := .error (.status "ServiceUnavailable" "")
  GetConfigMap _ _ := .error (.status "ServiceUnavailable" "")
  GetSecret _ _ := .error (.status "ServiceUnavailable" "")
  GetClusterIssuer _ _ := .error (.status "ServiceUnavailable" "")
  GetServiceAccount _ _ := .error (.status "ServiceUnavailable" "")
  GetSecurityContextConstraints _ _ := .error (.status "ServiceUnavailable" "")
  Create _ _ := some (.status "ServiceUnavailable" "")
  Update _ _ := some (.status "ServiceUnavailable" "")
  Delete _ _ := some (.status "ServiceUnavailable" "")
  ListNodes _ := .error (.status "ServiceUnavailable" "")

/-- A client of a reachable cluster that holds none of the objects asked for: every Get answers
not-found, every write succeeds, and the node list is empty. -/
def Client.emptyCluster : Client where
  GetApplicationManager _ _ := .error (.status "NotFound" "")
  GetCertManager _ _ := .error (.status "NotFound" "")
  GetTopologyCollector _ _ := .error (.status "NotFound" "")
  GetDeployment _ _ := .error (.status "NotFound" "")
  GetConfigMap _ _ := .error (.status "NotFound" "")
  GetSecret _ _ := .error (.status "NotFound" "")
  GetClusterIssuer _ _ := .error (.status "NotFound" "")
  GetServiceAccount _ _ := .error (.status "NotFound" "")
  GetSecurityContextConstraints _ _ := .error (.status "NotFound" "")
  Create _ _ := none
  Update _ _ := none
  Delete _ _ := none
  ListNodes _ := .ok {}

/-- The empty cluster with a platform certificate manager: every Get of a Deployment finds
one. -/
def Client.icpCluster : Client :=
  { Client.emptyCluster with
    GetDeployment := fun _ key => .ok { Name := key.Name, Namespace := key.Namespace } }

/-- A scheme in which the parent kinds are registered. -/
def Scheme.registered : Scheme where
  GVKForObject
    | .Endpoint => .ok { Group := "multicloud.ibm.com", Version := "v1beta1", Kind := "Endpoint" }
    | .KlusterletService =>
      .ok { Group := "klusterlet.ibm.com", Version := "v1alpha1", Kind := "KlusterletService" }
    | _ => .error (.errorf "no kind is registered for the type")

/-- Helpers of the ApplicationManager reconciler that do nothing and succeed. -/
def appmgr.Helpers.noop : appmgr.Helpers where
  create inst _ _ h := (none, inst, h)
  update inst _ _ _ h := (none, inst, h)
  delete _ _ h := (none, h)
  finalize inst _ _ h := (none, inst, h)

namespace topology

/-- What the topology reconciler hands back: the Go result `err`, the parent as the call left
it, and the history of client calls. -/
structure ReconcileResult where
  err : Option GoError
  inst : KlusterletService
  calls : History
  deriving DecidableEq, Repr

/-- The function `createServiceAccount` (lines 191-229). -/
def createServiceAccount (client : Client) (scheme : Scheme) (inst : KlusterletService)
    (topology : TopologyCollector) (h : History) : Option GoError × History :=
  let serviceAccount : ServiceAccount :=
    { Name := topology.Spec.ServiceAccount.Name
      Namespace := topology.Namespace }
  match SetControllerReference .KlusterletService inst.toObjectMeta
      serviceAccount.toObjectMeta scheme with
  | (_, some err) => (some err, h)
  | (objectMeta, none) =>
    let serviceAccount : ServiceAccount := { serviceAccount with toObjectMeta := objectMeta }
    let grant (h : History) : Option GoError × History :=
      match client.getSecurityContextConstraints { Name := "privileged", Namespace := "" } h with
      | (.ok foundPrivilegedSCC, h) =>
        let user :=
          "system:serviceaccount:" ++ serviceAccount.Namespace ++ ":" ++ serviceAccount.Name
        let foundPrivilegedSCC : SecurityContextConstraints :=
          { foundPrivilegedSCC with Users := foundPrivilegedSCC.Users ++ [user] }
        match client.update (.securityContextConstraints foundPrivilegedSCC) h with
        | (some err, h) => (some err, h)
        | (none, h) => (none, h)
      | (.error _, h) => (none, h)
    match client.getServiceAccount
        { Name := serviceAccount.Name, Namespace := serviceAccount.Namespace } h with
    | (.error err, h) =>
      if err.IsNotFound then
        match client.create (.serviceAccount serviceAccount) h with
        | (some err, h) => (some err, h)
        | (none, h) => grant h
      else
        (some err, h)
    | (.ok _, h) => grant h

/-- The loop `for _, secretToDelete := range secretsToDeletes` of `Reconcile` (lines 61-71): the
error of the first failing Delete, which returns from `Reconcile`, or `none` when the loop ran
to its end. -/
def deleteSecrets (client : Client) (ns : String) : List String → History →
    Option GoError × History
  | [], h => (none, h)
  | secretToDelete :: rest, h =>
    match client.getSecret { Name := secretToDelete, Namespace := ns } h with
    | (.ok foundSecretToDelete, h) =>
      match client.delete (.secret foundSecretToDelete) h with
      | (some err, h) => (some err, h)
      | (none, h) => deleteSecrets client ns rest h
    | (.error _, h) => deleteSecrets client ns rest h

/-- The loop `for i, finalizer := range instance.Finalizers` of `Reconcile` (lines 53-75)
together with the `return nil` after it, started at index `i` on the entries not yet visited. -/
def removeFinalizer (inst : KlusterletService) (topologyCollectorCR : TopologyCollector)
    (client : Client) (h : History) : Nat → List String → ReconcileResult
  | _, [] => ⟨none, inst, h⟩
  | i, finalizer :: rest =>
    if finalizer = topologyCollectorCR.Name then
      let secretsToDeletes :=
        [topologyCollectorCR.Name ++ "-ca-cert",
         topologyCollectorCR.Name ++ "-server-secret",
         topologyCollectorCR.Name ++ "-client-secret"]
      match deleteSecrets client topologyCollectorCR.Namespace secretsToDeletes h with
      | (some err, h) => ⟨some err, inst, h⟩
      | (none, h) =>
        let inst : KlusterletService :=
          { inst with Finalizers := inst.Finalizers.take i ++ inst.Finalizers.drop (i + 1) }
        ⟨none, inst, h⟩
    else
      removeFinalizer inst topologyCollectorCR client h (i + 1) rest

/-- The function `Reconcile` (lines 30-129). The method `GetImage` of `KlusterletService` is a
parameter, as in `newTopologyCollectorCR`. A failed Update is logged and `nil` is returned
(line 123). The result is `none` when the Go code panics. -/
def Reconcile (GetImage : KlusterletService → String → Image × Option GoError)
    (inst : KlusterletService) (client : Client) (scheme : Scheme) (h : History) :
    Option ReconcileResult :=
  match newTopologyCollectorCR GetImage inst client h with
  | none => none
  | some ((_, some err), h) => some ⟨some err, inst, h⟩
  | some ((none, none), _) => none
  | some ((some topologyCollectorCR, none), h) =>
    match SetControllerReference .KlusterletService inst.toObjectMeta
        topologyCollectorCR.toObjectMeta scheme with
    | (_, some err) => some ⟨some err, inst, h⟩
    | (objectMeta, none) =>
      let topologyCollectorCR : TopologyCollector :=
        { topologyCollectorCR with toObjectMeta := objectMeta }
      match client.getTopologyCollector
          { Name := topologyCollectorCR.Name, Namespace := topologyCollectorCR.Namespace } h with
      | (.error err, h) =>
        if err.IsNotFound then
          if inst.DeletionTimestamp ≠ none then
            some (removeFinalizer inst topologyCollectorCR client h 0 inst.Finalizers)
          else if inst.Spec.TopologyCollectorConfig.Enabled then
            match createServiceAccount client scheme inst topologyCollectorCR h with
            | (some err, h) => some ⟨some err, inst, h⟩
            | (none, h) =>
              match client.create (.topologyCollector topologyCollectorCR) h with
              | (some err, h) => some ⟨some err, inst, h⟩
              | (none, h) =>
                let inst : KlusterletService :=
                  { inst with Finalizers := inst.Finalizers ++ [topologyCollectorCR.Name] }
                some ⟨none, inst, h⟩
          else
            some ⟨none, inst, h⟩
        else
          some ⟨some err, inst, h⟩
      | (.ok foundTopologyCollector, h) =>
        if foundTopologyCollector.DeletionTimestamp = none then
          if inst.DeletionTimestamp ≠ none ∨
              inst.Spec.TopologyCollectorConfig.Enabled = false then
            match client.delete (.topologyCollector topologyCollectorCR) h with
            | (some err, h) => some ⟨some err, inst, h⟩
            | (none, h) => some ⟨none, inst, h⟩
          else
            let foundTopologyCollector : TopologyCollector :=
              { foundTopologyCollector with Spec := topologyCollectorCR.Spec }
            match client.update (.topologyCollector foundTopologyCollector) h with
            | (some _, h) => some ⟨none, inst, h⟩
            | (none, h) => some ⟨none, inst, h⟩
        else
          some ⟨none, inst, h⟩

end topology

/-! ## An in-memory cluster -/

/-- The metadata of an object. -/
def Obj.objectMeta : Obj → ObjectMeta
  | .applicationManager o => o.toObjectMeta
  | .certManager o => o.toObjectMeta
  | .topologyCollector o => o.toObjectMeta
  | .deployment o => o.toObjectMeta
  | .configMap o => o.toObjectMeta
  | .secret o => o.toObjectMeta
  | .clusterIssuer o => o.toObjectMeta
  | .serviceAccount o => o.toObjectMeta
  | .securityContextConstraints o => o.toObjectMeta

/-- Whether the object has the kind and the key. -/
def Obj.isAt (obj : Obj) (kind : Kind) (key : NamespacedName) : Bool :=
  obj.kind == kind && obj.objectMeta.Name == key.Name &&
    obj.objectMeta.Namespace == key.Namespace

/-- The object that a store which started empty holds under a kind and key after the calls of
the history: a Create stores an absent object, an Update replaces a present one, a Delete
removes it. -/
def History.stored (h : History) (kind : Kind) (key : NamespacedName) : Option Obj :=
  h.foldl
    (fun held call =>
      match call with
      | .Create obj => if obj.isAt kind key && held.isNone then some obj else held
      | .Update obj => if obj.isAt kind key && held.isSome then some obj else held
      | .Delete obj => if obj.isAt kind key then none else held
      | _ => held)
    none

/-- Whether the history left an object with the kind and key of this one in the store. -/
def History.holds (h : History) (obj : Obj) : Bool :=
  (h.stored obj.kind
    { Name := obj.objectMeta.Name, Namespace := obj.objectMeta.Namespace }).isSome

/-- A client of a cluster that started empty and whose only writer is the controller: a Get
answers with what the earlier calls stored or with not-found, a Create fails on a present
object, an Update and a Delete fail on an absent one. The cluster has one node, which runs
docker. -/
def Client.memory : Client where
  GetApplicationManager h key :=
    match h.stored .ApplicationManager key with
    | some (.applicationManager o) => .ok o
    | _ => .error (.status "NotFound" "")
  GetCertManager h key :=
    match h.stored .CertManager key with
    | some (.certManager o) => .ok o
    | _ => .error (.status "NotFound" "")
  GetTopologyCollector h key :=
    match h.stored .TopologyCollector key with
    | some (.topologyCollector o) => .ok o
    | _ => .error (.status "NotFound" "")
  GetDeployment h key :=
    match h.stored .Deployment key with
    | some (.deployment o) => .ok o
    | _ => .error (.status "NotFound" "")
  GetConfigMap h key :=
    match h.stored .ConfigMap key with
    | some (.configMap o) => .ok o
    | _ => .error (.status "NotFound" "")
  GetSecret h key :=
    match h.stored .Secret key with
    | some (.secret o) => .ok o
    | _ => .error (.status "NotFound" "")
  GetClusterIssuer h key :=
    match h.stored .ClusterIssuer key with
    | some (.clusterIssuer o) => .ok o
    | _ => .error (.status "NotFound" "")
  GetServiceAccount h key :=
    match h.stored .ServiceAccount key with
    | some (.serviceAccount o) => .ok o
    | _ => .error (.status "NotFound" "")
  GetSecurityContextConstraints h key :=
    match h.stored .SecurityContextConstraints key with
    | some (.securityContextConstraints o) => .ok o
    | _ => .error (.status "NotFound" "")
  Create h obj := if h.holds obj then some (.status "AlreadyExists" "") else none
  Update h obj := if h.holds obj then none else some (.status "NotFound" "")
  Delete h obj := if h.holds obj then none else some (.status "NotFound" "")
  ListNodes _ :=
    .ok { Items := [{ Status := { NodeInfo := { ContainerRuntimeVersion := "docker://18.9.7" } } }] }

/-- The in-memory cluster with a failing API server for writes of one kind: every Create,
Update and Delete of an object of that kind is refused. -/
def Client.memoryRefusing (kind : Kind) : Client :=
  { Client.memory with
    Create := fun h obj =>
      if obj.kind = kind then some (.status "InternalError" "") else Client.memory.Create h obj
    Update := fun h obj =>
      if obj.kind = kind then some (.status "InternalError" "") else Client.memory.Update h obj
    Delete := fun h obj =>
      if obj.kind = kind then some (.status "InternalError" "") else Client.memory.Delete h obj }

/-- The in-memory cluster whose reads of ConfigMaps, ClusterIssuers and Secrets time out: these
Gets fail with an error that is not not-found. -/
def Client.memoryTimingOut : Client :=
  { Client.memory with
    GetConfigMap := fun _ _ => .error (.status "Timeout" "")
    GetClusterIssuer := fun _ _ => .error (.status "Timeout" "")
    GetSecret := fun _ _ => .error (.status "Timeout" "") }

/-- A stand-in for the method `GetImage` of `KlusterletService` that resolves every
component. -/
def topology.resolveAll (_ : KlusterletService) (name : String) : Image × Option GoError :=
  ({ Repository := name, Tag := "latest" }, none)

/-- The error of the first Delete among the calls `issued` after the history `h` that the
client refused, `none` when every Delete among them went through. -/
def History.failedDelete (client : Client) : History → History → Option GoError
  | _, [] => none
  | h, .Delete obj :: rest =>
    match client.Delete h obj with
    | some e => some e
    | none => History.failedDelete client (h ++ [.Delete obj]) rest
  | h, call :: rest => History.failedDelete client (h ++ [call]) rest

/-- The history `h'` is the history `h` followed by calls that all satisfy `P`. -/
def History.Issues (P : Call → Prop) (h h' : History) : Prop :=
  ∃ issued, h' = h ++ issued ∧ ∀ c ∈ issued, P c

/-- A parent at version "3.2.1", used in the worked examples. -/
def Endpoint.sample : Endpoint :=
  { Name := "c1", Namespace := "ns1", Spec := { Version := "3.2.1" } }

/-- A parent of the topology collector with the add-on enabled, used in the worked examples. -/
def KlusterletService.sample : KlusterletService :=
  { Name := "c1", Namespace := "ns1", Spec := { TopologyCollectorConfig := { Enabled := true } } }

/-- The CertManager that a reconcile of the sample parent builds, owner reference included. -/
def CertManager.sample : CertManager :=
  { Name := "c1-certmgr"
    Namespace := "ns1"
    Labels := [("app", "c1")]
    OwnerReferences :=
      [{ APIVersion := "multicloud.ibm.com/v1beta1", Kind := "Endpoint", Name := "c1",
         Controller := true, BlockOwnerDeletion := true }]
    Spec :=
      { FullNameOverride := "c1-certmgr"
        ClusterResourceNamespace := "ns1"
        ServiceAccount := { Name := "c1-certmgr" }
        Image := { Repository := "icp-cert-manager-controller", Tag := "0.7.0.1" }
        PolicyController := { Enabled := false } } }

/-- The TopologyCollector that a reconcile of the sample parent builds on the in-memory cluster
with `topology.resolveAll`, owner reference included. -/
def TopologyCollector.sample : TopologyCollector :=
  { Name := "c1-topology"
    Namespace := "ns1"
    Labels := [("app", "c1")]
    OwnerReferences :=
      [{ APIVersion := "klusterlet.ibm.com/v1alpha1", Kind := "KlusterletService", Name := "c1",
         Controller := true, BlockOwnerDeletion := true }]
    Spec :=
      { FullNameOverride := "c1-topology"
        ConnectionManager := "c1-connmgr"
        ContainerRuntime := "docker"
        Enabled := true
        CACertIssuer := "c1-self-signed"
        ServiceAccount := { Name := "c1-topology-collector" }
        WeaveImage := { Repository := "weave", Tag := "latest" }
        CollectorImage := { Repository := "collector", Tag := "latest" }
        RouterImage := { Repository := "router", Tag := "latest" } } }

deriving instance DecidableEq for Except

/-- The in-memory cluster on which every Update loses the optimistic-concurrency race: it is
refused with a conflict. -/
def Client.memoryConflicting : Client :=
  { Client.memory with Update := fun _ _ => some (.status "Conflict" "") }

/-- Helpers of the ApplicationManager reconciler whose finalize step fails; the other steps do
nothing and succeed. -/
def appmgr.Helpers.failingFinalize : appmgr.Helpers :=
  { appmgr.Helpers.noop with
    finalize := fun inst _ _ h => (some (.errorf "finalize failed"), inst, h) }

/-! ## ManagedCluster controller (`pkg/controller/managedcluster/managed_cluster_controller.go`) -/

/-- The method `Error` of a Go `error`: the message. -/
def GoError.Error : GoError → String
  | .errorf msg => msg
  | .status _ msg => msg

/-- The library function `strings.Contains`: the second string occurs in the first. -/
def strings.Contains (s substr : String) : Bool :=
  decide (substr.data <:+: s.data)

/-- The library function `strings.EqualFold`: equality under Unicode simple case folding. The
model folds the ASCII letters only; the two agree whenever one argument is "true", the only
use in the sources, since none of the letters t, r, u, e folds to a character outside ASCII. -/
def strings.EqualFold (s t : String) : Bool :=
  s.data.map Char.toLower == t.data.map Char.toLower

/-- The method `IsZero` of `*metav1.Time`: true for the nil pointer and for the zero time. A
timestamp counts the seconds since the zero time. -/
def Time.IsZero : Option Nat → Bool
  | none => true
  | some t => t == 0

/-- The Go index expression `meta.GetAnnotations()[key]`: the value under the key, the empty
string when the key is absent. -/
def ObjectMeta.annotationAt (meta : ObjectMeta) (key : String) : String :=
  (meta.Annotations.lookup key).getD ""

/-- The annotation keys `AnnotationKlusterletDeployMode`, `AnnotationKlusterletHostingClusterName`
and `AnnotationEnableHostedModeAddons` of the package `common`. The package is not part of the
sources, so the three constants are parameters. -/
structure common where
  AnnotationKlusterletDeployMode : String
  AnnotationKlusterletHostingClusterName : String
  AnnotationEnableHostedModeAddons : String

/-- The resource `mcv1.ManagedCluster`; only its metadata is read. -/
structure ManagedCluster extends ObjectMeta where
  deriving DecidableEq, Repr

/-- The struct `kacv1.KlusterletAddonAgentConfigSpec`. -/
structure KlusterletAddonAgentConfigSpec where
  Enabled : Bool := false
  deriving DecidableEq, Repr

/-- The struct `kacv1.KlusterletAddonConfigSpec`, restricted to the fields the controller
sets. -/
structure KlusterletAddonConfigSpec where
  ClusterName : String := ""
  ClusterNamespace : String := ""
  ClusterLabels : List (String × String) := []
  ApplicationManagerConfig : KlusterletAddonAgentConfigSpec := {}
  CertPolicyControllerConfig : KlusterletAddonAgentConfigSpec := {}
  IAMPolicyControllerConfig : KlusterletAddonAgentConfigSpec := {}
  PolicyController : KlusterletAddonAgentConfigSpec := {}
  SearchCollectorConfig : KlusterletAddonAgentConfigSpec := {}
  deriving DecidableEq, Repr

/-- The resource `kacv1.KlusterletAddonConfig`. -/
structure KlusterletAddonConfig extends ObjectMeta where
  Spec : KlusterletAddonConfigSpec := {}
  deriving DecidableEq, Repr

namespace managedcluster

/-- The constant `provisionerAnnotation`. -/
def provisionerAnnotation : String := "cluster.open-cluster-management.io/provisioner"

/-- The constant `disableAddonAutomaticInstallationAnnotationKey`. -/
def disableAddonAutomaticInstallationAnnotationKey : String :=
  "addon.open-cluster-management.io/disable-automatic-installation"

/-- The constant `clusterTypeHypershift`. -/
def clusterTypeHypershift : String := "Hypershift"

/-- The constant `clusterTypeClusterClaim`. -/
def clusterTypeClusterClaim : String := "ClusterClaim"

/-- One call of this controller on the `client.Client` interface. -/
inductive Call where
  | GetManagedCluster (key : NamespacedName)
  | GetKlusterletAddonConfig (key : NamespacedName)
  | Create (obj : KlusterletAddonConfig)
  deriving DecidableEq, Repr

/-- The cluster behind `client.Client`, as this controller uses it: an oracle that answers each
call from the calls issued before it, as `Klusterlet.Client` does. -/
structure Client where
  GetManagedCluster : List Call → NamespacedName → Except GoError ManagedCluster
  GetKlusterletAddonConfig : List Call → NamespacedName → Except GoError KlusterletAddonConfig
  Create : List Call → KlusterletAddonConfig → Option GoError

/-- The function `hostedAddOnEnabled` (lines 109-122). The argument is never the nil interface
where the controller calls it, so the first case of the switch is not modelled. -/
def hostedAddOnEnabled (keys : common) (meta : ObjectMeta) : Bool :=
  if meta.annotationAt keys.AnnotationKlusterletDeployMode ≠ "Hosted" then false
  else if (meta.annotationAt keys.AnnotationKlusterletHostingClusterName).utf8ByteSize = 0 then
    false
  else if ¬ strings.EqualFold (meta.annotationAt keys.AnnotationEnableHostedModeAddons) "true"
  then false
  else true

/-- The function `hypershiftCluster` (lines 124-126). -/
def hypershiftCluster (meta : ObjectMeta) : Bool :=
  strings.Contains (meta.annotationAt provisionerAnnotation)
    "HypershiftDeployment.cluster.open-cluster-management.io"

/-- The function `clusterClaimCluster` (lines 128-130). -/
def clusterClaimCluster (meta : ObjectMeta) : Bool :=
  strings.Contains (meta.annotationAt provisionerAnnotation) "ClusterClaim.hive.openshift.io"

/-- The function `clusterType` (lines 132-142). -/
def clusterType (cluster : ManagedCluster) : String :=
  if clusterClaimCluster cluster.toObjectMeta then clusterTypeClusterClaim
  else if hypershiftCluster cluster.toObjectMeta then clusterTypeHypershift
  else "Unknown"

/-- The function `newKlusterletAddonConfig` (lines 144-198); `none` is the nil pointer. -/
def newKlusterletAddonConfig (clusterType : String) (name : String) (hostedAddOnEnabled : Bool) :
    Option KlusterletAddonConfig :=
  if hostedAddOnEnabled then
    some
      { Namespace := name
        Name := name
        Spec :=
          { ClusterName := name
            ClusterNamespace := name
            ApplicationManagerConfig := { Enabled := false }
            CertPolicyControllerConfig := { Enabled := false }
            IAMPolicyControllerConfig := { Enabled := false }
            PolicyController := { Enabled := true }
            SearchCollectorConfig := { Enabled := false } } }
  else if clusterType = clusterTypeClusterClaim then
    some
      { Namespace := name
        Name := name
        Spec :=
          { ClusterName := name
            ClusterNamespace := name
            ClusterLabels := [("vendor", "OpenShift")]
            ApplicationManagerConfig := { Enabled := true }
            CertPolicyControllerConfig := { Enabled := true }
            IAMPolicyControllerConfig := { Enabled := true }
            PolicyController := { Enabled := true }
            SearchCollectorConfig := { Enabled := true } } }
  else if clusterType = clusterTypeHypershift then
    some
      { Namespace := name
        Name := name
        Spec :=
          { ClusterName := name
            ClusterNamespace := name
            ApplicationManagerConfig := { Enabled := false }
            CertPolicyControllerConfig := { Enabled := true }
            IAMPolicyControllerConfig := { Enabled := true }
            PolicyController := { Enabled := true }
            SearchCollectorConfig := { Enabled := false } } }
  else none

/-- The function `createKlusterletAddonConfig` (lines 85-107): the returned error and the calls
issued. -/
def createKlusterletAddonConfig (keys : common) (client : Client) (cluster : ManagedCluster)
    (h : List Call) : Option GoError × List Call :=
  let name := cluster.Name
  match client.GetKlusterletAddonConfig h { Namespace := name, Name := name },
      h ++ [.GetKlusterletAddonConfig { Namespace := name, Name := name }] with
  | .error err, h =>
    if err.IsNotFound then
      match newKlusterletAddonConfig (clusterType cluster) name
          (hostedAddOnEnabled keys cluster.toObjectMeta) with
      | none => (some (.errorf ("new KlusterletAddonConfig " ++ name)), h)
      | some kacNew =>
        match client.Create h kacNew, h ++ [.Create kacNew] with
        | some err, h =>
          (some (.errorf ("create KlusterletAddonConfig " ++ name ++ " error: " ++ err.Error)),
            h)
        | none, h => (none, h)
    else
      (some (.errorf ("retreive KlusterletAddonConfig " ++ name ++ " error: " ++ err.Error)), h)
  | .ok _, h => (none, h)

/-- The method `ReconcileManagedCluster.Reconcile` (lines 53-83). The returned
`reconcile.Result` is the zero value on every path; the model returns the error and the calls
issued. -/
def Reconcile (keys : common) (client : Client) (request : NamespacedName) (h : List Call) :
    Option GoError × List Call :=
  match client.GetManagedCluster h { Name := request.Name },
      h ++ [.GetManagedCluster { Name := request.Name }] with
  | .error err, h => if err.IsNotFound then (none, h) else (some err, h)
  | .ok managedCluster, h =>
    if ¬ Time.IsZero managedCluster.DeletionTimestamp then (none, h)
    else if ¬ hostedAddOnEnabled keys managedCluster.toObjectMeta ∧
        ¬ hypershiftCluster managedCluster.toObjectMeta ∧
        ¬ clusterClaimCluster managedCluster.toObjectMeta then (none, h)
    else
      match managedCluster.Annotations.lookup disableAddonAutomaticInstallationAnnotationKey with
      | some value =>
        if strings.EqualFold value "true" then (none, h)
        else createKlusterletAddonConfig keys client managedCluster h
      | none => createKlusterletAddonConfig keys client managedCluster h

/-- A cluster that holds one ManagedCluster and the KlusterletAddonConfigs created by the calls
so far: a Get of the cluster answers with it under its name and with not-found otherwise, a Get
of a config answers with the first one created under the key, a Create fails on a present
config. -/
def Client.holding (cluster : ManagedCluster) : Client where
  GetManagedCluster _ key :=
    if key.Name = cluster.Name ∧ key.Namespace = "" then .ok cluster
    else .error (.status "NotFound" "")
  GetKlusterletAddonConfig h key :=
    match h.find? (fun c =>
        match c with
        | .Create obj => obj.Name == key.Name && obj.Namespace == key.Namespace
        | _ => false) with
    | some (.Create obj) => .ok obj
    | _ => .error (.status "NotFound" "")
  Create h obj :=
    if h.any (fun c =>
        match c with
        | .Create o => o.Name == obj.Name && o.Namespace == obj.Namespace
        | _ => false)
    then some (.status "AlreadyExists" "") else none

end managedcluster

/-- Annotation keys for the worked examples. -/
def common.sample : common where
  AnnotationKlusterletDeployMode := "klusterlet-deploy-mode"
  AnnotationKlusterletHostingClusterName := "klusterlet-hosting-cluster-name"
  AnnotationEnableHostedModeAddons := "enable-hosted-mode-addons"

/-- A ManagedCluster provisioned from a ClusterClaim, used in the worked examples. -/
def ManagedCluster.sample : ManagedCluster :=
  { Name := "cluster1"
    Annotations :=
      [("cluster.open-cluster-management.io/provisioner",
        "pool1.ns1.ClusterClaim.hive.openshift.io")] }

/-- The condition under which the specification has `Reconcile` create a KlusterletAddonConfig,
in its words: the ManagedCluster is found, its deletion timestamp is zero, it is
hosted-add-on enabled or its provisioner annotation contains one of the two markers, its
disable-automatic-installation annotation is absent or not "true" ignoring case, and no
KlusterletAddonConfig named and namespaced after the cluster exists. -/
def managedcluster.createCondition (keys : common) (client : managedcluster.Client)
    (request : NamespacedName) (h : List managedcluster.Call) : Bool :=
  match client.GetManagedCluster h { Name := request.Name } with
  | .error _ => false
  | .ok cluster =>
    Time.IsZero cluster.DeletionTimestamp &&
    (managedcluster.hostedAddOnEnabled keys cluster.toObjectMeta ||
      strings.Contains (cluster.annotationAt managedcluster.provisionerAnnotation)
        "HypershiftDeployment.cluster.open-cluster-management.io" ||
      strings.Contains (cluster.annotationAt managedcluster.provisionerAnnotation)
        "ClusterClaim.hive.openshift.io") &&
    (match cluster.Annotations.lookup
        managedcluster.disableAddonAutomaticInstallationAnnotationKey with
      | none => true
      | some value => !strings.EqualFold value "true") &&
    (match client.GetKlusterletAddonConfig
        (h ++ [.GetManagedCluster { Name := request.Name }])
        { Namespace := cluster.Name, Name := cluster.Name } with
      | .error e => e.IsNotFound
      | .ok _ => false)

/-! # Theorems -/

/-! ## Image resolution: lemmas -/

theorem versionNotFound_kind (version : String) :
    IsVersionNotFound (.errorf ("unable to locate image name for version " ++ version)) ∧
      ¬ IsComponentNotFound (.errorf ("unable to locate image name for version " ++ version)) := by
  simp [IsVersionNotFound, IsComponentNotFound, String.data_append, List.cons_prefix_cons]

theorem componentNameNotFound_kind (name : String) :
    IsComponentNotFound (.errorf ("unable to locate image name for component " ++ name)) ∧
      ¬ IsVersionNotFound (.errorf ("unable to locate image name for component " ++ name)) := by
  simp [IsVersionNotFound, IsComponentNotFound, String.data_append, List.cons_prefix_cons]

theorem componentTagNotFound_kind (name : String) :
    IsComponentNotFound (.errorf ("unable to locate image tag for component " ++ name)) ∧
      ¬ IsVersionNotFound (.errorf ("unable to locate image tag for component " ++ name)) := by
  simp [IsVersionNotFound, IsComponentNotFound, String.data_append, List.cons_prefix_cons]

/-- The two tables have the same version keys: "3.2.0", "3.2.1" and "latest". -/
theorem version_key_iff (version : String) :
    ((versionComponentImageNameMap.lookup version).isSome ↔
        version ∈ ["3.2.0", "3.2.1", "latest"]) ∧
      ((versionComponentTagMap.lookup version).isSome ↔
        version ∈ ["3.2.0", "3.2.1", "latest"]) := by
  simp only [versionComponentImageNameMap, versionComponentTagMap, List.lookup_cons,
    List.lookup_nil]
  by_cases h1 : version = "3.2.0"
  · simp [h1]
  · by_cases h2 : version = "3.2.1"
    · simp [h2]
    · by_cases h3 : version = "latest"
      · simp [h3]
      · have b1 : (version == "3.2.0") = false := by simpa using h1
        have b2 : (version == "3.2.1") = false := by simpa using h2
        have b3 : (version == "latest") = false := by simpa using h3
        simp [b1, b2, b3, h1, h2, h3]

/-- Resolution succeeds exactly when the component is a key of both tables of the version. -/
theorem GetImage_ok_iff (inst : Endpoint) (name : String) :
    (GetImage inst name).2 = none ↔
      (imageNameFor inst.Spec.Version name).isSome ∧ (tagFor inst.Spec.Version name).isSome := by
  unfold GetImage imageNameFor tagFor
  cases h1 : versionComponentImageNameMap.lookup inst.Spec.Version with
  | none => simp
  | some componentImageMap =>
    dsimp only [Option.bind]
    cases h2 : componentImageMap.lookup name with
    | none => simp
    | some imageName =>
      dsimp only
      cases h3 : versionComponentTagMap.lookup inst.Spec.Version with
      | none => simp
      | some componentTagMap =>
        dsimp only
        cases h4 : componentTagMap.lookup name <;> simp

/-! ## Image resolution: the claims -/

/-- C1: at version "3.2.0" with no registry override and no postfix, "router" resolves to
repository "icp-management-ingress" with tag "2.3.0"; "prometheus" at "3.2.0" fails with the
component-not-found error; "router" at version "9.9.9" fails with the version-not-found error. -/
theorem C1_resolution_table (m : ObjectMeta) (s : EndpointSpec) :
    GetImage { m with Spec := { s with Version := "3.2.0", ImageRegistry := "",
                                       ImageNamePostfix := "" } } "router"
        = ({ Repository := "icp-management-ingress", Tag := "2.3.0",
             PullPolicy := s.ImagePullPolicy }, none) ∧
      (∃ e, (GetImage { m with Spec := { s with Version := "3.2.0" } } "prometheus").2 = some e ∧
        e = .errorf "unable to locate image name for component prometheus" ∧
        IsComponentNotFound e ∧ ¬ IsVersionNotFound e) ∧
      (∃ e, (GetImage { m with Spec := { s with Version := "9.9.9" } } "router").2 = some e ∧
        e = .errorf "unable to locate image name for version 9.9.9" ∧
        IsVersionNotFound e ∧ ¬ IsComponentNotFound e) := by
  refine ⟨?_, ⟨_, ?_, rfl, by decide, by decide⟩, ⟨_, ?_, rfl, by decide, by decide⟩⟩
  · simp [GetImage, versionComponentImageNameMap, versionComponentTagMap, List.lookup]
  · simp [GetImage, versionComponentImageNameMap, List.lookup]
  · simp [GetImage, versionComponentImageNameMap, List.lookup]

/-- C2: when the version is none of "3.2.0", "3.2.1", "latest" it is a key of neither table, and
GetImage fails for every component, registry and postfix with the version-not-found error, which
is not the component-not-found error. -/
theorem C2_version_not_found (inst : Endpoint) (name : String)
    (h : inst.Spec.Version ∉ ["3.2.0", "3.2.1", "latest"]) :
    versionComponentImageNameMap.lookup inst.Spec.Version = none ∧
      GetImage inst name =
        ({}, some (.errorf ("unable to locate image name for version " ++ inst.Spec.Version))) ∧
      IsVersionNotFound
        (.errorf ("unable to locate image name for version " ++ inst.Spec.Version)) ∧
      ¬ IsComponentNotFound
        (.errorf ("unable to locate image name for version " ++ inst.Spec.Version)) := by
  have hk : versionComponentImageNameMap.lookup inst.Spec.Version = none := by
    have := (version_key_iff inst.Spec.Version).1
    cases hl : versionComponentImageNameMap.lookup inst.Spec.Version with
    | none => rfl
    | some x => rw [hl] at this; exact absurd (this.1 rfl) h
  refine ⟨hk, ?_, (versionNotFound_kind _).1, (versionNotFound_kind _).2⟩
  unfold GetImage
  rw [hk]

theorem C2_version_not_found_witness :
    GetImage { Spec := { Version := "9.9.9", ImageRegistry := "r" } } "router" =
      ({}, some (.errorf "unable to locate image name for version 9.9.9")) :=
  (C2_version_not_found { Spec := { Version := "9.9.9", ImageRegistry := "r" } } "router"
    (by decide)).2.1

/-- C3: when the version is a key of the image-name table and the component is not a key of that
version's image-name table, GetImage fails with the component-not-found error, which is not the
version-not-found error, whatever the registry and the postfix are. -/
theorem C3_component_not_found (inst : Endpoint) (name : String)
    (componentImageMap : List (String × String))
    (hv : versionComponentImageNameMap.lookup inst.Spec.Version = some componentImageMap)
    (hc : componentImageMap.lookup name = none) :
    GetImage inst name =
        ({}, some (.errorf ("unable to locate image name for component " ++ name))) ∧
      IsComponentNotFound (.errorf ("unable to locate image name for component " ++ name)) ∧
      ¬ IsVersionNotFound (.errorf ("unable to locate image name for component " ++ name)) := by
  refine ⟨?_, (componentNameNotFound_kind _).1, (componentNameNotFound_kind _).2⟩
  unfold GetImage
  rw [hv]
  simp only [hc]

theorem C3_component_not_found_witness :
    GetImage { Spec := { Version := "3.2.0", ImageNamePostfix := "-fips" } } "prometheus" =
      ({}, some (.errorf "unable to locate image name for component prometheus")) :=
  (C3_component_not_found { Spec := { Version := "3.2.0", ImageNamePostfix := "-fips" } }
    "prometheus" _ (by simp [versionComponentImageNameMap, List.lookup]; rfl)
    (by simp [List.lookup])).1

/-- C4: a component that is a key of the version's image-name table but not of its tag table
fails with the component-not-found error (the tag message), and GetImage succeeds only if the
component is a key of both tables of the version. -/
theorem C4_name_without_tag (inst : Endpoint) (name : String)
    (hn : (imageNameFor inst.Spec.Version name).isSome)
    (ht : tagFor inst.Spec.Version name = none) :
    (GetImage inst name).2 =
        some (.errorf ("unable to locate image tag for component " ++ name)) ∧
      IsComponentNotFound (.errorf ("unable to locate image tag for component " ++ name)) ∧
      ¬ IsVersionNotFound (.errorf ("unable to locate image tag for component " ++ name)) ∧
      ∀ (inst' : Endpoint) (name' : String), (GetImage inst' name').2 = none →
        (imageNameFor inst'.Spec.Version name').isSome ∧
          (tagFor inst'.Spec.Version name').isSome := by
  refine ⟨?_, (componentTagNotFound_kind _).1, (componentTagNotFound_kind _).2,
    fun inst' name' h => (GetImage_ok_iff inst' name').1 h⟩
  unfold imageNameFor at hn
  unfold tagFor at ht
  unfold GetImage
  cases h1 : versionComponentImageNameMap.lookup inst.Spec.Version with
  | none => simp [h1] at hn
  | some componentImageMap =>
    have hv : (versionComponentTagMap.lookup inst.Spec.Version).isSome :=
      (version_key_iff _).2.2 ((version_key_iff _).1.1 (by simp [h1]))
    rw [h1] at hn
    dsimp only [Option.bind] at hn ⊢
    cases h2 : componentImageMap.lookup name with
    | none => simp [h2] at hn
    | some imageName =>
      dsimp only
      cases h3 : versionComponentTagMap.lookup inst.Spec.Version with
      | none => simp [h3] at hv
      | some componentTagMap =>
        rw [h3] at ht
        dsimp only [Option.bind] at ht ⊢
        rw [ht]

theorem C4_name_without_tag_witness :
    (GetImage { Spec := { Version := "3.2.0" } } "helmcrd_admission_controller").2 =
        some (.errorf "unable to locate image tag for component helmcrd_admission_controller") ∧
      (GetImage { Spec := { Version := "3.2.1" } } "monitoring-router").2 =
        some (.errorf "unable to locate image tag for component monitoring-router") :=
  ⟨(C4_name_without_tag { Spec := { Version := "3.2.0" } } "helmcrd_admission_controller"
      (by simp [imageNameFor, versionComponentImageNameMap, List.lookup])
      (by simp [tagFor, versionComponentTagMap, List.lookup])).1,
   (C4_name_without_tag { Spec := { Version := "3.2.1" } } "monitoring-router"
      (by simp [imageNameFor, versionComponentImageNameMap, List.lookup])
      (by simp [tagFor, versionComponentTagMap, List.lookup])).1⟩

/-- C5: when GetImage succeeds, the repository is the image-name table entry of the version and
component, preceded by the registry and "/" when the registry is non-empty, and followed by the
postfix (an empty postfix appends nothing). -/
theorem C5_repository_composition (inst : Endpoint) (name : String)
    (h : (GetImage inst name).2 = none) :
    ∃ imageName, imageNameFor inst.Spec.Version name = some imageName ∧
      (GetImage inst name).1.Repository =
        (if inst.Spec.ImageRegistry ≠ "" then
          inst.Spec.ImageRegistry ++ "/" ++ imageName ++ inst.Spec.ImageNamePostfix
        else imageName ++ inst.Spec.ImageNamePostfix) ∧
      (inst.Spec.ImageNamePostfix = "" →
        (GetImage inst name).1.Repository =
          (if inst.Spec.ImageRegistry ≠ "" then inst.Spec.ImageRegistry ++ "/" ++ imageName
           else imageName)) := by
  unfold imageNameFor
  unfold GetImage at h ⊢
  cases h1 : versionComponentImageNameMap.lookup inst.Spec.Version with
  | none => simp [h1] at h
  | some componentImageMap =>
    rw [h1] at h
    dsimp only [Option.bind] at h ⊢
    cases h2 : componentImageMap.lookup name with
    | none => simp [h2] at h
    | some imageName =>
      rw [h2] at h
      dsimp only at h ⊢
      refine ⟨imageName, rfl, ?_⟩
      cases h3 : versionComponentTagMap.lookup inst.Spec.Version with
      | none => simp [h3] at h
      | some componentTagMap =>
        rw [h3] at h
        dsimp only at h ⊢
        cases h4 : componentTagMap.lookup name with
        | none => simp [h4] at h
        | some tag =>
          dsimp only
          by_cases hr : inst.Spec.ImageRegistry = "" <;>
            by_cases hp : inst.Spec.ImageNamePostfix = "" <;> simp [hr, hp]

theorem C5_repository_composition_witness :
    (GetImage { Spec := { Version := "3.2.1", ImageRegistry := "myregistry.example.com" } }
        "mongodb").2 = none ∧
      (GetImage { Spec := { Version := "3.2.1", ImageRegistry := "myregistry.example.com" } }
        "mongodb").1.Repository = "myregistry.example.com/icp-mongodb" ∧
      (GetImage { Spec := { Version := "3.2.1", ImageRegistry := "myregistry.example.com" } }
        "mongodb").1.Tag = "4.0.6-f1" := by
  have hok :
      (GetImage { Spec := { Version := "3.2.1", ImageRegistry := "myregistry.example.com" } }
        "mongodb").2 = none := by
    simp [GetImage, versionComponentImageNameMap, versionComponentTagMap, List.lookup]
  obtain ⟨imageName, hn, hrepo, -⟩ := C5_repository_composition
    { Spec := { Version := "3.2.1", ImageRegistry := "myregistry.example.com" } } "mongodb" hok
  have hi : imageName = "icp-mongodb" := by
    simpa [imageNameFor, versionComponentImageNameMap, List.lookup] using hn.symm
  refine ⟨hok, ?_, ?_⟩
  · rw [hrepo, hi]; decide
  · simp [GetImage, versionComponentImageNameMap, versionComponentTagMap, List.lookup]

/-- C6: when GetImage succeeds, the pull policy is the parent's ImagePullPolicy and the tag is
the tag-table entry of the version and component; replacing the registry and the postfix by any
other values keeps the success, the tag and the pull policy. -/
theorem C6_tag_and_pull_policy (inst : Endpoint) (name reg post : String)
    (h : (GetImage inst name).2 = none) :
    (GetImage inst name).1.PullPolicy = inst.Spec.ImagePullPolicy ∧
      tagFor inst.Spec.Version name = some (GetImage inst name).1.Tag ∧
      (GetImage { inst with Spec := { inst.Spec with ImageRegistry := reg,
                                                     ImageNamePostfix := post } } name).2
        = none ∧
      (GetImage { inst with Spec := { inst.Spec with ImageRegistry := reg,
                                                     ImageNamePostfix := post } } name).1.Tag
        = (GetImage inst name).1.Tag ∧
      (GetImage { inst with Spec := { inst.Spec with ImageRegistry := reg,
                                                     ImageNamePostfix := post } } name).1.PullPolicy
        = (GetImage inst name).1.PullPolicy := by
  unfold tagFor
  unfold GetImage at h ⊢
  dsimp only
  cases h1 : versionComponentImageNameMap.lookup inst.Spec.Version with
  | none => simp [h1] at h
  | some componentImageMap =>
    rw [h1] at h
    dsimp only at h ⊢
    cases h2 : componentImageMap.lookup name with
    | none => simp [h2] at h
    | some imageName =>
      rw [h2] at h
      dsimp only at h ⊢
      cases h3 : versionComponentTagMap.lookup inst.Spec.Version with
      | none => simp [h3] at h
      | some componentTagMap =>
        rw [h3] at h
        dsimp only [Option.bind] at h ⊢
        cases h4 : componentTagMap.lookup name with
        | none => simp [h4] at h
        | some tag => simp

theorem C6_tag_and_pull_policy_witness :
    (GetImage { Spec := { Version := "latest", ImagePullPolicy := "Always",
                          ImageRegistry := "quay.io/acm", ImageNamePostfix := "-fips" } }
        "tiller").1 =
      { Repository := "quay.io/acm/tiller-fips", Tag := "v2.12.3-icp-latest",
        PullPolicy := "Always" } ∧
    (GetImage { Spec := { Version := "latest", ImagePullPolicy := "Always" } } "tiller").1.Tag
      = "v2.12.3-icp-latest" := by
  have hok : (GetImage { Spec := { Version := "latest", ImagePullPolicy := "Always" } }
      "tiller").2 = none := by
    simp [GetImage, versionComponentImageNameMap, versionComponentTagMap, List.lookup]
  have h := C6_tag_and_pull_policy { Spec := { Version := "latest", ImagePullPolicy := "Always" } }
    "tiller" "quay.io/acm" "-fips" hok
  refine ⟨?_, ?_⟩
  · simp [GetImage, versionComponentImageNameMap, versionComponentTagMap, List.lookup]
  · have := h.2.1
    simpa [tagFor, versionComponentTagMap, List.lookup] using this.symm

/-! ## Child builders: lemmas -/

/-- On success the tag of the image is the tag-table entry. -/
theorem GetImage_tag (inst : Endpoint) (name : String) (h : (GetImage inst name).2 = none) :
    tagFor inst.Spec.Version name = some (GetImage inst name).1.Tag := by
  unfold tagFor
  unfold GetImage at h ⊢
  cases h1 : versionComponentImageNameMap.lookup inst.Spec.Version with
  | none => simp [h1] at h
  | some componentImageMap =>
    rw [h1] at h
    dsimp only at h ⊢
    cases h2 : componentImageMap.lookup name with
    | none => simp [h2] at h
    | some imageName =>
      rw [h2] at h
      dsimp only at h ⊢
      cases h3 : versionComponentTagMap.lookup inst.Spec.Version with
      | none => simp [h3] at h
      | some componentTagMap =>
        rw [h3] at h
        dsimp only [Option.bind] at h ⊢
        cases h4 : componentTagMap.lookup name with
        | none => simp [h4] at h
        | some tag => simp

/-- The tags of the components the add-on builders ask for are never empty. -/
theorem required_tag_ne_empty (version name tag : String)
    (hname : name ∈ ["deployable", "subscription", "cert-manager-controller"])
    (h : tagFor version name = some tag) : tag ≠ "" := by
  have hv : version ∈ ["3.2.0", "3.2.1", "latest"] := by
    apply (version_key_iff version).2.1
    unfold tagFor at h
    cases hl : versionComponentTagMap.lookup version with
    | none => simp [hl] at h
    | some x => rfl
  simp only [List.mem_cons, List.mem_singleton, List.not_mem_nil, or_false] at hv hname
  rcases hv with rfl | rfl | rfl <;> rcases hname with rfl | rfl | rfl <;>
    simp [tagFor, versionComponentTagMap, List.lookup] at h <;> subst h <;> decide

/-- A resolved image of a required component is not the zero value of `Image`. -/
theorem required_image_ne_zero (inst : Endpoint) (name : String)
    (hname : name ∈ ["deployable", "subscription", "cert-manager-controller"])
    (h : (GetImage inst name).2 = none) : (GetImage inst name).1 ≠ {} := by
  intro hz
  have ht := GetImage_tag inst name h
  rw [hz] at ht
  exact required_tag_ne_empty _ _ _ hname ht rfl

theorem string_append_right_cancel (a b s : String) (h : a ++ s = b ++ s) : a = b := by
  have hd := congrArg String.data h
  simp only [String.data_append, List.append_left_inj] at hd
  exact String.ext hd

/-- The two outcomes of `newApplicationManagerCR`, by the outcomes of its two resolutions. -/
theorem newApplicationManagerCR_cases (inst : Endpoint) :
    (∃ e, (GetImage inst "deployable").2 = some e ∧
        appmgr.newApplicationManagerCR inst = (none, some e)) ∨
      (∃ e, (GetImage inst "deployable").2 = none ∧ (GetImage inst "subscription").2 = some e ∧
        appmgr.newApplicationManagerCR inst = (none, some e)) ∨
      ((GetImage inst "deployable").2 = none ∧ (GetImage inst "subscription").2 = none ∧
        appmgr.newApplicationManagerCR inst =
          (some
            { Name := inst.Name ++ "-appmgr"
              Namespace := inst.Namespace
              Labels := [("app", inst.Name)]
              Spec :=
                { FullNameOverride := inst.Name ++ "-appmgr"
                  ConnectionManager := inst.Name ++ "-connmgr"
                  ClusterName := inst.Spec.ClusterName
                  ClusterNamespace := inst.Spec.ClusterNamespace
                  DeployableSpec := { Image := (GetImage inst "deployable").1 }
                  SubscriptionSpec := { Image := (GetImage inst "subscription").1 }
                  ImagePullSecret := inst.Spec.ImagePullSecret } }, none)) := by
  unfold appmgr.newApplicationManagerCR
  rcases hd : GetImage inst "deployable" with ⟨i1, _ | e1⟩
  · rcases hs : GetImage inst "subscription" with ⟨i2, _ | e2⟩
    · exact Or.inr (Or.inr ⟨rfl, rfl, rfl⟩)
    · exact Or.inr (Or.inl ⟨e2, rfl, rfl, rfl⟩)
  · exact Or.inl ⟨e1, rfl, rfl⟩

/-- The two outcomes of `newCertManagerCR`, by the outcome of its resolution. -/
theorem newCertManagerCR_cases (cr : Endpoint) :
    (∃ e, (GetImage cr "cert-manager-controller").2 = some e ∧
        certmgr.newCertManagerCR cr = (none, some e)) ∨
      ((GetImage cr "cert-manager-controller").2 = none ∧
        certmgr.newCertManagerCR cr =
          (some
            { Name := cr.Name ++ "-certmgr"
              Namespace := cr.Namespace
              Labels := [("app", cr.Name)]
              Spec :=
                { FullNameOverride := cr.Name ++ "-certmgr"
                  ClusterResourceNamespace := cr.Namespace
                  ServiceAccount := { Name := cr.Name ++ "-certmgr" }
                  Image := (GetImage cr "cert-manager-controller").1
                  PolicyController := { Enabled := false } } }, none)) := by
  unfold certmgr.newCertManagerCR
  rcases hd : GetImage cr "cert-manager-controller" with ⟨i1, _ | e1⟩
  · exact Or.inr ⟨rfl, rfl⟩
  · exact Or.inl ⟨e1, rfl, rfl⟩

/-! ## Child builders: the claims -/

/-- C7: child construction is all-or-nothing. newApplicationManagerCR returns a child exactly
when "deployable" and "subscription" both resolve, newCertManagerCR exactly when
"cert-manager-controller" resolves; when a required image fails the builder returns nil
together with that error, and when it succeeds the image fields of the child are the resolved
images, none of which is the zero-value image. -/
theorem C7_all_or_nothing (inst : Endpoint) :
    (((appmgr.newApplicationManagerCR inst).1.isSome ↔
        (GetImage inst "deployable").2 = none ∧ (GetImage inst "subscription").2 = none) ∧
      (∀ e, (GetImage inst "deployable").2 = some e →
        appmgr.newApplicationManagerCR inst = (none, some e)) ∧
      (∀ e, (GetImage inst "deployable").2 = none → (GetImage inst "subscription").2 = some e →
        appmgr.newApplicationManagerCR inst = (none, some e)) ∧
      (∀ child, (appmgr.newApplicationManagerCR inst).1 = some child →
        (appmgr.newApplicationManagerCR inst).2 = none ∧
        child.Spec.DeployableSpec.Image = (GetImage inst "deployable").1 ∧
        child.Spec.SubscriptionSpec.Image = (GetImage inst "subscription").1 ∧
        child.Spec.DeployableSpec.Image ≠ {} ∧ child.Spec.SubscriptionSpec.Image ≠ {})) ∧
    (((certmgr.newCertManagerCR inst).1.isSome ↔
        (GetImage inst "cert-manager-controller").2 = none) ∧
      (∀ e, (GetImage inst "cert-manager-controller").2 = some e →
        certmgr.newCertManagerCR inst = (none, some e)) ∧
      (∀ child, (certmgr.newCertManagerCR inst).1 = some child →
        (certmgr.newCertManagerCR inst).2 = none ∧
        child.Spec.Image = (GetImage inst "cert-manager-controller").1 ∧
        child.Spec.Image ≠ {})) := by
  constructor
  · rcases newApplicationManagerCR_cases inst with ⟨e, h1, hr⟩ | ⟨e, h1, h2, hr⟩ | ⟨h1, h2, hr⟩
    · refine ⟨by simp [hr, h1], ?_, ?_, ?_⟩
      · intro e' he'; rw [h1] at he'; cases he'; exact hr
      · intro e' he'; rw [h1] at he'; cases he'
      · intro child hc; rw [hr] at hc; cases hc
    · refine ⟨by simp [hr, h2], ?_, ?_, ?_⟩
      · intro e' he'; rw [h1] at he'; cases he'
      · intro e' _ he'; rw [h2] at he'; cases he'; exact hr
      · intro child hc; rw [hr] at hc; cases hc
    · refine ⟨by simp [hr, h1, h2], ?_, ?_, ?_⟩
      · intro e' he'; rw [h1] at he'; cases he'
      · intro e' _ he'; rw [h2] at he'; cases he'
      · intro child hc
        rw [hr] at hc ⊢
        cases hc
        exact ⟨rfl, rfl, rfl, required_image_ne_zero inst _ (by simp) h1,
          required_image_ne_zero inst _ (by simp) h2⟩
  · rcases newCertManagerCR_cases inst with ⟨e, h1, hr⟩ | ⟨h1, hr⟩
    · refine ⟨by simp [hr, h1], ?_, ?_⟩
      · intro e' he'; rw [h1] at he'; cases he'; exact hr
      · intro child hc; rw [hr] at hc; cases hc
    · refine ⟨by simp [hr, h1], ?_, ?_⟩
      · intro e' he'; rw [h1] at he'; cases he'
      · intro child hc
        rw [hr] at hc ⊢
        cases hc
        exact ⟨rfl, rfl, required_image_ne_zero inst _ (by simp) h1⟩

theorem C7_all_or_nothing_witness :
    (appmgr.newApplicationManagerCR { Name := "c1", Spec := { Version := "9.9.9" } } =
        (none, some (.errorf "unable to locate image name for version 9.9.9"))) ∧
      (certmgr.newCertManagerCR { Name := "c1", Spec := { Version := "9.9.9" } } =
        (none, some (.errorf "unable to locate image name for version 9.9.9"))) :=
  ⟨(C7_all_or_nothing { Name := "c1", Spec := { Version := "9.9.9" } }).1.2.1 _
      (by simp [GetImage, versionComponentImageNameMap, List.lookup]),
   (C7_all_or_nothing { Name := "c1", Spec := { Version := "9.9.9" } }).2.2.1 _
      (by simp [GetImage, versionComponentImageNameMap, List.lookup])⟩

/-- C8: when a build succeeds, the child name is the parent name followed by the add-on suffix
("-appmgr", "-certmgr", "-topology"), the child namespace is the parent namespace, the label
"app" is the parent name and Spec.FullNameOverride is the child name; parents with different
names never yield the same child name for the same add-on kind. -/
theorem C8_child_identity :
    (∀ (inst : Endpoint) (child : ApplicationManager),
      (appmgr.newApplicationManagerCR inst).1 = some child →
        child.Name = inst.Name ++ "-appmgr" ∧ child.Namespace = inst.Namespace ∧
        child.Labels.lookup "app" = some inst.Name ∧ child.Spec.FullNameOverride = child.Name) ∧
    (∀ (inst : Endpoint) (child : CertManager),
      (certmgr.newCertManagerCR inst).1 = some child →
        child.Name = inst.Name ++ "-certmgr" ∧ child.Namespace = inst.Namespace ∧
        child.Labels.lookup "app" = some inst.Name ∧ child.Spec.FullNameOverride = child.Name) ∧
    (∀ (GetImage : KlusterletService → String → Image × Option GoError)
       (cr : KlusterletService) (client : Client) (h h' : History) (err : Option GoError)
       (child : TopologyCollector),
      topology.newTopologyCollectorCR GetImage cr client h = some ((some child, err), h') →
        child.Name = cr.Name ++ "-topology" ∧ child.Namespace = cr.Namespace ∧
        child.Labels.lookup "app" = some cr.Name ∧ child.Spec.FullNameOverride = child.Name) ∧
    (∀ (inst₁ inst₂ : Endpoint) (child₁ child₂ : ApplicationManager),
      (appmgr.newApplicationManagerCR inst₁).1 = some child₁ →
      (appmgr.newApplicationManagerCR inst₂).1 = some child₂ →
      inst₁.Name ≠ inst₂.Name → child₁.Name ≠ child₂.Name) ∧
    (∀ (inst₁ inst₂ : Endpoint) (child₁ child₂ : CertManager),
      (certmgr.newCertManagerCR inst₁).1 = some child₁ →
      (certmgr.newCertManagerCR inst₂).1 = some child₂ →
      inst₁.Name ≠ inst₂.Name → child₁.Name ≠ child₂.Name) ∧
    (∀ (GetImage : KlusterletService → String → Image × Option GoError)
       (cr₁ cr₂ : KlusterletService) (client₁ client₂ : Client) (h₁ h₂ h₁' h₂' : History)
       (err₁ err₂ : Option GoError) (child₁ child₂ : TopologyCollector),
      topology.newTopologyCollectorCR GetImage cr₁ client₁ h₁ = some ((some child₁, err₁), h₁') →
      topology.newTopologyCollectorCR GetImage cr₂ client₂ h₂ = some ((some child₂, err₂), h₂') →
      cr₁.Name ≠ cr₂.Name → child₁.Name ≠ child₂.Name) := by
  have happ : ∀ (inst : Endpoint) (child : ApplicationManager),
      (appmgr.newApplicationManagerCR inst).1 = some child →
        child.Name = inst.Name ++ "-appmgr" ∧ child.Namespace = inst.Namespace ∧
        child.Labels.lookup "app" = some inst.Name ∧
        child.Spec.FullNameOverride = child.Name := by
    intro inst child hc
    rcases newApplicationManagerCR_cases inst with ⟨e, -, hr⟩ | ⟨e, -, -, hr⟩ | ⟨-, -, hr⟩ <;>
      rw [hr] at hc <;> cases hc
    exact ⟨rfl, rfl, by simp [List.lookup], rfl⟩
  have hcert : ∀ (inst : Endpoint) (child : CertManager),
      (certmgr.newCertManagerCR inst).1 = some child →
        child.Name = inst.Name ++ "-certmgr" ∧ child.Namespace = inst.Namespace ∧
        child.Labels.lookup "app" = some inst.Name ∧
        child.Spec.FullNameOverride = child.Name := by
    intro inst child hc
    rcases newCertManagerCR_cases inst with ⟨e, -, hr⟩ | ⟨-, hr⟩ <;> rw [hr] at hc <;> cases hc
    exact ⟨rfl, rfl, by simp [List.lookup], rfl⟩
  have htopo : ∀ (GetImage : KlusterletService → String → Image × Option GoError)
      (cr : KlusterletService) (client : Client) (h h' : History) (err : Option GoError)
      (child : TopologyCollector),
      topology.newTopologyCollectorCR GetImage cr client h = some ((some child, err), h') →
        child.Name = cr.Name ++ "-topology" ∧ child.Namespace = cr.Namespace ∧
        child.Labels.lookup "app" = some cr.Name ∧
        child.Spec.FullNameOverride = child.Name := by
    intro GetImage cr client h h' err child hc
    unfold topology.newTopologyCollectorCR at hc
    rcases hw : GetImage cr "weave" with ⟨i1, _ | e1⟩ <;> rw [hw] at hc <;>
      dsimp only at hc
    · rcases hcol : GetImage cr "collector" with ⟨i2, _ | e2⟩ <;> rw [hcol] at hc <;>
        dsimp only at hc
      · rcases hro : GetImage cr "router" with ⟨i3, _ | e3⟩ <;> rw [hro] at hc <;>
          dsimp only at hc
        · rcases hrt : topology.determineRuntime client h with _ | ⟨rt, h2⟩ <;>
            rw [hrt] at hc <;> dsimp only at hc
          · cases hc
          · cases hc
            exact ⟨rfl, rfl, by simp [List.lookup], rfl⟩
        · cases hc
      · cases hc
    · cases hc
  refine ⟨happ, hcert, htopo, ?_, ?_, ?_⟩
  · intro inst₁ inst₂ child₁ child₂ h₁ h₂ hne heq
    rw [(happ _ _ h₁).1, (happ _ _ h₂).1] at heq
    exact hne (string_append_right_cancel _ _ _ heq)
  · intro inst₁ inst₂ child₁ child₂ h₁ h₂ hne heq
    rw [(hcert _ _ h₁).1, (hcert _ _ h₂).1] at heq
    exact hne (string_append_right_cancel _ _ _ heq)
  · intro GetImage cr₁ cr₂ client₁ client₂ h₁ h₂ h₁' h₂' err₁ err₂ child₁ child₂ e₁ e₂ hne heq
    rw [(htopo _ _ _ _ _ _ _ e₁).1, (htopo _ _ _ _ _ _ _ e₂).1] at heq
    exact hne (string_append_right_cancel _ _ _ heq)

theorem C8_child_identity_witness :
    (∃ child : ApplicationManager,
      (appmgr.newApplicationManagerCR
        { Name := "cluster1", Namespace := "ns1", Spec := { Version := "3.2.0" } }).1
          = some child ∧
      child.Name = "cluster1-appmgr" ∧ child.Namespace = "ns1") ∧
    (∃ child : TopologyCollector,
      topology.newTopologyCollectorCR (fun _ _ => ({}, none))
        { Name := "cluster1", Namespace := "ns1" } Client.unavailable []
          = some ((some child, none), [.List .Node]) ∧
      child.Name = "cluster1-topology" ∧ child.Namespace = "ns1") := by
  constructor
  · rcases hb : (appmgr.newApplicationManagerCR
        { Name := "cluster1", Namespace := "ns1", Spec := { Version := "3.2.0" } }).1 with
      _ | child
    · simp [appmgr.newApplicationManagerCR, GetImage, versionComponentImageNameMap,
        versionComponentTagMap, List.lookup] at hb
    · have h := C8_child_identity.1 _ child hb
      exact ⟨child, rfl, by rw [h.1]; decide, h.2.1⟩
  · refine ⟨_, rfl, ?_⟩
    have h := C8_child_identity.2.2.1 (fun _ _ => ({}, none))
      { Name := "cluster1", Namespace := "ns1" } Client.unavailable [] _ _ _ rfl
    exact ⟨by rw [h.1]; decide, h.2.1⟩

/-! ## Reconcile: lemmas -/

/-- What `createSelfSignClusterIssuer` does: nothing when the owner reference cannot be set,
else one Get of the issuer named after the parent, followed by one Create of that issuer
exactly when the Get answered not-found. -/
theorem createSelfSignClusterIssuer_spec (client : Client) (scheme : Scheme) (cr : Endpoint)
    (h : History) :
    (∃ e, scheme.GVKForObject .Endpoint = .error e ∧
        certmgr.createSelfSignClusterIssuer client scheme cr h = (some e, h)) ∨
      (∃ found, client.GetClusterIssuer h { Name := cr.Name ++ "-self-signed" } = .ok found ∧
        certmgr.createSelfSignClusterIssuer client scheme cr h =
          (none, h ++ [.Get .ClusterIssuer { Name := cr.Name ++ "-self-signed" }])) ∨
      (∃ e, client.GetClusterIssuer h { Name := cr.Name ++ "-self-signed" } = .error e ∧
        e.IsNotFound = false ∧
        certmgr.createSelfSignClusterIssuer client scheme cr h =
          (some e, h ++ [.Get .ClusterIssuer { Name := cr.Name ++ "-self-signed" }])) ∨
      (∃ e issuer, client.GetClusterIssuer h { Name := cr.Name ++ "-self-signed" } = .error e ∧
        e.IsNotFound = true ∧ issuer.Name = cr.Name ++ "-self-signed" ∧
        issuer.Spec.SelfSigned = true ∧
        certmgr.createSelfSignClusterIssuer client scheme cr h =
          (client.Create (h ++ [.Get .ClusterIssuer { Name := cr.Name ++ "-self-signed" }])
              (.clusterIssuer issuer),
            h ++ [.Get .ClusterIssuer { Name := cr.Name ++ "-self-signed" },
                  .Create (.clusterIssuer issuer)])) := by
  unfold certmgr.createSelfSignClusterIssuer SetControllerReference
  cases hg : scheme.GVKForObject .Endpoint with
  | error e => exact Or.inl ⟨e, rfl, rfl⟩
  | ok gvk =>
    right
    dsimp only [Client.getClusterIssuer]
    cases hget : client.GetClusterIssuer h { Name := cr.Name ++ "-self-signed" } with
    | ok found => exact Or.inl ⟨found, rfl, rfl⟩
    | error e =>
      right
      dsimp only
      cases hnf : e.IsNotFound with
      | false => exact Or.inl ⟨e, rfl, hnf, by simp⟩
      | true =>
        refine Or.inr ⟨e, ?issuer, rfl, hnf, ?_, ?_, ?result⟩
        case result =>
          simp only [Client.create, List.append_assoc, List.singleton_append, if_true]
          exact rfl
        all_goals rfl

/-- The calls of `createSelfSignClusterIssuer` extend the history by nothing, by one Get of the
issuer, or by that Get and one Create of the issuer; the Create appears only after a Get that
answered not-found. -/
theorem createSelfSignClusterIssuer_calls (client : Client) (scheme : Scheme) (cr : Endpoint)
    (h : History) :
    ∃ issued, (certmgr.createSelfSignClusterIssuer client scheme cr h).2 = h ++ issued ∧
      (issued = [] ∨ issued = [.Get .ClusterIssuer { Name := cr.Name ++ "-self-signed" }] ∨
        ∃ issuer : ClusterIssuer, issuer.Name = cr.Name ++ "-self-signed" ∧
          issued = [.Get .ClusterIssuer { Name := cr.Name ++ "-self-signed" },
                    .Create (.clusterIssuer issuer)]) ∧
      (∀ obj, Call.Create obj ∈ issued →
        ∃ e, client.GetClusterIssuer h { Name := cr.Name ++ "-self-signed" } = .error e ∧
          e.IsNotFound = true) := by
  rcases createSelfSignClusterIssuer_spec client scheme cr h with
    ⟨e, -, hr⟩ | ⟨found, -, hr⟩ | ⟨e, -, -, hr⟩ | ⟨e, issuer, hg, hnf, hname, -, hr⟩
  · exact ⟨[], by simp [hr], Or.inl rfl, by simp⟩
  · exact ⟨[_], by rw [hr], Or.inr (Or.inl rfl), by simp⟩
  · exact ⟨[_], by rw [hr], Or.inr (Or.inl rfl), by simp⟩
  · exact ⟨[_, _], by rw [hr], Or.inr (Or.inr ⟨issuer, hname, rfl⟩),
      fun _ _ => ⟨e, hg, hnf⟩⟩

/-- With the platform certificate manager present, `Reconcile` is the probe followed by
`createSelfSignClusterIssuer`, whose error it returns without requeue. -/
theorem certmgr_Reconcile_probe_ok (inst : Endpoint) (client : Client) (scheme : Scheme)
    (h : History) (found : Deployment)
    (hprobe : client.GetDeployment h
      { Name := "cert-manager-ibm-cert-manager", Namespace := "cert-manager" } = .ok found) :
    certmgr.Reconcile inst client scheme h =
      some ⟨false,
        (certmgr.createSelfSignClusterIssuer client scheme inst
          (h ++ [.Get .Deployment
            { Name := "cert-manager-ibm-cert-manager", Namespace := "cert-manager" }])).1,
        inst,
        (certmgr.createSelfSignClusterIssuer client scheme inst
          (h ++ [.Get .Deployment
            { Name := "cert-manager-ibm-cert-manager", Namespace := "cert-manager" }])).2⟩ := by
  unfold certmgr.Reconcile
  simp only [Client.getDeployment, hprobe]
  rcases certmgr.createSelfSignClusterIssuer client scheme inst _ with ⟨_ | e, h'⟩ <;> rfl

/-- Without the platform certificate manager, a failed build ends `Reconcile` right after the
probe. -/
theorem certmgr_Reconcile_build_error (inst : Endpoint) (client : Client) (scheme : Scheme)
    (h : History) (e e' : GoError)
    (hprobe : client.GetDeployment h
      { Name := "cert-manager-ibm-cert-manager", Namespace := "cert-manager" } = .error e)
    (hbuild : (GetImage inst "cert-manager-controller").2 = some e') :
    certmgr.Reconcile inst client scheme h =
      some ⟨false, some e', inst,
        h ++ [.Get .Deployment
          { Name := "cert-manager-ibm-cert-manager", Namespace := "cert-manager" }]⟩ := by
  unfold certmgr.Reconcile
  simp only [Client.getDeployment, hprobe]
  rcases newCertManagerCR_cases inst with ⟨e'', h1, hr⟩ | ⟨h1, -⟩
  · rw [hr]
    rw [hbuild] at h1
    cases h1
    rfl
  · rw [hbuild] at h1
    cases h1

/-- An image that is not in both tables fails to resolve. -/
theorem GetImage_error_of_missing (inst : Endpoint) (name : String)
    (h : imageNameFor inst.Spec.Version name = none ∨ tagFor inst.Spec.Version name = none) :
    ∃ e, (GetImage inst name).2 = some e := by
  cases hr : (GetImage inst name).2 with
  | some e => exact ⟨e, rfl⟩
  | none =>
    have := (GetImage_ok_iff inst name).1 hr
    rcases h with h | h <;> simp [h] at this

/-! ## Reconcile: the claims -/

/-- C9: all-or-nothing resolution in Reconcile. When a component the add-on requires is missing
from a table for the parent's version, appmgr Reconcile returns the resolution error with no
client call and no helper step, and certmgr Reconcile issues no Create and no Update of a
CertManager; both leave the parent, and so its finalizer list, exactly as on entry. -/
theorem C9_no_mutation_on_missing_image (helpers : appmgr.Helpers) (inst : Endpoint)
    (client : Client) (scheme : Scheme) (h : History) :
    ((∃ name ∈ ["deployable", "subscription"],
        imageNameFor inst.Spec.Version name = none ∨ tagFor inst.Spec.Version name = none) →
      ∃ e, appmgr.Reconcile helpers inst client scheme h = some ⟨false, some e, inst, h⟩) ∧
    ((imageNameFor inst.Spec.Version "cert-manager-controller" = none ∨
        tagFor inst.Spec.Version "cert-manager-controller" = none) →
      ∃ r issued, certmgr.Reconcile inst client scheme h = some r ∧
        r.inst = inst ∧ r.inst.Finalizers = inst.Finalizers ∧ r.calls = h ++ issued ∧
        ∀ child : CertManager,
          Call.Create (.certManager child) ∉ issued ∧
            Call.Update (.certManager child) ∉ issued) := by
  constructor
  · rintro ⟨name, hname, hmiss⟩
    obtain ⟨e, he⟩ := GetImage_error_of_missing inst name hmiss
    have hbuild : ∃ e', appmgr.newApplicationManagerCR inst = (none, some e') := by
      rcases newApplicationManagerCR_cases inst with ⟨e', -, hr⟩ | ⟨e', -, -, hr⟩ | ⟨h1, h2, -⟩
      · exact ⟨e', hr⟩
      · exact ⟨e', hr⟩
      · simp only [List.mem_cons, List.mem_singleton, List.not_mem_nil, or_false] at hname
        rcases hname with rfl | rfl
        · rw [h1] at he; cases he
        · rw [h2] at he; cases he
    obtain ⟨e', hr⟩ := hbuild
    refine ⟨e', ?_⟩
    unfold appmgr.Reconcile
    rw [hr]
  · intro hmiss
    obtain ⟨e', he'⟩ := GetImage_error_of_missing inst _ hmiss
    cases hprobe : client.GetDeployment h
        { Name := "cert-manager-ibm-cert-manager", Namespace := "cert-manager" } with
    | error e =>
      refine ⟨_, [_], certmgr_Reconcile_build_error inst client scheme h e e' hprobe he', rfl,
        rfl, rfl, ?_⟩
      intro child
      simp
    | ok found =>
      obtain ⟨issued, hcalls, hshape, -⟩ := createSelfSignClusterIssuer_calls client scheme inst
        (h ++ [.Get .Deployment
          { Name := "cert-manager-ibm-cert-manager", Namespace := "cert-manager" }])
      refine ⟨_,
        Call.Get .Deployment
          { Name := "cert-manager-ibm-cert-manager", Namespace := "cert-manager" } :: issued,
        certmgr_Reconcile_probe_ok inst client scheme h found hprobe, rfl, rfl, ?_, ?_⟩
      · simp only [hcalls, List.append_assoc, List.singleton_append]
      · intro child
        rcases hshape with rfl | rfl | ⟨issuer, -, rfl⟩ <;> simp

theorem C9_no_mutation_on_missing_image_witness :
    appmgr.Reconcile appmgr.Helpers.noop
        { Name := "c1", Finalizers := ["c1-connmgr"], Spec := { Version := "9.9.9" } }
        Client.emptyCluster Scheme.registered [] =
      some ⟨false, some (.errorf "unable to locate image name for version 9.9.9"),
        { Name := "c1", Finalizers := ["c1-connmgr"], Spec := { Version := "9.9.9" } }, []⟩ ∧
    certmgr.Reconcile
        { Name := "c1", Finalizers := ["c1-connmgr"], Spec := { Version := "9.9.9" } }
        Client.emptyCluster Scheme.registered [] =
      some ⟨false, some (.errorf "unable to locate image name for version 9.9.9"),
        { Name := "c1", Finalizers := ["c1-connmgr"], Spec := { Version := "9.9.9" } },
        [.Get .Deployment
          { Name := "cert-manager-ibm-cert-manager", Namespace := "cert-manager" }]⟩ := by
  have hmiss : ∀ name, imageNameFor "9.9.9" name = none := by
    intro name
    simp [imageNameFor, versionComponentImageNameMap, List.lookup]
  have hC := C9_no_mutation_on_missing_image appmgr.Helpers.noop
    { Name := "c1", Finalizers := ["c1-connmgr"], Spec := { Version := "9.9.9" } }
    Client.emptyCluster Scheme.registered []
  constructor
  · obtain ⟨e, he⟩ := hC.1 ⟨"deployable", by simp, Or.inl (hmiss _)⟩
    rw [he]
    have hb : appmgr.newApplicationManagerCR
        { Name := "c1", Finalizers := ["c1-connmgr"], Spec := { Version := "9.9.9" } } =
        (none, some (.errorf "unable to locate image name for version 9.9.9")) := by
      simp [appmgr.newApplicationManagerCR, GetImage, versionComponentImageNameMap, List.lookup]
    unfold appmgr.Reconcile at he
    rw [hb] at he
    simp only [Option.some.injEq, ReconcileResult.mk.injEq, true_and, and_true] at he
    rw [← he]
  · obtain ⟨r, issued, hr, -⟩ := hC.2 (Or.inl (hmiss _))
    exact certmgr_Reconcile_build_error _ _ _ _ (.status "NotFound" "") _ rfl
      (by simp [GetImage, versionComponentImageNameMap, List.lookup])

/-- C10: when the probe Get of Deployment "cert-manager-ibm-cert-manager" in namespace
"cert-manager" succeeds, certmgr Reconcile only runs the ensure of the self-signed ClusterIssuer
named after the parent (a Get, and a Create only when that Get answered not-found), touches no
CertManager, leaves the parent unchanged, and returns requeue=false with the error of the
ensure, which is nil when the ensure succeeds. -/
theorem C10_preexisting_capability (inst : Endpoint) (client : Client) (scheme : Scheme)
    (h : History) (found : Deployment)
    (hprobe : client.GetDeployment h
      { Name := "cert-manager-ibm-cert-manager", Namespace := "cert-manager" } = .ok found) :
    ∃ r issued, certmgr.Reconcile inst client scheme h = some r ∧
      r.calls = h ++ [.Get .Deployment
          { Name := "cert-manager-ibm-cert-manager", Namespace := "cert-manager" }] ++ issued ∧
      (r.err, r.calls) = certmgr.createSelfSignClusterIssuer client scheme inst
        (h ++ [.Get .Deployment
          { Name := "cert-manager-ibm-cert-manager", Namespace := "cert-manager" }]) ∧
      (issued = [] ∨ issued = [.Get .ClusterIssuer { Name := inst.Name ++ "-self-signed" }] ∨
        ∃ issuer : ClusterIssuer, issuer.Name = inst.Name ++ "-self-signed" ∧
          issued = [.Get .ClusterIssuer { Name := inst.Name ++ "-self-signed" },
                    .Create (.clusterIssuer issuer)]) ∧
      (∀ obj, Call.Create obj ∈ issued →
        ∃ e, client.GetClusterIssuer
            (h ++ [.Get .Deployment
              { Name := "cert-manager-ibm-cert-manager", Namespace := "cert-manager" }])
            { Name := inst.Name ++ "-self-signed" } = .error e ∧ e.IsNotFound = true) ∧
      (∀ c ∈ issued, c.touches .CertManager = false) ∧
      r.inst = inst ∧ r.inst.Finalizers = inst.Finalizers ∧ r.requeue = false ∧
      ((certmgr.createSelfSignClusterIssuer client scheme inst
          (h ++ [.Get .Deployment
            { Name := "cert-manager-ibm-cert-manager", Namespace := "cert-manager" }])).1 = none →
        r.requeue = false ∧ r.err = none) := by
  obtain ⟨issued, hcalls, hshape, hcreate⟩ := createSelfSignClusterIssuer_calls client scheme inst
    (h ++ [.Get .Deployment
      { Name := "cert-manager-ibm-cert-manager", Namespace := "cert-manager" }])
  refine ⟨_, issued, certmgr_Reconcile_probe_ok inst client scheme h found hprobe, hcalls, rfl,
    hshape, hcreate, ?_, rfl, rfl, rfl, fun hok => ⟨rfl, hok⟩⟩
  intro c hc
  rcases hshape with rfl | rfl | ⟨issuer, -, rfl⟩
  · simp at hc
  · simp only [List.mem_singleton] at hc
    subst hc
    rfl
  · simp only [List.mem_cons, List.mem_singleton, List.not_mem_nil, or_false] at hc
    rcases hc with rfl | rfl <;> rfl

theorem C10_preexisting_capability_witness :
    certmgr.Reconcile { Name := "c1", Namespace := "ns1", Spec := { Version := "3.2.1" } }
        Client.icpCluster Scheme.registered [] =
      some ⟨false, none, { Name := "c1", Namespace := "ns1", Spec := { Version := "3.2.1" } },
        [.Get .Deployment
            { Name := "cert-manager-ibm-cert-manager", Namespace := "cert-manager" },
          .Get .ClusterIssuer { Name := "c1-self-signed" },
          .Create (.clusterIssuer
            { Name := "c1-self-signed"
              OwnerReferences :=
                [{ APIVersion := "multicloud.ibm.com/v1beta1", Kind := "Endpoint", Name := "c1",
                   Controller := true, BlockOwnerDeletion := true }]
              Spec := { SelfSigned := true } })]⟩ := by
  obtain ⟨r, issued, hr, -, hens, -, -, -, hinst, -, hrq, -⟩ :=
    C10_preexisting_capability
      { Name := "c1", Namespace := "ns1", Spec := { Version := "3.2.1" } }
      Client.icpCluster Scheme.registered [] _ rfl
  rw [hr]
  have hpair := Prod.mk.inj hens
  rcases r with ⟨requeue, err, inst', calls⟩
  simp only at hinst hrq hpair
  rw [hinst, hrq, hpair.1, hpair.2]
  decide


/-! ## Client calls of the helper functions -/

theorem touches_exclusive (c : Call) (k k' : Kind) (h : c.touches k = true) (hne : k ≠ k') :
    c.touches k' = false := by
  cases c <;> simp only [Call.touches, beq_iff_eq, beq_eq_false_iff_ne, ne_eq] at h ⊢ <;>
    (subst h; exact hne)

/-- The function `SetControllerReference` keeps every field of the metadata but the owner
references. -/
theorem SetControllerReference_ok (ownerKind : Kind) (owner object objectMeta : ObjectMeta)
    (scheme : Scheme)
    (h : SetControllerReference ownerKind owner object scheme = (objectMeta, none)) :
    ∃ ref, objectMeta = { object with OwnerReferences := object.OwnerReferences ++ [ref] } := by
  unfold SetControllerReference at h
  cases hg : scheme.GVKForObject ownerKind with
  | error e => rw [hg] at h; simp at h
  | ok gvk =>
    rw [hg] at h
    simp only [Prod.mk.injEq, and_true] at h
    exact ⟨_, h.symm⟩

theorem Issues_refl (P : Call → Prop) (h : History) : History.Issues P h h :=
  ⟨[], (List.append_nil h).symm, by simp⟩

theorem Issues_snoc (P : Call → Prop) (h h' : History) (c : Call)
    (hi : History.Issues P h h') (hc : P c) : History.Issues P h (h' ++ [c]) := by
  obtain ⟨issued, rfl, hall⟩ := hi
  refine ⟨issued ++ [c], by simp, ?_⟩
  intro c' hc'
  rcases List.mem_append.1 hc' with hm | hm
  · exact hall c' hm
  · rw [List.mem_singleton.1 hm]; exact hc

theorem Issues_trans (P : Call → Prop) (h h' h'' : History)
    (h₁ : History.Issues P h h') (h₂ : History.Issues P h' h'') : History.Issues P h h'' := by
  obtain ⟨i₁, rfl, a₁⟩ := h₁
  obtain ⟨i₂, rfl, a₂⟩ := h₂
  refine ⟨i₁ ++ i₂, by simp, ?_⟩
  intro c hc
  rcases List.mem_append.1 hc with hm | hm
  · exact a₁ c hm
  · exact a₂ c hm

theorem Issues_mono (P Q : Call → Prop) (h h' : History) (hpq : ∀ c, P c → Q c)
    (hi : History.Issues P h h') : History.Issues Q h h' := by
  obtain ⟨issued, rfl, hall⟩ := hi
  exact ⟨issued, rfl, fun c hc => hpq c (hall c hc)⟩

/-- The calls of the certmgr `createServiceAccount` read or write the ServiceAccount and the
SecurityContextConstraints only. -/
theorem certmgr_createServiceAccount_calls (client : Client) (scheme : Scheme) (inst : Endpoint)
    (child : CertManager) (h : History) :
    History.Issues
      (fun c => c.touches .ServiceAccount = true ∨ c.touches .SecurityContextConstraints = true)
      h (certmgr.createServiceAccount client scheme inst child h).2 := by
  unfold certmgr.createServiceAccount
  simp only [Client.getServiceAccount, Client.create, Client.getSecurityContextConstraints,
    Client.update]
  repeat' split
  all_goals simp only [Prod.mk.injEq] at *
  all_goals try casesm* _ ∧ _
  all_goals subst_vars
  all_goals
    repeat' first
      | exact Issues_refl _ _
      | refine Issues_snoc _ _ _ _ ?_ (by simp [Call.touches, Obj.kind])

/-- The calls of `createSelfSignClusterIssuer` read or write the ClusterIssuer only. -/
theorem createSelfSignClusterIssuer_issues (client : Client) (scheme : Scheme) (cr : Endpoint)
    (h : History) :
    History.Issues (fun c => c.touches .ClusterIssuer = true) h
      (certmgr.createSelfSignClusterIssuer client scheme cr h).2 := by
  unfold certmgr.createSelfSignClusterIssuer
  simp only [Client.getClusterIssuer, Client.create]
  repeat' split
  all_goals simp only [Prod.mk.injEq] at *
  all_goals try casesm* _ ∧ _
  all_goals subst_vars
  all_goals
    repeat' first
      | exact Issues_refl _ _
      | refine Issues_snoc _ _ _ _ ?_ (by simp [Call.touches, Obj.kind])

/-- Removing the entry at the index of the first occurrence erases that occurrence. -/
theorem take_drop_eq_erase (pre rest : List String) (a : String) (h : a ∉ pre) :
    (pre ++ a :: rest).take pre.length ++ (pre ++ a :: rest).drop (pre.length + 1) =
      (pre ++ a :: rest).erase a := by
  rw [List.erase_append_right _ h, List.erase_cons_head, List.take_left']
  · congr 1
    rw [show pre ++ a :: rest = (pre ++ [a]) ++ rest by simp]
    exact List.drop_left' (by simp)
  · rfl

theorem failedDelete_append (client : Client) (a b : History) :
    ∀ h : History, History.failedDelete client h (a ++ b) =
      match History.failedDelete client h a with
      | some e => some e
      | none => History.failedDelete client (h ++ a) b := by
  induction a with
  | nil => intro h; simp [History.failedDelete]
  | cons c a ih =>
    intro h
    cases c with
    | Delete obj =>
      simp only [List.cons_append, History.failedDelete]
      cases client.Delete h obj with
      | some e => rfl
      | none =>
        have := ih (h ++ [Call.Delete obj])
        simpa [List.append_assoc] using this
    | Get kind key => simp [History.failedDelete, ih]
    | Create obj => simp [History.failedDelete, ih]
    | Update obj => simp [History.failedDelete, ih]
    | List kind => simp [History.failedDelete, ih]

/-- What `deleteSelfSignClusterIssuer` does: nothing when the owner reference cannot be set,
else one Get of the issuer and, when the Get found it, one Delete whose error is returned; an
error of the Get is dropped. -/
theorem deleteSelfSignClusterIssuer_spec (client : Client) (scheme : Scheme) (cr : Endpoint)
    (h : History) :
    ∃ issued, (certmgr.deleteSelfSignClusterIssuer client scheme cr h).2 = h ++ issued ∧
      (∀ c ∈ issued, c.touches .ClusterIssuer = true) ∧
      (∀ e, History.failedDelete client h issued = some e →
        (certmgr.deleteSelfSignClusterIssuer client scheme cr h).1 = some e) ∧
      (∀ e, client.GetClusterIssuer h { Name := cr.Name ++ "-self-signed" } = .error e →
        (certmgr.deleteSelfSignClusterIssuer client scheme cr h).1 = none ∨
          ∃ e', scheme.GVKForObject .Endpoint = .error e') := by
  unfold certmgr.deleteSelfSignClusterIssuer SetControllerReference
  cases hg : scheme.GVKForObject .Endpoint with
  | error e =>
    exact ⟨[], by simp, by simp, by simp [History.failedDelete], fun _ _ => Or.inr ⟨e, rfl⟩⟩
  | ok gvk =>
    dsimp only [Client.getClusterIssuer]
    cases hget : client.GetClusterIssuer h { Name := cr.Name ++ "-self-signed" } with
    | error e =>
      exact ⟨[_], rfl, by simp [Call.touches], by simp [History.failedDelete],
        fun _ _ => Or.inl rfl⟩
    | ok found =>
      refine ⟨[.Get .ClusterIssuer { Name := cr.Name ++ "-self-signed" },
          .Delete (.clusterIssuer found)], by simp [Client.delete],
        by simp [Call.touches, Obj.kind], ?_, by simp⟩
      intro e he
      simp only [History.failedDelete, Client.delete] at he ⊢
      cases hd : client.Delete
          (h ++ [.Get .ClusterIssuer { Name := cr.Name ++ "-self-signed" }])
          (.clusterIssuer found) with
      | some e' => rw [hd] at he; exact he
      | none => rw [hd] at he; cases he

/-- The end of the cleanup of the certmgr finalizer loop: `deleteSelfSignClusterIssuer` after
calls `pre` none of which was a refused Delete. -/
theorem certmgr_cleanup_tail (inst inst' : Endpoint) (client : Client) (scheme : Scheme)
    (h pre : History)
    (hkinds : ∀ c ∈ pre, c.touches .ConfigMap = true ∨ c.touches .ClusterIssuer = true)
    (hok : History.failedDelete client h pre = none) :
    History.Issues (fun c => c.touches .ConfigMap = true ∨ c.touches .ClusterIssuer = true) h
        (match certmgr.deleteSelfSignClusterIssuer client scheme inst (h ++ pre) with
          | (some err, h') => (⟨false, some err, inst, h'⟩ : ReconcileResult)
          | (none, h') => ⟨true, none, inst', h'⟩).calls ∧
      (∀ e, History.failedDelete client h
          ((match certmgr.deleteSelfSignClusterIssuer client scheme inst (h ++ pre) with
            | (some err, h') => (⟨false, some err, inst, h'⟩ : ReconcileResult)
            | (none, h') => ⟨true, none, inst', h'⟩).calls.drop h.length) = some e →
        (match certmgr.deleteSelfSignClusterIssuer client scheme inst (h ++ pre) with
          | (some err, h') => (⟨false, some err, inst, h'⟩ : ReconcileResult)
          | (none, h') => ⟨true, none, inst', h'⟩).err = some e) ∧
      ((∃ e, (match certmgr.deleteSelfSignClusterIssuer client scheme inst (h ++ pre) with
            | (some err, h') => (⟨false, some err, inst, h'⟩ : ReconcileResult)
            | (none, h') => ⟨true, none, inst', h'⟩).err = some e ∧
          (match certmgr.deleteSelfSignClusterIssuer client scheme inst (h ++ pre) with
            | (some err, h') => (⟨false, some err, inst, h'⟩ : ReconcileResult)
            | (none, h') => ⟨true, none, inst', h'⟩).requeue = false ∧
          (match certmgr.deleteSelfSignClusterIssuer client scheme inst (h ++ pre) with
            | (some err, h') => (⟨false, some err, inst, h'⟩ : ReconcileResult)
            | (none, h') => ⟨true, none, inst', h'⟩).inst = inst) ∨
        ((match certmgr.deleteSelfSignClusterIssuer client scheme inst (h ++ pre) with
            | (some err, h') => (⟨false, some err, inst, h'⟩ : ReconcileResult)
            | (none, h') => ⟨true, none, inst', h'⟩).err = none ∧
          (match certmgr.deleteSelfSignClusterIssuer client scheme inst (h ++ pre) with
            | (some err, h') => (⟨false, some err, inst, h'⟩ : ReconcileResult)
            | (none, h') => ⟨true, none, inst', h'⟩).requeue = true ∧
          (match certmgr.deleteSelfSignClusterIssuer client scheme inst (h ++ pre) with
            | (some err, h') => (⟨false, some err, inst, h'⟩ : ReconcileResult)
            | (none, h') => ⟨true, none, inst', h'⟩).inst = inst')) := by
  obtain ⟨issued, hcalls, hk, hf, -⟩ :=
    deleteSelfSignClusterIssuer_spec client scheme inst (h ++ pre)
  have hissues : History.Issues
      (fun c => c.touches .ConfigMap = true ∨ c.touches .ClusterIssuer = true) h
      (h ++ pre ++ issued) := by
    refine ⟨pre ++ issued, by simp, ?_⟩
    intro c hc
    rcases List.mem_append.1 hc with hm | hm
    · exact hkinds c hm
    · exact Or.inr (hk c hm)
  have hdrop : (h ++ pre ++ issued).drop h.length = pre ++ issued := by
    rw [List.append_assoc]; exact List.drop_left _ _
  have hfail : ∀ e, History.failedDelete client h (pre ++ issued) = some e →
      History.failedDelete client (h ++ pre) issued = some e := by
    intro e he
    rw [failedDelete_append, hok] at he
    exact he
  rcases hds : certmgr.deleteSelfSignClusterIssuer client scheme inst (h ++ pre) with
    ⟨_ | e, h'⟩
  · rw [hds] at hcalls hf
    dsimp only at hcalls hf ⊢
    subst hcalls
    refine ⟨hissues, ?_, Or.inr ⟨rfl, rfl, rfl⟩⟩
    intro e he
    rw [hdrop] at he
    exact hf e (hfail e he)
  · rw [hds] at hcalls hf
    dsimp only at hcalls hf ⊢
    subst hcalls
    refine ⟨hissues, ?_, Or.inl ⟨e, rfl, rfl, rfl⟩⟩
    intro e' he
    rw [hdrop] at he
    exact hf e' (hfail e' he)

/-- The finalizer loop of the certmgr `Reconcile`. When the child name is not among the
finalizers the loop ends without returning. Otherwise it returns from `Reconcile`: its calls
read or delete the ConfigMap and the ClusterIssuer only, a refused Delete is returned as the
error, an error leaves the parent as it was, and without error the first occurrence of the
child name is erased and a requeue is requested. -/
theorem certmgr_removeFinalizer_spec (inst : Endpoint) (certMgr : CertManager) (client : Client)
    (scheme : Scheme) (h : History) :
    ∀ (rest pre : List String), inst.Finalizers = pre ++ rest → certMgr.Name ∉ pre →
      (certmgr.removeFinalizer inst certMgr client scheme h pre.length rest = none ∧
          certMgr.Name ∉ inst.Finalizers) ∨
        ∃ r, certmgr.removeFinalizer inst certMgr client scheme h pre.length rest = some r ∧
          certMgr.Name ∈ inst.Finalizers ∧
          History.Issues
            (fun c => c.touches .ConfigMap = true ∨ c.touches .ClusterIssuer = true) h r.calls ∧
          (∀ e, History.failedDelete client h (r.calls.drop h.length) = some e →
            r.err = some e) ∧
          ((∃ e, r.err = some e ∧ r.requeue = false ∧ r.inst = inst) ∨
            (r.err = none ∧ r.requeue = true ∧
              r.inst = { inst with Finalizers := inst.Finalizers.erase certMgr.Name })) := by
  intro rest
  induction rest with
  | nil =>
    intro pre hsplit hpre
    left
    refine ⟨rfl, ?_⟩
    rw [hsplit]
    simpa using hpre
  | cons finalizer rest ih =>
    intro pre hsplit hpre
    by_cases hf : finalizer = certMgr.Name
    · right
      subst hf
      have hmem : certMgr.Name ∈ inst.Finalizers := by rw [hsplit]; simp
      have herase : inst.Finalizers.take pre.length ++ inst.Finalizers.drop (pre.length + 1) =
          inst.Finalizers.erase certMgr.Name := by
        rw [hsplit]; exact take_drop_eq_erase pre rest _ hpre
      unfold certmgr.removeFinalizer
      simp only [if_true, Client.getConfigMap, Client.delete, herase]
      cases hcfg : client.GetConfigMap h
          { Name := "cert-manager-controller", Namespace := certMgr.Namespace } with
      | error e₀ =>
        have ht := certmgr_cleanup_tail inst
          { inst with Finalizers := inst.Finalizers.erase certMgr.Name } client scheme h
          [.Get .ConfigMap { Name := "cert-manager-controller", Namespace := certMgr.Namespace }]
          (by simp [Call.touches]) (by simp [History.failedDelete])
        exact ⟨_, rfl, hmem, ht⟩
      | ok foundConfigMap =>
        dsimp only
        cases hdel : client.Delete
            (h ++ [.Get .ConfigMap
              { Name := "cert-manager-controller", Namespace := certMgr.Namespace }])
            (.configMap foundConfigMap) with
        | some e =>
          refine ⟨_, rfl, hmem, ?_, ?_, Or.inl ⟨e, rfl, rfl, rfl⟩⟩
          · repeat' first
              | exact Issues_refl _ _
              | refine Issues_snoc _ _ _ _ ?_ (by simp [Call.touches, Obj.kind])
          · intro e'
            simp [List.drop_left, History.failedDelete, hdel]
        | none =>
          have ht := certmgr_cleanup_tail inst
            { inst with Finalizers := inst.Finalizers.erase certMgr.Name } client scheme h
            [.Get .ConfigMap { Name := "cert-manager-controller", Namespace := certMgr.Namespace },
             .Delete (.configMap foundConfigMap)]
            (by simp [Call.touches, Obj.kind]) (by simp [History.failedDelete, hdel])
          simp only [List.append_assoc, List.singleton_append] at ht ⊢
          exact ⟨_, rfl, hmem, ht⟩
    · have hne : certMgr.Name ∉ pre ++ [finalizer] := by
        simp only [List.mem_append, List.mem_singleton, not_or]
        exact ⟨hpre, fun h' => hf h'.symm⟩
      have := ih (pre ++ [finalizer]) (by rw [hsplit]; simp) hne
      unfold certmgr.removeFinalizer
      simp only [hf, if_false]
      simpa using this

/-! ## The branches of the certmgr `Reconcile` -/

theorem certmgr_Reconcile_own_error (inst : Endpoint) (client : Client) (scheme : Scheme)
    (h : History) (e₀ e : GoError) (child : CertManager) (objectMeta : ObjectMeta)
    (hprobe : client.GetDeployment h
      { Name := "cert-manager-ibm-cert-manager", Namespace := "cert-manager" } = .error e₀)
    (hbuild : certmgr.newCertManagerCR inst = (some child, none))
    (hown : SetControllerReference .Endpoint inst.toObjectMeta child.toObjectMeta scheme =
      (objectMeta, some e)) :
    certmgr.Reconcile inst client scheme h =
      some ⟨false, some e, inst,
        h ++ [.Get .Deployment
          { Name := "cert-manager-ibm-cert-manager", Namespace := "cert-manager" }]⟩ := by
  unfold certmgr.Reconcile
  simp only [Client.getDeployment, hprobe, hbuild, hown]

theorem certmgr_Reconcile_get_error (inst : Endpoint) (client : Client) (scheme : Scheme)
    (h : History) (e₀ e : GoError) (child : CertManager) (objectMeta : ObjectMeta)
    (hprobe : client.GetDeployment h
      { Name := "cert-manager-ibm-cert-manager", Namespace := "cert-manager" } = .error e₀)
    (hbuild : certmgr.newCertManagerCR inst = (some child, none))
    (hown : SetControllerReference .Endpoint inst.toObjectMeta child.toObjectMeta scheme =
      (objectMeta, none))
    (hget : client.GetCertManager
      (h ++ [.Get .Deployment
        { Name := "cert-manager-ibm-cert-manager", Namespace := "cert-manager" }])
      { Name := objectMeta.Name, Namespace := objectMeta.Namespace } = .error e)
    (hnf : e.IsNotFound = false) :
    certmgr.Reconcile inst client scheme h =
      some ⟨false, some e, inst,
        h ++ [.Get .Deployment
            { Name := "cert-manager-ibm-cert-manager", Namespace := "cert-manager" },
          .Get .CertManager { Name := objectMeta.Name, Namespace := objectMeta.Namespace }]⟩ := by
  unfold certmgr.Reconcile
  simp [Client.getDeployment, hprobe, hbuild, hown, Client.getCertManager, hget, hnf]

theorem certmgr_Reconcile_create (inst : Endpoint) (client : Client) (scheme : Scheme)
    (h : History) (e₀ e : GoError) (child : CertManager) (objectMeta : ObjectMeta)
    (hprobe : client.GetDeployment h
      { Name := "cert-manager-ibm-cert-manager", Namespace := "cert-manager" } = .error e₀)
    (hbuild : certmgr.newCertManagerCR inst = (some child, none))
    (hown : SetControllerReference .Endpoint inst.toObjectMeta child.toObjectMeta scheme =
      (objectMeta, none))
    (hget : client.GetCertManager
      (h ++ [.Get .Deployment
        { Name := "cert-manager-ibm-cert-manager", Namespace := "cert-manager" }])
      { Name := objectMeta.Name, Namespace := objectMeta.Namespace } = .error e)
    (hnf : e.IsNotFound = true) (hlive : inst.DeletionTimestamp = none) :
    certmgr.Reconcile inst client scheme h =
      match certmgr.createServiceAccount client scheme inst
          { child with toObjectMeta := objectMeta }
          (h ++ [.Get .Deployment
              { Name := "cert-manager-ibm-cert-manager", Namespace := "cert-manager" },
            .Get .CertManager { Name := objectMeta.Name, Namespace := objectMeta.Namespace }])
        with
      | (some err, h₃) => some ⟨false, some err, inst, h₃⟩
      | (none, h₃) =>
        match client.Create h₃ (.certManager { child with toObjectMeta := objectMeta }) with
        | some err =>
          some ⟨false, some err, inst,
            h₃ ++ [.Create (.certManager { child with toObjectMeta := objectMeta })]⟩
        | none =>
          some ⟨false, none,
            { inst with Finalizers := inst.Finalizers ++ [objectMeta.Name] },
            (certmgr.createSelfSignClusterIssuer client scheme inst
              (h₃ ++ [.Create (.certManager { child with toObjectMeta := objectMeta })])).2⟩ := by
  unfold certmgr.Reconcile
  simp only [Client.getDeployment, hprobe, hbuild, hown, Client.getCertManager, hget, hnf,
    hlive, if_true, Client.create, List.append_assoc, List.singleton_append]
  rcases certmgr.createServiceAccount client scheme inst _ _ with ⟨_ | err, h₃⟩
  · dsimp only
    cases client.Create h₃ _ <;> rfl
  · rfl

theorem certmgr_Reconcile_finalize (inst : Endpoint) (client : Client) (scheme : Scheme)
    (h : History) (e₀ e : GoError) (child : CertManager) (objectMeta : ObjectMeta)
    (hprobe : client.GetDeployment h
      { Name := "cert-manager-ibm-cert-manager", Namespace := "cert-manager" } = .error e₀)
    (hbuild : certmgr.newCertManagerCR inst = (some child, none))
    (hown : SetControllerReference .Endpoint inst.toObjectMeta child.toObjectMeta scheme =
      (objectMeta, none))
    (hget : client.GetCertManager
      (h ++ [.Get .Deployment
        { Name := "cert-manager-ibm-cert-manager", Namespace := "cert-manager" }])
      { Name := objectMeta.Name, Namespace := objectMeta.Namespace } = .error e)
    (hnf : e.IsNotFound = true) (hdel : inst.DeletionTimestamp ≠ none) :
    certmgr.Reconcile inst client scheme h =
      match certmgr.removeFinalizer inst { child with toObjectMeta := objectMeta } client scheme
          (h ++ [.Get .Deployment
              { Name := "cert-manager-ibm-cert-manager", Namespace := "cert-manager" },
            .Get .CertManager { Name := objectMeta.Name, Namespace := objectMeta.Namespace }])
          0 inst.Finalizers with
      | some result => some result
      | none =>
        some ⟨false, none, inst,
          h ++ [.Get .Deployment
              { Name := "cert-manager-ibm-cert-manager", Namespace := "cert-manager" },
            .Get .CertManager
              { Name := objectMeta.Name, Namespace := objectMeta.Namespace }]⟩ := by
  unfold certmgr.Reconcile
  simp only [Client.getDeployment, hprobe, hbuild, hown, Client.getCertManager, hget, hnf,
    hdel, if_true, if_false, List.append_assoc, List.singleton_append]

theorem certmgr_Reconcile_found (inst : Endpoint) (client : Client) (scheme : Scheme)
    (h : History) (e₀ : GoError) (child found : CertManager) (objectMeta : ObjectMeta)
    (hprobe : client.GetDeployment h
      { Name := "cert-manager-ibm-cert-manager", Namespace := "cert-manager" } = .error e₀)
    (hbuild : certmgr.newCertManagerCR inst = (some child, none))
    (hown : SetControllerReference .Endpoint inst.toObjectMeta child.toObjectMeta scheme =
      (objectMeta, none))
    (hget : client.GetCertManager
      (h ++ [.Get .Deployment
        { Name := "cert-manager-ibm-cert-manager", Namespace := "cert-manager" }])
      { Name := objectMeta.Name, Namespace := objectMeta.Namespace } = .ok found) :
    certmgr.Reconcile inst client scheme h =
      if found.DeletionTimestamp = none then
        if inst.DeletionTimestamp = none then
          match client.Update
              (h ++ [.Get .Deployment
                  { Name := "cert-manager-ibm-cert-manager", Namespace := "cert-manager" },
                .Get .CertManager { Name := objectMeta.Name, Namespace := objectMeta.Namespace }])
              (.certManager { found with Spec := child.Spec }) with
          | some err =>
            some ⟨false, if err.IsConflict then none else some err, inst,
              h ++ [.Get .Deployment
                  { Name := "cert-manager-ibm-cert-manager", Namespace := "cert-manager" },
                .Get .CertManager { Name := objectMeta.Name, Namespace := objectMeta.Namespace },
                .Update (.certManager { found with Spec := child.Spec })]⟩
          | none =>
            some ⟨false, none, inst,
              h ++ [.Get .Deployment
                  { Name := "cert-manager-ibm-cert-manager", Namespace := "cert-manager" },
                .Get .CertManager { Name := objectMeta.Name, Namespace := objectMeta.Namespace },
                .Update (.certManager { found with Spec := child.Spec })]⟩
        else
          match client.Delete
              (h ++ [.Get .Deployment
                  { Name := "cert-manager-ibm-cert-manager", Namespace := "cert-manager" },
                .Get .CertManager { Name := objectMeta.Name, Namespace := objectMeta.Namespace }])
              (.certManager found) with
          | some err =>
            some ⟨false, some err, inst,
              h ++ [.Get .Deployment
                  { Name := "cert-manager-ibm-cert-manager", Namespace := "cert-manager" },
                .Get .CertManager { Name := objectMeta.Name, Namespace := objectMeta.Namespace },
                .Delete (.certManager found)]⟩
          | none =>
            some ⟨true, none, inst,
              h ++ [.Get .Deployment
                  { Name := "cert-manager-ibm-cert-manager", Namespace := "cert-manager" },
                .Get .CertManager { Name := objectMeta.Name, Namespace := objectMeta.Namespace },
                .Delete (.certManager found)]⟩
      else
        some ⟨true, none, inst,
          h ++ [.Get .Deployment
              { Name := "cert-manager-ibm-cert-manager", Namespace := "cert-manager" },
            .Get .CertManager
              { Name := objectMeta.Name, Namespace := objectMeta.Namespace }]⟩ := by
  unfold certmgr.Reconcile
  simp only [Client.getDeployment, hprobe, hbuild, hown, Client.getCertManager, hget,
    Client.update, Client.delete, List.append_assoc, List.singleton_append]
  split
  · split
    · cases hu : client.Update _ _ with
      | none => rfl
      | some err => by_cases hc : err.IsConflict = true <;> simp [hc]
    · cases hd : client.Delete _ _ <;> rfl
  · rfl

/-! ## Client calls of the topology helper functions -/

/-- The three outcomes of `newTopologyCollectorCR`: a panic of `determineRuntime`, the error of
the first image that does not resolve with no client call, or a child after one List of the
nodes. -/
theorem newTopologyCollectorCR_cases
    (GetImage : KlusterletService → String → Image × Option GoError) (cr : KlusterletService)
    (client : Client) (h : History) :
    topology.newTopologyCollectorCR GetImage cr client h = none ∨
      (∃ e, topology.newTopologyCollectorCR GetImage cr client h = some ((none, some e), h)) ∨
      (∃ child, topology.newTopologyCollectorCR GetImage cr client h =
          some ((some child, none), h ++ [.List .Node]) ∧
        child.Name = cr.Name ++ "-topology" ∧ child.Namespace = cr.Namespace ∧
        child.OwnerReferences = [] ∧
        child.Spec.ServiceAccount.Name = cr.Name ++ "-topology-collector") := by
  unfold topology.newTopologyCollectorCR
  rcases GetImage cr "weave" with ⟨i1, _ | e1⟩
  · rcases GetImage cr "collector" with ⟨i2, _ | e2⟩
    · rcases GetImage cr "router" with ⟨i3, _ | e3⟩
      · dsimp only
        cases hrt : topology.determineRuntime client h with
        | none => exact Or.inl rfl
        | some p =>
          rcases p with ⟨rt, h'⟩
          have hh : h' = h ++ [.List .Node] := by
            unfold topology.determineRuntime at hrt
            simp only [Client.listNodes] at hrt
            cases hl : client.ListNodes h with
            | error e =>
              rw [hl] at hrt
              simp only [Option.some.injEq, Prod.mk.injEq] at hrt
              exact hrt.2.symm
            | ok nodelist =>
              rw [hl] at hrt
              dsimp only at hrt
              split at hrt
              · cases hrt
              · split at hrt
                · cases hrt
                · simp only [Option.some.injEq, Prod.mk.injEq] at hrt
                  exact hrt.2.symm
          subst hh
          exact Or.inr (Or.inr ⟨_, rfl, rfl, rfl, rfl, rfl⟩)
      · exact Or.inr (Or.inl ⟨e3, rfl⟩)
    · exact Or.inr (Or.inl ⟨e2, rfl⟩)
  · exact Or.inr (Or.inl ⟨e1, rfl⟩)

/-- The calls of the topology `createServiceAccount` read or write the ServiceAccount and the
SecurityContextConstraints only. -/
theorem topology_createServiceAccount_calls (client : Client) (scheme : Scheme)
    (inst : KlusterletService) (child : TopologyCollector) (h : History) :
    History.Issues
      (fun c => c.touches .ServiceAccount = true ∨ c.touches .SecurityContextConstraints = true)
      h (topology.createServiceAccount client scheme inst child h).2 := by
  unfold topology.createServiceAccount
  simp only [Client.getServiceAccount, Client.create, Client.getSecurityContextConstraints,
    Client.update]
  repeat' split
  all_goals simp only [Prod.mk.injEq] at *
  all_goals try casesm* _ ∧ _
  all_goals subst_vars
  all_goals
    repeat' first
      | exact Issues_refl _ _
      | refine Issues_snoc _ _ _ _ ?_ (by simp [Call.touches, Obj.kind])

/-- The secrets loop of the topology `Reconcile` reads and deletes Secrets only, and returns the
error of a refused Delete. -/
theorem deleteSecrets_spec (client : Client) (ns : String) (names : List String) :
    ∀ h : History, ∃ issued, (topology.deleteSecrets client ns names h).2 = h ++ issued ∧
      (∀ c ∈ issued, c.touches .Secret = true) ∧
      (∀ e, History.failedDelete client h issued = some e →
        (topology.deleteSecrets client ns names h).1 = some e) ∧
      (∀ e, (topology.deleteSecrets client ns names h).1 = some e →
        History.failedDelete client h issued = some e) := by
  induction names with
  | nil =>
    intro h
    exact ⟨[], by simp [topology.deleteSecrets], by simp,
      by simp [History.failedDelete], by simp [topology.deleteSecrets]⟩
  | cons name names ih =>
    intro h
    unfold topology.deleteSecrets
    simp only [Client.getSecret, Client.delete]
    cases hget : client.GetSecret h { Name := name, Namespace := ns } with
    | error e₀ =>
      dsimp only
      obtain ⟨issued, hcalls, hk, hf, hf'⟩ :=
        ih (h ++ [.Get .Secret { Name := name, Namespace := ns }])
      refine ⟨.Get .Secret { Name := name, Namespace := ns } :: issued, ?_, ?_, ?_, ?_⟩
      · rw [hcalls]; simp
      · intro c hc
        rcases List.mem_cons.1 hc with rfl | hm
        · simp [Call.touches]
        · exact hk c hm
      · intro e he
        simp only [History.failedDelete] at he
        exact hf e he
      · intro e he
        simp only [History.failedDelete]
        exact hf' e he
    | ok found =>
      dsimp only
      cases hdel : client.Delete (h ++ [.Get .Secret { Name := name, Namespace := ns }])
          (.secret found) with
      | some e' =>
        refine ⟨[.Get .Secret { Name := name, Namespace := ns }, .Delete (.secret found)],
          by simp, by simp [Call.touches, Obj.kind], ?_, ?_⟩
        · intro e he
          simp only [History.failedDelete, hdel] at he
          simpa using he
        · intro e he
          simp only [History.failedDelete, hdel]
          simpa using he
      | none =>
        dsimp only
        obtain ⟨issued, hcalls, hk, hf, hf'⟩ :=
          ih (h ++ [.Get .Secret { Name := name, Namespace := ns }] ++ [.Delete (.secret found)])
        refine ⟨.Get .Secret { Name := name, Namespace := ns } :: .Delete (.secret found) ::
          issued, ?_, ?_, ?_, ?_⟩
        · rw [hcalls]; simp
        · intro c hc
          rcases List.mem_cons.1 hc with rfl | hm
          · simp [Call.touches]
          · rcases List.mem_cons.1 hm with rfl | hm'
            · simp [Call.touches, Obj.kind]
            · exact hk c hm'
        · intro e he
          simp only [History.failedDelete, hdel] at he
          exact hf e he
        · intro e he
          simp only [History.failedDelete, hdel]
          exact hf' e he

/-- The finalizer loop of the topology `Reconcile` and the `return nil` after it. Its calls read
or delete Secrets only and a refused Delete is returned as the error. When the child name is
not among the finalizers nothing is called and the parent is returned as it was. Otherwise an
error leaves the parent as it was, and without error the first occurrence of the child name is
erased. -/
theorem topology_removeFinalizer_spec (inst : KlusterletService) (cr : TopologyCollector)
    (client : Client) (h : History) :
    ∀ (rest pre : List String), inst.Finalizers = pre ++ rest → cr.Name ∉ pre →
      History.Issues (fun c => c.touches .Secret = true) h
          (topology.removeFinalizer inst cr client h pre.length rest).calls ∧
        (∀ e, History.failedDelete client h
            ((topology.removeFinalizer inst cr client h pre.length rest).calls.drop h.length)
              = some e →
          (topology.removeFinalizer inst cr client h pre.length rest).err = some e) ∧
        ((cr.Name ∉ inst.Finalizers ∧
            topology.removeFinalizer inst cr client h pre.length rest = ⟨none, inst, h⟩) ∨
          (cr.Name ∈ inst.Finalizers ∧
            ((∃ e, (topology.removeFinalizer inst cr client h pre.length rest).err = some e ∧
                (topology.removeFinalizer inst cr client h pre.length rest).inst = inst) ∨
              ((topology.removeFinalizer inst cr client h pre.length rest).err = none ∧
                (topology.removeFinalizer inst cr client h pre.length rest).inst =
                  { inst with Finalizers := inst.Finalizers.erase cr.Name })))) := by
  intro rest
  induction rest with
  | nil =>
    intro pre hsplit hpre
    have hnot : cr.Name ∉ inst.Finalizers := by rw [hsplit]; simpa using hpre
    refine ⟨?_, ?_, Or.inl ⟨hnot, rfl⟩⟩
    · exact Issues_refl _ _
    · intro e
      simp [topology.removeFinalizer, History.failedDelete]
  | cons finalizer rest ih =>
    intro pre hsplit hpre
    by_cases hf : finalizer = cr.Name
    · subst hf
      have hmem : cr.Name ∈ inst.Finalizers := by rw [hsplit]; simp
      have herase : inst.Finalizers.take pre.length ++ inst.Finalizers.drop (pre.length + 1) =
          inst.Finalizers.erase cr.Name := by
        rw [hsplit]; exact take_drop_eq_erase pre rest _ hpre
      obtain ⟨issued, hcalls, hk, hfail, -⟩ := deleteSecrets_spec client cr.Namespace
        [cr.Name ++ "-ca-cert", cr.Name ++ "-server-secret", cr.Name ++ "-client-secret"] h
      unfold topology.removeFinalizer
      simp only [if_true, herase]
      rcases hds : topology.deleteSecrets client cr.Namespace
          [cr.Name ++ "-ca-cert", cr.Name ++ "-server-secret", cr.Name ++ "-client-secret"] h
        with ⟨_ | e, h'⟩
      · rw [hds] at hcalls hfail
        dsimp only at hcalls hfail ⊢
        subst hcalls
        refine ⟨⟨issued, rfl, hk⟩, ?_, Or.inr ⟨hmem, Or.inr ⟨rfl, rfl⟩⟩⟩
        intro e he
        rw [List.drop_left] at he
        exact hfail e he
      · rw [hds] at hcalls hfail
        dsimp only at hcalls hfail ⊢
        subst hcalls
        refine ⟨⟨issued, rfl, hk⟩, ?_, Or.inr ⟨hmem, Or.inl ⟨e, rfl, rfl⟩⟩⟩
        intro e' he
        rw [List.drop_left] at he
        exact hfail e' he
    · have hne : cr.Name ∉ pre ++ [finalizer] := by
        simp only [List.mem_append, List.mem_singleton, not_or]
        exact ⟨hpre, fun h' => hf h'.symm⟩
      have := ih (pre ++ [finalizer]) (by rw [hsplit]; simp) hne
      unfold topology.removeFinalizer
      simp only [hf, if_false]
      simpa using this

/-! ## The branches of the topology `Reconcile` -/

theorem topology_Reconcile_not_found
    (GetImage : KlusterletService → String → Image × Option GoError)
    (inst : KlusterletService) (client : Client) (scheme : Scheme) (h h₁ : History)
    (e : GoError) (child : TopologyCollector) (objectMeta : ObjectMeta)
    (hbuild : topology.newTopologyCollectorCR GetImage inst client h =
      some ((some child, none), h₁))
    (hown : SetControllerReference .KlusterletService inst.toObjectMeta child.toObjectMeta
      scheme = (objectMeta, none))
    (hget : client.GetTopologyCollector h₁
      { Name := objectMeta.Name, Namespace := objectMeta.Namespace } = .error e)
    (hnf : e.IsNotFound = true) :
    topology.Reconcile GetImage inst client scheme h =
      if inst.DeletionTimestamp ≠ none then
        some (topology.removeFinalizer inst { child with toObjectMeta := objectMeta } client
          (h₁ ++ [.Get .TopologyCollector
            { Name := objectMeta.Name, Namespace := objectMeta.Namespace }]) 0 inst.Finalizers)
      else if inst.Spec.TopologyCollectorConfig.Enabled then
        match topology.createServiceAccount client scheme inst
            { child with toObjectMeta := objectMeta }
            (h₁ ++ [.Get .TopologyCollector
              { Name := objectMeta.Name, Namespace := objectMeta.Namespace }]) with
        | (some err, h₃) => some ⟨some err, inst, h₃⟩
        | (none, h₃) =>
          match client.Create h₃ (.topologyCollector { child with toObjectMeta := objectMeta })
            with
          | some err =>
            some ⟨some err, inst,
              h₃ ++ [.Create (.topologyCollector { child with toObjectMeta := objectMeta })]⟩
          | none =>
            some ⟨none, { inst with Finalizers := inst.Finalizers ++ [objectMeta.Name] },
              h₃ ++ [.Create (.topologyCollector { child with toObjectMeta := objectMeta })]⟩
      else
        some ⟨none, inst,
          h₁ ++ [.Get .TopologyCollector
            { Name := objectMeta.Name, Namespace := objectMeta.Namespace }]⟩ := by
  unfold topology.Reconcile
  simp only [hbuild, hown, Client.getTopologyCollector, hget, hnf, if_true, Client.create]
  split
  · rfl
  · split
    · rcases topology.createServiceAccount client scheme inst _ _ with ⟨_ | err, h₃⟩
      · dsimp only
        cases client.Create h₃ _ <;> rfl
      · rfl
    · rfl

theorem topology_Reconcile_get_error
    (GetImage : KlusterletService → String → Image × Option GoError)
    (inst : KlusterletService) (client : Client) (scheme : Scheme) (h h₁ : History)
    (e : GoError) (child : TopologyCollector) (objectMeta : ObjectMeta)
    (hbuild : topology.newTopologyCollectorCR GetImage inst client h =
      some ((some child, none), h₁))
    (hown : SetControllerReference .KlusterletService inst.toObjectMeta child.toObjectMeta
      scheme = (objectMeta, none))
    (hget : client.GetTopologyCollector h₁
      { Name := objectMeta.Name, Namespace := objectMeta.Namespace } = .error e)
    (hnf : e.IsNotFound = false) :
    topology.Reconcile GetImage inst client scheme h =
      some ⟨some e, inst,
        h₁ ++ [.Get .TopologyCollector
          { Name := objectMeta.Name, Namespace := objectMeta.Namespace }]⟩ := by
  unfold topology.Reconcile
  simp [hbuild, hown, Client.getTopologyCollector, hget, hnf]

theorem topology_Reconcile_found
    (GetImage : KlusterletService → String → Image × Option GoError)
    (inst : KlusterletService) (client : Client) (scheme : Scheme) (h h₁ : History)
    (child found : TopologyCollector) (objectMeta : ObjectMeta)
    (hbuild : topology.newTopologyCollectorCR GetImage inst client h =
      some ((some child, none), h₁))
    (hown : SetControllerReference .KlusterletService inst.toObjectMeta child.toObjectMeta
      scheme = (objectMeta, none))
    (hget : client.GetTopologyCollector h₁
      { Name := objectMeta.Name, Namespace := objectMeta.Namespace } = .ok found) :
    topology.Reconcile GetImage inst client scheme h =
      if found.DeletionTimestamp = none then
        if inst.DeletionTimestamp ≠ none ∨ inst.Spec.TopologyCollectorConfig.Enabled = false then
          some ⟨client.Delete
              (h₁ ++ [.Get .TopologyCollector
                { Name := objectMeta.Name, Namespace := objectMeta.Namespace }])
              (.topologyCollector { child with toObjectMeta := objectMeta }),
            inst,
            h₁ ++ [.Get .TopologyCollector
                { Name := objectMeta.Name, Namespace := objectMeta.Namespace },
              .Delete (.topologyCollector { child with toObjectMeta := objectMeta })]⟩
        else
          some ⟨none, inst,
            h₁ ++ [.Get .TopologyCollector
                { Name := objectMeta.Name, Namespace := objectMeta.Namespace },
              .Update (.topologyCollector { found with Spec := child.Spec })]⟩
      else
        some ⟨none, inst,
          h₁ ++ [.Get .TopologyCollector
            { Name := objectMeta.Name, Namespace := objectMeta.Namespace }]⟩ := by
  unfold topology.Reconcile
  simp only [hbuild, hown, Client.getTopologyCollector, hget, Client.update, Client.delete,
    List.append_assoc, List.singleton_append]
  split
  · split
    · cases hd : client.Delete _ _ <;> rfl
    · cases hu : client.Update _ _ <;> rfl
  · rfl

/-! ## Every run of the certmgr `Reconcile` -/

theorem Issues_mem_drop (P : Call → Prop) (h h' : History) (hi : History.Issues P h h') :
    ∀ c ∈ h'.drop h.length, P c := by
  obtain ⟨issued, rfl, hall⟩ := hi
  rw [List.drop_left]
  exact hall

theorem not_update_of_touches (c : Call) (k : Kind) (h : c.touches k = true)
    (hk : k ≠ .CertManager) : ∀ o, c ≠ Call.Update (.certManager o) := by
  intro o hc
  subst hc
  simp only [Call.touches, Obj.kind, beq_iff_eq] at h
  exact hk h.symm

theorem newCertManagerCR_ok (inst : Endpoint) (child : CertManager)
    (h : (certmgr.newCertManagerCR inst).1 = some child) :
    certmgr.newCertManagerCR inst = (some child, none) ∧
      child.Name = inst.Name ++ "-certmgr" ∧ child.Namespace = inst.Namespace := by
  rcases newCertManagerCR_cases inst with ⟨e, -, hr⟩ | ⟨-, hr⟩
  · rw [hr] at h; cases h
  · rw [hr] at h ⊢
    cases h
    exact ⟨rfl, rfl, rfl⟩

/-- Every run of the certmgr `Reconcile` returns. The parent comes back as it was, or with the
child name appended to the finalizers (parent not deleting), or with its first occurrence
erased (parent deleting). Either no call is an Update of a CertManager, or the calls are the
probe, the Get of the child and one Update of the fetched child with the desired spec. -/
theorem certmgr_Reconcile_global (inst : Endpoint) (client : Client) (scheme : Scheme)
    (h : History) :
    ∃ r, certmgr.Reconcile inst client scheme h = some r ∧
      (r.inst = inst ∨
        (inst.DeletionTimestamp = none ∧
          r.inst = { inst with Finalizers := inst.Finalizers ++ [inst.Name ++ "-certmgr"] }) ∨
        (inst.DeletionTimestamp ≠ none ∧
          r.inst = { inst with
            Finalizers := inst.Finalizers.erase (inst.Name ++ "-certmgr") })) ∧
      (History.Issues (fun c => ∀ o, c ≠ Call.Update (.certManager o)) h r.calls ∨
        ∃ child found, (certmgr.newCertManagerCR inst).1 = some child ∧
          client.GetCertManager
            (h ++ [.Get .Deployment
              { Name := "cert-manager-ibm-cert-manager", Namespace := "cert-manager" }])
            { Name := inst.Name ++ "-certmgr", Namespace := inst.Namespace } = .ok found ∧
          r.calls = h ++ [.Get .Deployment
              { Name := "cert-manager-ibm-cert-manager", Namespace := "cert-manager" },
            .Get .CertManager { Name := inst.Name ++ "-certmgr", Namespace := inst.Namespace },
            .Update (.certManager { found with Spec := child.Spec })]) := by
  have hprobeI : History.Issues (fun c => ∀ o, c ≠ Call.Update (.certManager o)) h
      (h ++ [.Get .Deployment
        { Name := "cert-manager-ibm-cert-manager", Namespace := "cert-manager" }]) :=
    Issues_snoc _ _ _ _ (Issues_refl _ _) (by simp)
  cases hprobe : client.GetDeployment h
      { Name := "cert-manager-ibm-cert-manager", Namespace := "cert-manager" } with
  | ok found₀ =>
    refine ⟨_, certmgr_Reconcile_probe_ok inst client scheme h found₀ hprobe, Or.inl rfl,
      Or.inl ?_⟩
    exact Issues_trans _ _ _ _ hprobeI
      (Issues_mono _ _ _ _ (fun c hc => not_update_of_touches c _ hc (by decide))
        (createSelfSignClusterIssuer_issues client scheme inst _))
  | error e₀ =>
    cases hb : (certmgr.newCertManagerCR inst).1 with
    | none =>
      rcases newCertManagerCR_cases inst with ⟨e, he, -⟩ | ⟨-, hr⟩
      · exact ⟨_, certmgr_Reconcile_build_error inst client scheme h e₀ e hprobe he,
          Or.inl rfl, Or.inl hprobeI⟩
      · rw [hr] at hb; cases hb
    | some child =>
      obtain ⟨hbuild, hname, hns⟩ := newCertManagerCR_ok inst child hb
      rcases hown : SetControllerReference .Endpoint inst.toObjectMeta child.toObjectMeta scheme
        with ⟨objectMeta, _ | e⟩
      · obtain ⟨ref, hmeta⟩ := SetControllerReference_ok _ _ _ _ _ hown
        have hmn : objectMeta.Name = inst.Name ++ "-certmgr" := by rw [hmeta]; exact hname
        have hms : objectMeta.Namespace = inst.Namespace := by rw [hmeta]; exact hns
        have hgetI : History.Issues (fun c => ∀ o, c ≠ Call.Update (.certManager o)) h
            (h ++ [.Get .Deployment
                { Name := "cert-manager-ibm-cert-manager", Namespace := "cert-manager" },
              .Get .CertManager
                { Name := objectMeta.Name, Namespace := objectMeta.Namespace }]) :=
          ⟨_, rfl, by simp⟩
        cases hget : client.GetCertManager
            (h ++ [.Get .Deployment
              { Name := "cert-manager-ibm-cert-manager", Namespace := "cert-manager" }])
            { Name := objectMeta.Name, Namespace := objectMeta.Namespace } with
        | error e =>
          cases hnf : e.IsNotFound with
          | false =>
            exact ⟨_, certmgr_Reconcile_get_error inst client scheme h e₀ e child objectMeta
              hprobe hbuild hown hget hnf, Or.inl rfl, Or.inl hgetI⟩
          | true =>
            by_cases hlive : inst.DeletionTimestamp = none
            · rw [certmgr_Reconcile_create inst client scheme h e₀ e child objectMeta
                hprobe hbuild hown hget hnf hlive]
              have hsa := certmgr_createServiceAccount_calls client scheme inst
                { child with toObjectMeta := objectMeta }
                (h ++ [.Get .Deployment
                    { Name := "cert-manager-ibm-cert-manager", Namespace := "cert-manager" },
                  .Get .CertManager
                    { Name := objectMeta.Name, Namespace := objectMeta.Namespace }])
              rcases hsaeq : certmgr.createServiceAccount client scheme inst
                  { child with toObjectMeta := objectMeta }
                  (h ++ [.Get .Deployment
                      { Name := "cert-manager-ibm-cert-manager", Namespace := "cert-manager" },
                    .Get .CertManager
                      { Name := objectMeta.Name, Namespace := objectMeta.Namespace }])
                with ⟨_ | err, h₃⟩
              all_goals rw [hsaeq] at hsa ⊢
              all_goals dsimp only at hsa ⊢
              all_goals
                have hsaI : History.Issues (fun c => ∀ o, c ≠ Call.Update (.certManager o)) h
                  h₃ := Issues_trans _ _ _ _ hgetI
                    (Issues_mono _ _ _ _
                      (fun c hc => hc.elim
                        (fun h1 => not_update_of_touches c _ h1 (by decide))
                        (fun h2 => not_update_of_touches c _ h2 (by decide))) hsa)
              · cases hcr : client.Create h₃
                    (.certManager { child with toObjectMeta := objectMeta }) with
                | some err =>
                  exact ⟨_, rfl, Or.inl rfl,
                    Or.inl (Issues_snoc _ _ _ _ hsaI (by simp))⟩
                | none =>
                  refine ⟨_, rfl, Or.inr (Or.inl ⟨hlive, by rw [hmn]⟩), Or.inl ?_⟩
                  exact Issues_trans _ _ _ _ (Issues_snoc _ _ _ _ hsaI (by simp))
                    (Issues_mono _ _ _ _ (fun c hc => not_update_of_touches c _ hc (by decide))
                      (createSelfSignClusterIssuer_issues client scheme inst _))
              · exact ⟨_, rfl, Or.inl rfl, Or.inl hsaI⟩
            · rw [certmgr_Reconcile_finalize inst client scheme h e₀ e child objectMeta
                hprobe hbuild hown hget hnf hlive]
              have hcn : ({ child with toObjectMeta := objectMeta } : CertManager).Name =
                  inst.Name ++ "-certmgr" := hmn
              rcases certmgr_removeFinalizer_spec inst { child with toObjectMeta := objectMeta }
                  client scheme
                  (h ++ [.Get .Deployment
                      { Name := "cert-manager-ibm-cert-manager", Namespace := "cert-manager" },
                    .Get .CertManager
                      { Name := objectMeta.Name, Namespace := objectMeta.Namespace }])
                  inst.Finalizers [] rfl (by simp) with
                ⟨hnone, -⟩ | ⟨r, hsome, -, hI, -, hshape⟩
              · simp only [List.length_nil] at hnone
                rw [hnone]
                exact ⟨_, rfl, Or.inl rfl, Or.inl hgetI⟩
              · simp only [List.length_nil] at hsome
                rw [hsome]
                refine ⟨r, rfl, ?_, Or.inl ?_⟩
                · rcases hshape with ⟨e', -, -, hi⟩ | ⟨-, -, hi⟩
                  · exact Or.inl hi
                  · rw [hcn] at hi
                    exact Or.inr (Or.inr ⟨hlive, hi⟩)
                · exact Issues_trans _ _ _ _ hgetI
                    (Issues_mono _ _ _ _
                      (fun c hc => hc.elim
                        (fun h1 => not_update_of_touches c _ h1 (by decide))
                        (fun h2 => not_update_of_touches c _ h2 (by decide))) hI)
        | ok found =>
          rw [certmgr_Reconcile_found inst client scheme h e₀ child found objectMeta
            hprobe hbuild hown hget]
          split
          · split
            · cases hu : client.Update _ _ with
              | none =>
                exact ⟨_, rfl, Or.inl rfl, Or.inr ⟨child, found, rfl,
                  by rw [← hmn, ← hms]; exact hget, by rw [← hmn, ← hms]⟩⟩
              | some err =>
                exact ⟨_, rfl, Or.inl rfl, Or.inr ⟨child, found, rfl,
                  by rw [← hmn, ← hms]; exact hget, by rw [← hmn, ← hms]⟩⟩
            · cases hd : client.Delete _ _ with
              | none => exact ⟨_, rfl, Or.inl rfl, Or.inl ⟨_, rfl, by simp⟩⟩
              | some err => exact ⟨_, rfl, Or.inl rfl, Or.inl ⟨_, rfl, by simp⟩⟩
          · exact ⟨_, rfl, Or.inl rfl, Or.inl hgetI⟩
      · exact ⟨_, certmgr_Reconcile_own_error inst client scheme h e₀ e child objectMeta
          hprobe hbuild hown, Or.inl rfl, Or.inl hprobeI⟩

/-! ## Every run of the topology `Reconcile` -/

theorem not_topology_update_of_touches (c : Call) (k : Kind) (h : c.touches k = true)
    (hk : k ≠ .TopologyCollector) : ∀ o, c ≠ Call.Update (.topologyCollector o) := by
  intro o hc
  subst hc
  simp only [Call.touches, Obj.kind, beq_iff_eq] at h
  exact hk h.symm

/-- Every run of the topology `Reconcile` that returns. The parent comes back as it was, or with
the child name appended to the finalizers (parent not deleting), or with its first occurrence
erased (parent deleting). Either no call is an Update of a TopologyCollector, or the calls are
the List of the nodes, the Get of the child and one Update of the fetched child with the desired
spec. -/
theorem topology_Reconcile_global
    (GetImage : KlusterletService → String → Image × Option GoError)
    (inst : KlusterletService) (client : Client) (scheme : Scheme) (h : History)
    (r : topology.ReconcileResult)
    (hr : topology.Reconcile GetImage inst client scheme h = some r) :
    (r.inst = inst ∨
        (inst.DeletionTimestamp = none ∧
          r.inst = { inst with Finalizers := inst.Finalizers ++ [inst.Name ++ "-topology"] }) ∨
        (inst.DeletionTimestamp ≠ none ∧
          r.inst = { inst with
            Finalizers := inst.Finalizers.erase (inst.Name ++ "-topology") })) ∧
      (History.Issues (fun c => ∀ o, c ≠ Call.Update (.topologyCollector o)) h r.calls ∨
        ∃ child found,
          topology.newTopologyCollectorCR GetImage inst client h =
            some ((some child, none), h ++ [.List .Node]) ∧
          client.GetTopologyCollector (h ++ [.List .Node])
            { Name := inst.Name ++ "-topology", Namespace := inst.Namespace } = .ok found ∧
          r.calls = h ++ [.List .Node,
            .Get .TopologyCollector
              { Name := inst.Name ++ "-topology", Namespace := inst.Namespace },
            .Update (.topologyCollector { found with Spec := child.Spec })]) := by
  rcases newTopologyCollectorCR_cases GetImage inst client h with
    hb | ⟨e, hb⟩ | ⟨child, hbuild, hname, hns, -, -⟩
  · unfold topology.Reconcile at hr
    rw [hb] at hr
    cases hr
  · unfold topology.Reconcile at hr
    rw [hb] at hr
    simp only [Option.some.injEq] at hr
    subst hr
    exact ⟨Or.inl rfl, Or.inl (Issues_refl _ _)⟩
  · have hlistI : History.Issues (fun c => ∀ o, c ≠ Call.Update (.topologyCollector o)) h
        (h ++ [.List .Node]) := Issues_snoc _ _ _ _ (Issues_refl _ _) (by simp)
    rcases hown : SetControllerReference .KlusterletService inst.toObjectMeta
        child.toObjectMeta scheme with ⟨objectMeta, _ | e⟩
    · obtain ⟨ref, hmeta⟩ := SetControllerReference_ok _ _ _ _ _ hown
      have hmn : objectMeta.Name = inst.Name ++ "-topology" := by rw [hmeta]; exact hname
      have hms : objectMeta.Namespace = inst.Namespace := by rw [hmeta]; exact hns
      have hgetI : History.Issues (fun c => ∀ o, c ≠ Call.Update (.topologyCollector o)) h
          (h ++ [.List .Node] ++ [.Get .TopologyCollector
              { Name := objectMeta.Name, Namespace := objectMeta.Namespace }]) :=
        Issues_snoc _ _ _ _ hlistI (by simp)
      cases hget : client.GetTopologyCollector (h ++ [.List .Node])
          { Name := objectMeta.Name, Namespace := objectMeta.Namespace } with
      | error e =>
        cases hnf : e.IsNotFound with
        | false =>
          rw [topology_Reconcile_get_error GetImage inst client scheme h _ e child objectMeta
            hbuild hown hget hnf] at hr
          simp only [Option.some.injEq] at hr
          subst hr
          exact ⟨Or.inl rfl, Or.inl hgetI⟩
        | true =>
          rw [topology_Reconcile_not_found GetImage inst client scheme h _ e child objectMeta
            hbuild hown hget hnf] at hr
          by_cases hlive : inst.DeletionTimestamp = none
          · simp only [hlive, ne_eq, not_true_eq_false, if_false] at hr
            by_cases hen : inst.Spec.TopologyCollectorConfig.Enabled = true
            · simp only [hen, if_true] at hr
              have hsa := topology_createServiceAccount_calls client scheme inst
                { child with toObjectMeta := objectMeta }
                (h ++ [.List .Node] ++ [.Get .TopologyCollector
                  { Name := objectMeta.Name, Namespace := objectMeta.Namespace }])
              rcases hsaeq : topology.createServiceAccount client scheme inst
                  { child with toObjectMeta := objectMeta }
                  (h ++ [.List .Node] ++ [.Get .TopologyCollector
                    { Name := objectMeta.Name, Namespace := objectMeta.Namespace }])
                with ⟨_ | err, h₃⟩
              all_goals rw [hsaeq] at hsa hr
              all_goals dsimp only at hsa hr
              all_goals
                have hsaI : History.Issues
                    (fun c => ∀ o, c ≠ Call.Update (.topologyCollector o)) h h₃ :=
                  Issues_trans _ _ _ _ hgetI
                    (Issues_mono _ _ _ _
                      (fun c hc => hc.elim
                        (fun h1 => not_topology_update_of_touches c _ h1 (by decide))
                        (fun h2 => not_topology_update_of_touches c _ h2 (by decide))) hsa)
              · cases hcr : client.Create h₃
                    (.topologyCollector { child with toObjectMeta := objectMeta }) with
                | some err =>
                  rw [hcr] at hr
                  simp only [Option.some.injEq] at hr
                  subst hr
                  exact ⟨Or.inl rfl, Or.inl (Issues_snoc _ _ _ _ hsaI (by simp))⟩
                | none =>
                  rw [hcr] at hr
                  simp only [Option.some.injEq] at hr
                  subst hr
                  exact ⟨Or.inr (Or.inl ⟨hlive, by rw [hmn, hlive]⟩),
                    Or.inl (Issues_snoc _ _ _ _ hsaI (by simp))⟩
              · simp only [Option.some.injEq] at hr
                subst hr
                exact ⟨Or.inl rfl, Or.inl hsaI⟩
            · rw [if_neg hen] at hr
              simp only [Option.some.injEq] at hr
              subst hr
              exact ⟨Or.inl rfl, Or.inl hgetI⟩
          · simp only [hlive, ne_eq, not_false_eq_true, if_true, Option.some.injEq] at hr
            have hcn : ({ child with toObjectMeta := objectMeta } : TopologyCollector).Name =
                inst.Name ++ "-topology" := hmn
            obtain ⟨hI, -, hshape⟩ := topology_removeFinalizer_spec inst
              { child with toObjectMeta := objectMeta } client
              (h ++ [.List .Node] ++ [.Get .TopologyCollector
                { Name := objectMeta.Name, Namespace := objectMeta.Namespace }])
              inst.Finalizers [] rfl (by simp)
            simp only [List.length_nil] at hI hshape
            rw [hr] at hI hshape
            refine ⟨?_, Or.inl (Issues_trans _ _ _ _ hgetI
              (Issues_mono _ _ _ _
                (fun c hc => not_topology_update_of_touches c _ hc (by decide)) hI))⟩
            rcases hshape with ⟨-, hi⟩ | ⟨-, ⟨e', -, hi⟩ | ⟨-, hi⟩⟩
            · rw [hi]; exact Or.inl rfl
            · exact Or.inl hi
            · rw [hcn] at hi
              exact Or.inr (Or.inr ⟨hlive, hi⟩)
      | ok found =>
        rw [topology_Reconcile_found GetImage inst client scheme h _ child found objectMeta
          hbuild hown hget] at hr
        split at hr
        · split at hr
          · simp only [Option.some.injEq] at hr
            subst hr
            refine ⟨Or.inl rfl, Or.inl ?_⟩
            have hd := Issues_snoc _ _ _
              (Call.Delete (.topologyCollector { child with toObjectMeta := objectMeta }))
              hgetI (by simp)
            simpa [List.append_assoc] using hd
          · simp only [Option.some.injEq] at hr
            subst hr
            refine ⟨Or.inl rfl, Or.inr ⟨child, found, hbuild, ?_, ?_⟩⟩
            · rw [← hmn, ← hms]; exact hget
            · rw [← hmn, ← hms]; simp
        · simp only [Option.some.injEq] at hr
          subst hr
          exact ⟨Or.inl rfl, Or.inl hgetI⟩
    · unfold topology.Reconcile at hr
      simp only [hbuild, hown, Option.some.injEq] at hr
      subst hr
      exact ⟨Or.inl rfl, Or.inl hlistI⟩

/-! ## Errors of the cleanup come from refused Deletes -/

/-- When the scheme knows the parent kind, an error of `deleteSelfSignClusterIssuer` is the
error of its Delete. -/
theorem deleteSelfSignClusterIssuer_error (client : Client) (scheme : Scheme) (cr : Endpoint)
    (h : History) (gvk : GroupVersionKind) (e : GoError)
    (hgvk : scheme.GVKForObject .Endpoint = .ok gvk)
    (he : (certmgr.deleteSelfSignClusterIssuer client scheme cr h).1 = some e) :
    History.failedDelete client h
      ((certmgr.deleteSelfSignClusterIssuer client scheme cr h).2.drop h.length) = some e := by
  unfold certmgr.deleteSelfSignClusterIssuer SetControllerReference at he ⊢
  rw [hgvk] at he ⊢
  dsimp only [Client.getClusterIssuer] at he ⊢
  cases hget : client.GetClusterIssuer h { Name := cr.Name ++ "-self-signed" } with
  | error e' =>
    try rw [hget] at he
    cases he
  | ok found =>
    try rw [hget] at he
    try rw [hget]
    simp only [Client.delete] at he ⊢
    simp [List.append_assoc, History.failedDelete, he]

/-- When the scheme knows the parent kind, an error returned by the certmgr finalizer loop is
the error of a refused Delete. -/
theorem certmgr_removeFinalizer_error (inst : Endpoint) (certMgr : CertManager)
    (client : Client) (scheme : Scheme) (h : History) (gvk : GroupVersionKind)
    (hgvk : scheme.GVKForObject .Endpoint = .ok gvk) :
    ∀ (rest : List String) (i : Nat) (r : ReconcileResult) (e : GoError),
      certmgr.removeFinalizer inst certMgr client scheme h i rest = some r → r.err = some e →
        History.failedDelete client h (r.calls.drop h.length) = some e := by
  intro rest
  induction rest with
  | nil => intro i r e hr; cases hr
  | cons finalizer rest ih =>
    intro i r e hr he
    unfold certmgr.removeFinalizer at hr
    by_cases hf : finalizer = certMgr.Name
    · simp only [hf, if_true, Client.getConfigMap, Client.delete] at hr
      have tail : ∀ (pre : History), History.failedDelete client h pre = none →
          some (match certmgr.deleteSelfSignClusterIssuer client scheme inst (h ++ pre) with
            | (some err, h') => (⟨false, some err, inst, h'⟩ : ReconcileResult)
            | (none, h') =>
              ⟨true, none,
                { inst with Finalizers := inst.Finalizers.take i ++ inst.Finalizers.drop (i + 1) },
                h'⟩) = some r →
          History.failedDelete client h (r.calls.drop h.length) = some e := by
        intro pre hpre hr'
        have hds := deleteSelfSignClusterIssuer_error client scheme inst (h ++ pre) gvk
        obtain ⟨issued, hcalls, -⟩ :=
          deleteSelfSignClusterIssuer_spec client scheme inst (h ++ pre)
        rcases hres : certmgr.deleteSelfSignClusterIssuer client scheme inst (h ++ pre) with
          ⟨_ | e', h'⟩
        · rw [hres] at hr'
          simp only [Option.some.injEq] at hr'
          subst hr'
          cases he
        · rw [hres] at hr' hds hcalls
          simp only [Option.some.injEq] at hr'
          subst hr'
          dsimp only at he hds hcalls ⊢
          cases he
          have := hds e hgvk rfl
          subst hcalls
          rw [List.drop_left] at this
          rw [List.append_assoc, List.drop_left, failedDelete_append, hpre]
          exact this
      cases hcfg : client.GetConfigMap h
          { Name := "cert-manager-controller", Namespace := certMgr.Namespace } with
      | error e₀ =>
        rw [hcfg] at hr
        exact tail [.Get .ConfigMap
          { Name := "cert-manager-controller", Namespace := certMgr.Namespace }]
          (by simp [History.failedDelete]) hr
      | ok foundConfigMap =>
        rw [hcfg] at hr
        dsimp only at hr
        cases hdel : client.Delete
            (h ++ [.Get .ConfigMap
              { Name := "cert-manager-controller", Namespace := certMgr.Namespace }])
            (.configMap foundConfigMap) with
        | some e' =>
          rw [hdel] at hr
          simp only [Option.some.injEq] at hr
          subst hr
          cases he
          simp [List.append_assoc, History.failedDelete, hdel]
        | none =>
          rw [hdel] at hr
          dsimp only at hr
          have := tail [.Get .ConfigMap
              { Name := "cert-manager-controller", Namespace := certMgr.Namespace },
            .Delete (.configMap foundConfigMap)]
            (by simp [History.failedDelete, hdel])
          simp only [List.append_assoc, List.singleton_append] at this hr
          exact this hr
    · simp only [hf, if_false] at hr
      exact ih (i + 1) r e hr he

/-- An error returned by the topology finalizer loop is the error of a refused Delete. -/
theorem topology_removeFinalizer_error (inst : KlusterletService) (cr : TopologyCollector)
    (client : Client) (h : History) :
    ∀ (rest : List String) (i : Nat) (e : GoError),
      (topology.removeFinalizer inst cr client h i rest).err = some e →
        History.failedDelete client h
          ((topology.removeFinalizer inst cr client h i rest).calls.drop h.length) = some e := by
  intro rest
  induction rest with
  | nil => intro i e he; simp [topology.removeFinalizer] at he
  | cons finalizer rest ih =>
    intro i e he
    unfold topology.removeFinalizer at he ⊢
    by_cases hf : finalizer = cr.Name
    · simp only [hf, if_true] at he ⊢
      obtain ⟨issued, hcalls, -, -, hconv⟩ := deleteSecrets_spec client cr.Namespace
        [cr.Name ++ "-ca-cert", cr.Name ++ "-server-secret", cr.Name ++ "-client-secret"] h
      rcases hds : topology.deleteSecrets client cr.Namespace
          [cr.Name ++ "-ca-cert", cr.Name ++ "-server-secret", cr.Name ++ "-client-secret"] h
        with ⟨_ | e', h'⟩
      · try rw [hds] at he
        cases he
      · try rw [hds] at he
        try rw [hds]
        rw [hds] at hcalls hconv
        dsimp only at he hcalls hconv ⊢
        cases he
        subst hcalls
        rw [List.drop_left]
        exact hconv e rfl
    · simp only [hf, if_false] at he ⊢
      exact ih (i + 1) e he

/-! ## Reconcile state machine: the claims -/

/-- C11 (as stated, refuted): on the in-memory cluster a first Reconcile of the sample parent
succeeds, and a second Reconcile with nothing changed in between still issues a store mutation:
an Update of the child, although the child it fetched is the one the first run created and its
spec is the desired spec. This holds for certmgr and for topology. -/
theorem C11_second_reconcile_updates :
    ((certmgr.Reconcile Endpoint.sample Client.memory Scheme.registered []).bind (fun r₁ =>
      (certmgr.Reconcile r₁.inst Client.memory Scheme.registered r₁.calls).map (fun r₂ =>
        (r₁.err, r₂.err, r₂.calls.drop r₁.calls.length))) =
      some (none, none,
        [.Get .Deployment
            { Name := "cert-manager-ibm-cert-manager", Namespace := "cert-manager" },
          .Get .CertManager { Name := "c1-certmgr", Namespace := "ns1" },
          .Update (.certManager CertManager.sample)])) ∧
    ((certmgr.Reconcile Endpoint.sample Client.memory Scheme.registered []).bind (fun r₁ =>
      (Client.memory.GetCertManager
        (r₁.calls ++ [.Get .Deployment
          { Name := "cert-manager-ibm-cert-manager", Namespace := "cert-manager" }])
        { Name := "c1-certmgr", Namespace := "ns1" }).toOption) = some CertManager.sample) ∧
    ((certmgr.Reconcile Endpoint.sample Client.memory Scheme.registered []).bind (fun r₁ =>
      (certmgr.newCertManagerCR r₁.inst).1.map (fun child => child.Spec)) =
        some CertManager.sample.Spec) ∧
    ((topology.Reconcile topology.resolveAll KlusterletService.sample Client.memory
        Scheme.registered []).bind (fun r₁ =>
      (topology.Reconcile topology.resolveAll r₁.inst Client.memory Scheme.registered
          r₁.calls).map (fun r₂ =>
        (r₁.err, r₂.err, r₂.calls.drop r₁.calls.length))) =
      some (none, none,
        [.List .Node,
          .Get .TopologyCollector { Name := "c1-topology", Namespace := "ns1" },
          .Update (.topologyCollector TopologyCollector.sample)])) ∧
    ((topology.Reconcile topology.resolveAll KlusterletService.sample Client.memory
        Scheme.registered []).bind (fun r₁ =>
      (Client.memory.GetTopologyCollector (r₁.calls ++ [.List .Node])
        { Name := "c1-topology", Namespace := "ns1" }).toOption) =
      some TopologyCollector.sample) := by
  decide

/-- C12: whenever certmgr Reconcile or topology Reconcile issues an Update of the child, the
object written is the fetched child with only its Spec replaced by the desired spec; all its
metadata (name, namespace, labels, owner references, ...) is that of the fetched object. -/
theorem C12_update_in_place :
    (∀ (inst : Endpoint) (client : Client) (scheme : Scheme) (h : History)
        (r : ReconcileResult) (o : CertManager),
      certmgr.Reconcile inst client scheme h = some r →
      Call.Update (.certManager o) ∈ r.calls.drop h.length →
      ∃ found child,
        client.GetCertManager
          (h ++ [.Get .Deployment
            { Name := "cert-manager-ibm-cert-manager", Namespace := "cert-manager" }])
          { Name := inst.Name ++ "-certmgr", Namespace := inst.Namespace } = .ok found ∧
        (certmgr.newCertManagerCR inst).1 = some child ∧
        o = { found with Spec := child.Spec } ∧
        o.toObjectMeta = found.toObjectMeta ∧ o.Spec = child.Spec) ∧
    (∀ (GetImage : KlusterletService → String → Image × Option GoError)
        (inst : KlusterletService) (client : Client) (scheme : Scheme) (h : History)
        (r : topology.ReconcileResult) (o : TopologyCollector),
      topology.Reconcile GetImage inst client scheme h = some r →
      Call.Update (.topologyCollector o) ∈ r.calls.drop h.length →
      ∃ found child,
        client.GetTopologyCollector (h ++ [.List .Node])
          { Name := inst.Name ++ "-topology", Namespace := inst.Namespace } = .ok found ∧
        topology.newTopologyCollectorCR GetImage inst client h =
          some ((some child, none), h ++ [.List .Node]) ∧
        o = { found with Spec := child.Spec } ∧
        o.toObjectMeta = found.toObjectMeta ∧ o.Spec = child.Spec) := by
  constructor
  · intro inst client scheme h r o hr hmem
    obtain ⟨r', hr', -, hcalls⟩ := certmgr_Reconcile_global inst client scheme h
    rw [hr] at hr'
    cases hr'
    rcases hcalls with hI | ⟨child, found, hb, hget, hc⟩
    · exact absurd rfl (Issues_mem_drop _ _ _ hI _ hmem o)
    · rw [hc, List.drop_left] at hmem
      simp only [List.mem_cons, List.mem_singleton, List.not_mem_nil, or_false, false_or,
        Call.Update.injEq, Obj.certManager.injEq, reduceCtorEq] at hmem
      subst hmem
      exact ⟨found, child, hget, hb, rfl, rfl, rfl⟩
  · intro GetImage inst client scheme h r o hr hmem
    obtain ⟨-, hcalls⟩ := topology_Reconcile_global GetImage inst client scheme h r hr
    rcases hcalls with hI | ⟨child, found, hb, hget, hc⟩
    · exact absurd rfl (Issues_mem_drop _ _ _ hI _ hmem o)
    · rw [hc, List.drop_left] at hmem
      simp only [List.mem_cons, List.mem_singleton, List.not_mem_nil, or_false, false_or,
        Call.Update.injEq, Obj.topologyCollector.injEq, reduceCtorEq] at hmem
      subst hmem
      exact ⟨found, child, hget, hb, rfl, rfl, rfl⟩

theorem C12_update_in_place_witness :
    ∃ found child,
      Client.memory.GetCertManager
        ([.Create (.certManager
            { CertManager.sample with
              Labels := [("app", "other")], Spec := { FullNameOverride := "old" } })] ++
          [.Get .Deployment
            { Name := "cert-manager-ibm-cert-manager", Namespace := "cert-manager" }])
        { Name := Endpoint.sample.Name ++ "-certmgr", Namespace := Endpoint.sample.Namespace }
          = .ok found ∧
      (certmgr.newCertManagerCR Endpoint.sample).1 = some child ∧
      ({ CertManager.sample with Labels := [("app", "other")] } : CertManager) =
        { found with Spec := child.Spec } ∧
      ({ CertManager.sample with Labels := [("app", "other")] } : CertManager).toObjectMeta =
        found.toObjectMeta ∧
      ({ CertManager.sample with Labels := [("app", "other")] } : CertManager).Spec =
        child.Spec :=
  C12_update_in_place.1 Endpoint.sample Client.memory Scheme.registered
    [.Create (.certManager
      { CertManager.sample with
        Labels := [("app", "other")], Spec := { FullNameOverride := "old" } })]
    ⟨false, none, Endpoint.sample,
      [.Create (.certManager
        { CertManager.sample with
          Labels := [("app", "other")], Spec := { FullNameOverride := "old" } }),
       .Get .Deployment
         { Name := "cert-manager-ibm-cert-manager", Namespace := "cert-manager" },
       .Get .CertManager { Name := "c1-certmgr", Namespace := "ns1" },
       .Update (.certManager { CertManager.sample with Labels := [("app", "other")] })]⟩
    { CertManager.sample with Labels := [("app", "other")] } (by decide) (by decide)

/-- C13: when the fetched child exists and is not being deleted, and the parent is deleting
(certmgr), or the parent is deleting or the add-on is disabled (appmgr), Reconcile deletes the
child, leaves the parent and its finalizers unchanged, and on a successful delete returns
requeue=true with a nil error. certmgr issues the client Delete of the fetched child. appmgr
runs its delete step on the fetched child and none of its other steps; when that step is the
client Delete of the object, the Delete is the only call after the Get. -/
theorem C13_delete_and_requeue :
    (∀ (inst : Endpoint) (client : Client) (scheme : Scheme) (h : History) (e₀ : GoError)
        (child found : CertManager) (objectMeta : ObjectMeta),
      client.GetDeployment h
        { Name := "cert-manager-ibm-cert-manager", Namespace := "cert-manager" } = .error e₀ →
      certmgr.newCertManagerCR inst = (some child, none) →
      SetControllerReference .Endpoint inst.toObjectMeta child.toObjectMeta scheme =
        (objectMeta, none) →
      client.GetCertManager
        (h ++ [.Get .Deployment
          { Name := "cert-manager-ibm-cert-manager", Namespace := "cert-manager" }])
        { Name := objectMeta.Name, Namespace := objectMeta.Namespace } = .ok found →
      found.DeletionTimestamp = none → inst.DeletionTimestamp ≠ none →
      ∃ r, certmgr.Reconcile inst client scheme h = some r ∧ r.inst = inst ∧
        r.calls = h ++ [.Get .Deployment
            { Name := "cert-manager-ibm-cert-manager", Namespace := "cert-manager" },
          .Get .CertManager { Name := objectMeta.Name, Namespace := objectMeta.Namespace },
          .Delete (.certManager found)] ∧
        (client.Delete
            (h ++ [.Get .Deployment
                { Name := "cert-manager-ibm-cert-manager", Namespace := "cert-manager" },
              .Get .CertManager { Name := objectMeta.Name, Namespace := objectMeta.Namespace }])
            (.certManager found) = none →
          r.requeue = true ∧ r.err = none)) ∧
    (∀ (helpers : appmgr.Helpers) (inst : Endpoint) (client : Client) (scheme : Scheme)
        (h : History) (child found : ApplicationManager) (objectMeta : ObjectMeta),
      appmgr.newApplicationManagerCR inst = (some child, none) →
      SetControllerReference .Endpoint inst.toObjectMeta child.toObjectMeta scheme =
        (objectMeta, none) →
      client.GetApplicationManager h
        { Name := objectMeta.Name, Namespace := objectMeta.Namespace } = .ok found →
      found.DeletionTimestamp = none →
      (inst.DeletionTimestamp ≠ none ∨ inst.Spec.ApplicationManagerConfig.Enabled = false) →
      ∃ r, appmgr.Reconcile helpers inst client scheme h = some r ∧ r.inst = inst ∧
        r.calls = (helpers.delete found client
          (h ++ [.Get .ApplicationManager
            { Name := objectMeta.Name, Namespace := objectMeta.Namespace }])).2 ∧
        ((helpers.delete found client
          (h ++ [.Get .ApplicationManager
            { Name := objectMeta.Name, Namespace := objectMeta.Namespace }])).1 = none →
          r.requeue = true ∧ r.err = none) ∧
        (∀ helpers' : appmgr.Helpers, helpers'.delete = helpers.delete →
          appmgr.Reconcile helpers' inst client scheme h = some r) ∧
        (helpers.delete = (fun found client h => client.delete (.applicationManager found) h) →
          r.calls = h ++ [.Get .ApplicationManager
              { Name := objectMeta.Name, Namespace := objectMeta.Namespace },
            .Delete (.applicationManager found)])) := by
  constructor
  · intro inst client scheme h e₀ child found objectMeta hprobe hbuild hown hget hfound hdel
    rw [certmgr_Reconcile_found inst client scheme h e₀ child found objectMeta hprobe hbuild
      hown hget, if_pos hfound, if_neg hdel]
    cases hd : client.Delete _ _ with
    | none => exact ⟨_, rfl, rfl, rfl, fun _ => ⟨rfl, rfl⟩⟩
    | some err => exact ⟨_, rfl, rfl, rfl, fun hn => by cases hn⟩
  · intro helpers inst client scheme h child found objectMeta hbuild hown hget hfound hcond
    have hnot : ¬ (inst.DeletionTimestamp = none ∧
        inst.Spec.ApplicationManagerConfig.Enabled = true) := by
      rintro ⟨h1, h2⟩
      rcases hcond with hc | hc
      · exact hc h1
      · rw [h2] at hc; cases hc
    have key : ∀ helpers' : appmgr.Helpers, helpers'.delete = helpers.delete →
        appmgr.Reconcile helpers' inst client scheme h =
          some (match helpers.delete found client
              (h ++ [.Get .ApplicationManager
                { Name := objectMeta.Name, Namespace := objectMeta.Namespace }]) with
            | (some e, h') => ⟨false, some e, inst, h'⟩
            | (none, h') => ⟨true, none, inst, h'⟩) := by
      intro helpers' hsame
      unfold appmgr.Reconcile
      simp only [hbuild, hown, Client.getApplicationManager, hget, hfound, if_true, hnot,
        if_false, hsame]
      rcases helpers.delete found client _ with ⟨_ | e, h'⟩ <;> rfl
    refine ⟨_, key helpers rfl, ?_, ?_, ?_, key, ?_⟩
    · rcases helpers.delete found client _ with ⟨_ | e, h'⟩ <;> rfl
    · rcases helpers.delete found client _ with ⟨_ | e, h'⟩ <;> rfl
    · rcases hd : helpers.delete found client _ with ⟨_ | e, h'⟩
      · intro _; exact ⟨rfl, rfl⟩
      · intro hn; cases hn
    · intro hdelete
      rw [hdelete]
      simp only [Client.delete, List.append_assoc, List.singleton_append]
      cases client.Delete _ _ <;> rfl

theorem C13_delete_and_requeue_witness :
    ∃ r, certmgr.Reconcile
        { Endpoint.sample with DeletionTimestamp := some 1, Finalizers := ["c1-certmgr"] }
        Client.memory Scheme.registered [.Create (.certManager CertManager.sample)] = some r ∧
      r.requeue = true ∧ r.err = none ∧ r.inst.Finalizers = ["c1-certmgr"] ∧
      r.calls = [.Create (.certManager CertManager.sample),
        .Get .Deployment
          { Name := "cert-manager-ibm-cert-manager", Namespace := "cert-manager" },
        .Get .CertManager { Name := "c1-certmgr", Namespace := "ns1" },
        .Delete (.certManager CertManager.sample)] := by
  obtain ⟨r, hr, hinst, hcalls, hok⟩ := C13_delete_and_requeue.1
    { Endpoint.sample with DeletionTimestamp := some 1, Finalizers := ["c1-certmgr"] }
    Client.memory Scheme.registered [.Create (.certManager CertManager.sample)]
    (.status "NotFound" "") { CertManager.sample with OwnerReferences := [] }
    CertManager.sample CertManager.sample.toObjectMeta (by rfl) (by decide) (by decide)
    (by rfl) (by rfl) (by decide)
  have h2 := hok (by decide)
  exact ⟨r, hr, h2.1, h2.2, by rw [hinst], hcalls⟩

theorem SetControllerReference_gvk (ownerKind : Kind) (owner object objectMeta : ObjectMeta)
    (scheme : Scheme)
    (h : SetControllerReference ownerKind owner object scheme = (objectMeta, none)) :
    ∃ gvk, scheme.GVKForObject ownerKind = .ok gvk := by
  unfold SetControllerReference at h
  cases hg : scheme.GVKForObject ownerKind with
  | error e => rw [hg] at h; simp at h
  | ok gvk => exact ⟨gvk, rfl⟩

/-- C14: on the create path (parent not deleting, add-on enabled, child not found, the service
account ensure and the Create of the child succeeding) certmgr Reconcile and topology Reconcile
first run the service-account ensure, then issue one Create of the desired child, the only call
on a child object besides the Get, and return success without requeue with the child name
appended at the end of the parent's finalizer list. -/
theorem C14_create_path :
    (∀ (inst : Endpoint) (client : Client) (scheme : Scheme) (h : History) (e₀ e : GoError)
        (child : CertManager) (objectMeta : ObjectMeta),
      client.GetDeployment h
        { Name := "cert-manager-ibm-cert-manager", Namespace := "cert-manager" } = .error e₀ →
      certmgr.newCertManagerCR inst = (some child, none) →
      SetControllerReference .Endpoint inst.toObjectMeta child.toObjectMeta scheme =
        (objectMeta, none) →
      client.GetCertManager
        (h ++ [.Get .Deployment
          { Name := "cert-manager-ibm-cert-manager", Namespace := "cert-manager" }])
        { Name := objectMeta.Name, Namespace := objectMeta.Namespace } = .error e →
      e.IsNotFound = true → inst.DeletionTimestamp = none →
      (certmgr.createServiceAccount client scheme inst { child with toObjectMeta := objectMeta }
        (h ++ [.Get .Deployment
            { Name := "cert-manager-ibm-cert-manager", Namespace := "cert-manager" },
          .Get .CertManager
            { Name := objectMeta.Name, Namespace := objectMeta.Namespace }])).1 = none →
      client.Create
        (certmgr.createServiceAccount client scheme inst
          { child with toObjectMeta := objectMeta }
          (h ++ [.Get .Deployment
              { Name := "cert-manager-ibm-cert-manager", Namespace := "cert-manager" },
            .Get .CertManager
              { Name := objectMeta.Name, Namespace := objectMeta.Namespace }])).2
        (.certManager { child with toObjectMeta := objectMeta }) = none →
      ∃ r sa issuer, certmgr.Reconcile inst client scheme h = some r ∧
        r.requeue = false ∧ r.err = none ∧
        r.inst = { inst with Finalizers := inst.Finalizers ++ [inst.Name ++ "-certmgr"] } ∧
        objectMeta.Name = inst.Name ++ "-certmgr" ∧
        (certmgr.createServiceAccount client scheme inst
          { child with toObjectMeta := objectMeta }
          (h ++ [.Get .Deployment
              { Name := "cert-manager-ibm-cert-manager", Namespace := "cert-manager" },
            .Get .CertManager
              { Name := objectMeta.Name, Namespace := objectMeta.Namespace }])).2 =
          h ++ [.Get .Deployment
              { Name := "cert-manager-ibm-cert-manager", Namespace := "cert-manager" },
            .Get .CertManager
              { Name := objectMeta.Name, Namespace := objectMeta.Namespace }] ++ sa ∧
        r.calls = h ++ [.Get .Deployment
              { Name := "cert-manager-ibm-cert-manager", Namespace := "cert-manager" },
            .Get .CertManager
              { Name := objectMeta.Name, Namespace := objectMeta.Namespace }] ++ sa ++
            [.Create (.certManager { child with toObjectMeta := objectMeta })] ++ issuer ∧
        (∀ c ∈ sa, c.touches .ServiceAccount = true ∨
          c.touches .SecurityContextConstraints = true) ∧
        (∀ c ∈ issuer, c.touches .ClusterIssuer = true) ∧
        (∀ c ∈ sa ++ issuer, c.touches .CertManager = false)) ∧
    (∀ (GetImage : KlusterletService → String → Image × Option GoError)
        (inst : KlusterletService) (client : Client) (scheme : Scheme) (h : History)
        (e : GoError) (child : TopologyCollector) (objectMeta : ObjectMeta),
      topology.newTopologyCollectorCR GetImage inst client h =
        some ((some child, none), h ++ [.List .Node]) →
      SetControllerReference .KlusterletService inst.toObjectMeta child.toObjectMeta scheme =
        (objectMeta, none) →
      client.GetTopologyCollector (h ++ [.List .Node])
        { Name := objectMeta.Name, Namespace := objectMeta.Namespace } = .error e →
      e.IsNotFound = true → inst.DeletionTimestamp = none →
      inst.Spec.TopologyCollectorConfig.Enabled = true →
      (topology.createServiceAccount client scheme inst
        { child with toObjectMeta := objectMeta }
        (h ++ [.List .Node] ++ [.Get .TopologyCollector
          { Name := objectMeta.Name, Namespace := objectMeta.Namespace }])).1 = none →
      client.Create
        (topology.createServiceAccount client scheme inst
          { child with toObjectMeta := objectMeta }
          (h ++ [.List .Node] ++ [.Get .TopologyCollector
            { Name := objectMeta.Name, Namespace := objectMeta.Namespace }])).2
        (.topologyCollector { child with toObjectMeta := objectMeta }) = none →
      ∃ r sa, topology.Reconcile GetImage inst client scheme h = some r ∧ r.err = none ∧
        r.inst = { inst with Finalizers := inst.Finalizers ++ [inst.Name ++ "-topology"] } ∧
        objectMeta.Name = inst.Name ++ "-topology" ∧
        r.calls = h ++ [.List .Node] ++ [.Get .TopologyCollector
              { Name := objectMeta.Name, Namespace := objectMeta.Namespace }] ++ sa ++
            [.Create (.topologyCollector { child with toObjectMeta := objectMeta })] ∧
        (∀ c ∈ sa, c.touches .ServiceAccount = true ∨
          c.touches .SecurityContextConstraints = true) ∧
        (∀ c ∈ sa, c.touches .TopologyCollector = false)) := by
  constructor
  · intro inst client scheme h e₀ e child objectMeta hprobe hbuild hown hget hnf hlive hsa hcr
    obtain ⟨-, hname, -⟩ := newCertManagerCR_ok inst child (by rw [hbuild])
    obtain ⟨ref, hmeta⟩ := SetControllerReference_ok _ _ _ _ _ hown
    have hmn : objectMeta.Name = inst.Name ++ "-certmgr" := by rw [hmeta]; exact hname
    obtain ⟨sa, hsacalls, hsakinds⟩ := certmgr_createServiceAccount_calls client scheme inst
      { child with toObjectMeta := objectMeta }
      (h ++ [.Get .Deployment
          { Name := "cert-manager-ibm-cert-manager", Namespace := "cert-manager" },
        .Get .CertManager { Name := objectMeta.Name, Namespace := objectMeta.Namespace }])
    rw [certmgr_Reconcile_create inst client scheme h e₀ e child objectMeta hprobe hbuild hown
      hget hnf hlive]
    rcases hsaeq : certmgr.createServiceAccount client scheme inst
        { child with toObjectMeta := objectMeta }
        (h ++ [.Get .Deployment
            { Name := "cert-manager-ibm-cert-manager", Namespace := "cert-manager" },
          .Get .CertManager { Name := objectMeta.Name, Namespace := objectMeta.Namespace }])
      with ⟨err, h₃⟩
    rw [hsaeq] at hsa hcr hsacalls
    dsimp only at hsa hcr hsacalls ⊢
    subst hsa
    try rw [hsaeq]
    dsimp only
    rw [hcr]
    dsimp only
    obtain ⟨issuer, hicalls, hikinds⟩ := createSelfSignClusterIssuer_issues client scheme inst
      (h₃ ++ [.Create (.certManager { child with toObjectMeta := objectMeta })])
    refine ⟨_, sa, issuer, rfl, rfl, rfl, by rw [hmn], hmn, hsacalls, ?_, hsakinds, hikinds, ?_⟩
    · dsimp only
      rw [hicalls, hsacalls]
    · intro c hc
      rcases List.mem_append.1 hc with hm | hm
      · rcases hsakinds c hm with hk | hk
        · exact touches_exclusive c _ _ hk (by decide)
        · exact touches_exclusive c _ _ hk (by decide)
      · exact touches_exclusive c _ _ (hikinds c hm) (by decide)
  · intro GetImage inst client scheme h e child objectMeta hbuild hown hget hnf hlive hen hsa hcr
    rcases newTopologyCollectorCR_cases GetImage inst client h with
      hb | ⟨e', hb⟩ | ⟨child', hb, hname, -, -, -⟩
    · rw [hb] at hbuild; cases hbuild
    · rw [hb] at hbuild; cases hbuild
    · rw [hb] at hbuild
      simp only [Option.some.injEq, Prod.mk.injEq, and_true] at hbuild
      subst hbuild
      obtain ⟨ref, hmeta⟩ := SetControllerReference_ok _ _ _ _ _ hown
      have hmn : objectMeta.Name = inst.Name ++ "-topology" := by rw [hmeta]; exact hname
      obtain ⟨sa, hsacalls, hsakinds⟩ := topology_createServiceAccount_calls client scheme inst
        { child' with toObjectMeta := objectMeta }
        (h ++ [.List .Node] ++ [.Get .TopologyCollector
          { Name := objectMeta.Name, Namespace := objectMeta.Namespace }])
      rw [topology_Reconcile_not_found GetImage inst client scheme h _ e child' objectMeta hb
        hown hget hnf, if_neg (by simp [hlive]), if_pos hen]
      rcases hsaeq : topology.createServiceAccount client scheme inst
          { child' with toObjectMeta := objectMeta }
          (h ++ [.List .Node] ++ [.Get .TopologyCollector
            { Name := objectMeta.Name, Namespace := objectMeta.Namespace }])
        with ⟨err, h₃⟩
      rw [hsaeq] at hsa hcr hsacalls
      dsimp only at hsa hcr hsacalls ⊢
      subst hsa
      try rw [hsaeq]
      dsimp only
      rw [hcr]
      dsimp only
      refine ⟨_, sa, rfl, rfl, by rw [hmn], hmn, ?_, hsakinds, ?_⟩
      · dsimp only
        rw [hsacalls]
      · intro c hm
        rcases hsakinds c hm with hk | hk
        · exact touches_exclusive c _ _ hk (by decide)
        · exact touches_exclusive c _ _ hk (by decide)

theorem C14_create_path_witness :
    ∃ r, certmgr.Reconcile Endpoint.sample Client.memory Scheme.registered [] = some r ∧
      r.requeue = false ∧ r.err = none ∧ r.inst.Finalizers = ["c1-certmgr"] := by
  obtain ⟨r, sa, issuer, hr, hrq, herr, hinst, -⟩ := C14_create_path.1 Endpoint.sample
    Client.memory Scheme.registered [] (.status "NotFound" "") (.status "NotFound" "")
    { CertManager.sample with OwnerReferences := [] } CertManager.sample.toObjectMeta
    (by rfl) (by decide) (by decide) (by rfl) (by rfl) (by rfl) (by decide) (by decide)
  exact ⟨r, hr, hrq, herr, by rw [hinst]; decide⟩

/-- C15: the finalizer token is added strictly after the child is created. On the create path
of certmgr Reconcile and topology Reconcile, when the service-account ensure fails Reconcile
returns that error, issues no Create of the child and leaves the parent unchanged; when the
ensure succeeds and the Create of the child fails Reconcile returns that error and leaves the
parent, and so its finalizer list, unchanged. -/
theorem C15_finalizer_after_create :
    (∀ (inst : Endpoint) (client : Client) (scheme : Scheme) (h : History) (e₀ e : GoError)
        (child : CertManager) (objectMeta : ObjectMeta),
      client.GetDeployment h
        { Name := "cert-manager-ibm-cert-manager", Namespace := "cert-manager" } = .error e₀ →
      certmgr.newCertManagerCR inst = (some child, none) →
      SetControllerReference .Endpoint inst.toObjectMeta child.toObjectMeta scheme =
        (objectMeta, none) →
      client.GetCertManager
        (h ++ [.Get .Deployment
          { Name := "cert-manager-ibm-cert-manager", Namespace := "cert-manager" }])
        { Name := objectMeta.Name, Namespace := objectMeta.Namespace } = .error e →
      e.IsNotFound = true → inst.DeletionTimestamp = none →
      ∃ r, certmgr.Reconcile inst client scheme h = some r ∧
        (∀ err, (certmgr.createServiceAccount client scheme inst
            { child with toObjectMeta := objectMeta }
            (h ++ [.Get .Deployment
                { Name := "cert-manager-ibm-cert-manager", Namespace := "cert-manager" },
              .Get .CertManager
                { Name := objectMeta.Name, Namespace := objectMeta.Namespace }])).1 = some err →
          r.err = some err ∧ r.inst = inst ∧ r.inst.Finalizers = inst.Finalizers ∧
          ∀ o, Call.Create (.certManager o) ∉ r.calls.drop h.length) ∧
        (∀ err, (certmgr.createServiceAccount client scheme inst
            { child with toObjectMeta := objectMeta }
            (h ++ [.Get .Deployment
                { Name := "cert-manager-ibm-cert-manager", Namespace := "cert-manager" },
              .Get .CertManager
                { Name := objectMeta.Name, Namespace := objectMeta.Namespace }])).1 = none →
          client.Create
            (certmgr.createServiceAccount client scheme inst
              { child with toObjectMeta := objectMeta }
              (h ++ [.Get .Deployment
                  { Name := "cert-manager-ibm-cert-manager", Namespace := "cert-manager" },
                .Get .CertManager
                  { Name := objectMeta.Name, Namespace := objectMeta.Namespace }])).2
            (.certManager { child with toObjectMeta := objectMeta }) = some err →
          r.err = some err ∧ r.inst = inst ∧ r.inst.Finalizers = inst.Finalizers)) ∧
    (∀ (GetImage : KlusterletService → String → Image × Option GoError)
        (inst : KlusterletService) (client : Client) (scheme : Scheme) (h : History)
        (e : GoError) (child : TopologyCollector) (objectMeta : ObjectMeta),
      topology.newTopologyCollectorCR GetImage inst client h =
        some ((some child, none), h ++ [.List .Node]) →
      SetControllerReference .KlusterletService inst.toObjectMeta child.toObjectMeta scheme =
        (objectMeta, none) →
      client.GetTopologyCollector (h ++ [.List .Node])
        { Name := objectMeta.Name, Namespace := objectMeta.Namespace } = .error e →
      e.IsNotFound = true → inst.DeletionTimestamp = none →
      inst.Spec.TopologyCollectorConfig.Enabled = true →
      ∃ r, topology.Reconcile GetImage inst client scheme h = some r ∧
        (∀ err, (topology.createServiceAccount client scheme inst
            { child with toObjectMeta := objectMeta }
            (h ++ [.List .Node] ++ [.Get .TopologyCollector
              { Name := objectMeta.Name, Namespace := objectMeta.Namespace }])).1 = some err →
          r.err = some err ∧ r.inst = inst ∧ r.inst.Finalizers = inst.Finalizers ∧
          ∀ o, Call.Create (.topologyCollector o) ∉ r.calls.drop h.length) ∧
        (∀ err, (topology.createServiceAccount client scheme inst
            { child with toObjectMeta := objectMeta }
            (h ++ [.List .Node] ++ [.Get .TopologyCollector
              { Name := objectMeta.Name, Namespace := objectMeta.Namespace }])).1 = none →
          client.Create
            (topology.createServiceAccount client scheme inst
              { child with toObjectMeta := objectMeta }
              (h ++ [.List .Node] ++ [.Get .TopologyCollector
                { Name := objectMeta.Name, Namespace := objectMeta.Namespace }])).2
            (.topologyCollector { child with toObjectMeta := objectMeta }) = some err →
          r.err = some err ∧ r.inst = inst ∧ r.inst.Finalizers = inst.Finalizers)) := by
  constructor
  · intro inst client scheme h e₀ e child objectMeta hprobe hbuild hown hget hnf hlive
    obtain ⟨sa, hsacalls, hsakinds⟩ := certmgr_createServiceAccount_calls client scheme inst
      { child with toObjectMeta := objectMeta }
      (h ++ [.Get .Deployment
          { Name := "cert-manager-ibm-cert-manager", Namespace := "cert-manager" },
        .Get .CertManager { Name := objectMeta.Name, Namespace := objectMeta.Namespace }])
    rw [certmgr_Reconcile_create inst client scheme h e₀ e child objectMeta hprobe hbuild hown
      hget hnf hlive]
    rcases hsaeq : certmgr.createServiceAccount client scheme inst
        { child with toObjectMeta := objectMeta }
        (h ++ [.Get .Deployment
            { Name := "cert-manager-ibm-cert-manager", Namespace := "cert-manager" },
          .Get .CertManager { Name := objectMeta.Name, Namespace := objectMeta.Namespace }])
      with ⟨_ | err₁, h₃⟩
    · rw [hsaeq] at hsacalls
      try rw [hsaeq]
      dsimp only at hsacalls ⊢
      cases hcr : client.Create h₃ (.certManager { child with toObjectMeta := objectMeta }) with
      | none =>
        refine ⟨_, rfl, ?_, ?_⟩
        · intro err he; cases he
        · intro err _ he; cases he
      | some err₂ =>
        refine ⟨_, rfl, ?_, ?_⟩
        · intro err he; cases he
        · intro err _ he
          cases he
          exact ⟨rfl, rfl, rfl⟩
    · rw [hsaeq] at hsacalls
      try rw [hsaeq]
      dsimp only at hsacalls ⊢
      refine ⟨_, rfl, ?_, ?_⟩
      · intro err he
        cases he
        refine ⟨rfl, rfl, rfl, ?_⟩
        intro o hmem
        dsimp only at hmem
        rw [hsacalls, List.append_assoc, List.drop_left] at hmem
        simp only [List.cons_append, List.nil_append, List.mem_cons, reduceCtorEq,
          false_or] at hmem
        rcases hsakinds _ hmem with hk | hk <;> simp [Call.touches, Obj.kind] at hk
      · intro err he; cases he
  · intro GetImage inst client scheme h e child objectMeta hbuild hown hget hnf hlive hen
    obtain ⟨sa, hsacalls, hsakinds⟩ := topology_createServiceAccount_calls client scheme inst
      { child with toObjectMeta := objectMeta }
      (h ++ [.List .Node] ++ [.Get .TopologyCollector
        { Name := objectMeta.Name, Namespace := objectMeta.Namespace }])
    rw [topology_Reconcile_not_found GetImage inst client scheme h _ e child objectMeta hbuild
      hown hget hnf, if_neg (by simp [hlive]), if_pos hen]
    rcases hsaeq : topology.createServiceAccount client scheme inst
        { child with toObjectMeta := objectMeta }
        (h ++ [.List .Node] ++ [.Get .TopologyCollector
          { Name := objectMeta.Name, Namespace := objectMeta.Namespace }])
      with ⟨_ | err₁, h₃⟩
    · rw [hsaeq] at hsacalls
      try rw [hsaeq]
      dsimp only at hsacalls ⊢
      cases hcr : client.Create h₃
          (.topologyCollector { child with toObjectMeta := objectMeta }) with
      | none =>
        refine ⟨_, rfl, ?_, ?_⟩
        · intro err he; cases he
        · intro err _ he; cases he
      | some err₂ =>
        refine ⟨_, rfl, ?_, ?_⟩
        · intro err he; cases he
        · intro err _ he
          cases he
          exact ⟨rfl, rfl, rfl⟩
    · rw [hsaeq] at hsacalls
      try rw [hsaeq]
      dsimp only at hsacalls ⊢
      refine ⟨_, rfl, ?_, ?_⟩
      · intro err he
        cases he
        refine ⟨rfl, rfl, rfl, ?_⟩
        intro o hmem
        dsimp only at hmem
        rw [hsacalls, List.append_assoc, List.append_assoc, List.drop_left] at hmem
        simp only [List.cons_append, List.nil_append, List.mem_cons, reduceCtorEq,
          false_or] at hmem
        rcases hsakinds _ hmem with hk | hk <;> simp [Call.touches, Obj.kind] at hk
      · intro err he; cases he

theorem C15_finalizer_after_create_witness :
    ∃ r, certmgr.Reconcile Endpoint.sample (Client.memoryRefusing .CertManager)
        Scheme.registered [] = some r ∧
      r.err = some (.status "InternalError" "") ∧ r.inst.Finalizers = [] := by
  obtain ⟨r, hr, -, hcreate⟩ := C15_finalizer_after_create.1 Endpoint.sample
    (Client.memoryRefusing .CertManager) Scheme.registered []
    (.status "NotFound" "") (.status "NotFound" "")
    { CertManager.sample with OwnerReferences := [] } CertManager.sample.toObjectMeta
    (by rfl) (by decide) (by decide) (by rfl) (by rfl) (by rfl)
  have h2 := hcreate (.status "InternalError" "") (by decide) (by decide)
  exact ⟨r, hr, h2.1, by rw [h2.2.1]; rfl⟩

/-! ## Finalizer removal -/

/-- In the parent-deleting / child-not-found branch of the certmgr `Reconcile`: the run returns;
a refused Delete of the cleanup is returned as the error; an error leaves the parent as it
was; with no refused Delete there is no error and the first occurrence of the child name is
erased from the finalizers. -/
theorem certmgr_Reconcile_finalize_spec (inst : Endpoint) (client : Client) (scheme : Scheme)
    (h : History) (e₀ e : GoError) (child : CertManager) (objectMeta : ObjectMeta)
    (hprobe : client.GetDeployment h
      { Name := "cert-manager-ibm-cert-manager", Namespace := "cert-manager" } = .error e₀)
    (hbuild : certmgr.newCertManagerCR inst = (some child, none))
    (hown : SetControllerReference .Endpoint inst.toObjectMeta child.toObjectMeta scheme =
      (objectMeta, none))
    (hget : client.GetCertManager
      (h ++ [.Get .Deployment
        { Name := "cert-manager-ibm-cert-manager", Namespace := "cert-manager" }])
      { Name := objectMeta.Name, Namespace := objectMeta.Namespace } = .error e)
    (hnf : e.IsNotFound = true) (hdel : inst.DeletionTimestamp ≠ none) :
    ∃ r, certmgr.Reconcile inst client scheme h = some r ∧
      (∀ err, History.failedDelete client h (r.calls.drop h.length) = some err →
        r.err = some err) ∧
      (∀ err, r.err = some err →
        History.failedDelete client h (r.calls.drop h.length) = some err ∧ r.inst = inst) ∧
      (r.err = none →
        r.inst = { inst with Finalizers := inst.Finalizers.erase (inst.Name ++ "-certmgr") }) ∧
      (inst.Name ++ "-certmgr" ∉ inst.Finalizers → r.err = none ∧ r.inst = inst) := by
  obtain ⟨-, hname, -⟩ := newCertManagerCR_ok inst child (by rw [hbuild])
  obtain ⟨ref, hmeta⟩ := SetControllerReference_ok _ _ _ _ _ hown
  obtain ⟨gvk, hgvk⟩ := SetControllerReference_gvk _ _ _ _ _ hown
  have hmn : objectMeta.Name = inst.Name ++ "-certmgr" := by rw [hmeta]; exact hname
  have hcn : ({ child with toObjectMeta := objectMeta } : CertManager).Name =
      inst.Name ++ "-certmgr" := hmn
  rw [certmgr_Reconcile_finalize inst client scheme h e₀ e child objectMeta hprobe hbuild hown
    hget hnf hdel]
  have hpre : ∀ issued : History,
      History.failedDelete client h
        ((h ++ [Call.Get .Deployment
            { Name := "cert-manager-ibm-cert-manager", Namespace := "cert-manager" },
          Call.Get .CertManager { Name := objectMeta.Name, Namespace := objectMeta.Namespace }] ++
          issued).drop h.length) =
      History.failedDelete client
        (h ++ [.Get .Deployment
            { Name := "cert-manager-ibm-cert-manager", Namespace := "cert-manager" },
          .Get .CertManager { Name := objectMeta.Name, Namespace := objectMeta.Namespace }])
        issued := by
    intro issued
    rw [List.append_assoc, List.drop_left]
    simp [History.failedDelete]
  rcases certmgr_removeFinalizer_spec inst { child with toObjectMeta := objectMeta } client
      scheme
      (h ++ [.Get .Deployment
          { Name := "cert-manager-ibm-cert-manager", Namespace := "cert-manager" },
        .Get .CertManager { Name := objectMeta.Name, Namespace := objectMeta.Namespace }])
      inst.Finalizers [] rfl (by simp) with ⟨hnone, hnot⟩ | ⟨r, hsome, hmem, hI, hfail, hshape⟩
  · simp only [List.length_nil] at hnone
    rw [hnone]
    rw [hcn] at hnot
    refine ⟨_, rfl, ?_, ?_, ?_, fun _ => ⟨rfl, rfl⟩⟩
    · intro err he
      dsimp only at he
      rw [List.drop_left] at he
      simp [History.failedDelete] at he
    · intro err he; cases he
    · intro _
      dsimp only
      rw [List.erase_of_not_mem hnot]
  · simp only [List.length_nil] at hsome
    rw [hsome]
    rw [hcn] at hmem hshape
    obtain ⟨issued, hcalls, -⟩ := hI
    have hconv := certmgr_removeFinalizer_error inst { child with toObjectMeta := objectMeta }
      client scheme
      (h ++ [Call.Get .Deployment
          { Name := "cert-manager-ibm-cert-manager", Namespace := "cert-manager" },
        Call.Get .CertManager { Name := objectMeta.Name, Namespace := objectMeta.Namespace }])
      gvk hgvk inst.Finalizers 0 r
    rw [hcalls, List.drop_left] at hfail
    refine ⟨r, rfl, ?_, ?_, ?_, fun hn => absurd hmem hn⟩
    · intro err he
      rw [hcalls, hpre] at he
      exact hfail err he
    · intro err he
      have hfd := hconv err hsome he
      rw [hcalls, List.drop_left] at hfd
      refine ⟨by rw [hcalls, hpre]; exact hfd, ?_⟩
      rcases hshape with ⟨e', -, -, hi⟩ | ⟨hn, -, -⟩
      · exact hi
      · rw [hn] at he; cases he
    · intro hn
      rcases hshape with ⟨e', he', -, -⟩ | ⟨-, -, hi⟩
      · rw [hn] at he'; cases he'
      · exact hi

/-- The same for the topology `Reconcile`. -/
theorem topology_Reconcile_finalize_spec
    (GetImage : KlusterletService → String → Image × Option GoError)
    (inst : KlusterletService) (client : Client) (scheme : Scheme) (h : History)
    (e : GoError) (child : TopologyCollector) (objectMeta : ObjectMeta)
    (hbuild : topology.newTopologyCollectorCR GetImage inst client h =
      some ((some child, none), h ++ [.List .Node]))
    (hown : SetControllerReference .KlusterletService inst.toObjectMeta child.toObjectMeta
      scheme = (objectMeta, none))
    (hget : client.GetTopologyCollector (h ++ [.List .Node])
      { Name := objectMeta.Name, Namespace := objectMeta.Namespace } = .error e)
    (hnf : e.IsNotFound = true) (hdel : inst.DeletionTimestamp ≠ none) :
    ∃ r, topology.Reconcile GetImage inst client scheme h = some r ∧
      (∀ err, History.failedDelete client h (r.calls.drop h.length) = some err →
        r.err = some err) ∧
      (∀ err, r.err = some err →
        History.failedDelete client h (r.calls.drop h.length) = some err ∧ r.inst = inst) ∧
      (r.err = none →
        r.inst = { inst with Finalizers := inst.Finalizers.erase (inst.Name ++ "-topology") }) ∧
      (inst.Name ++ "-topology" ∉ inst.Finalizers → r.err = none ∧ r.inst = inst) := by
  have hname : child.Name = inst.Name ++ "-topology" := by
    rcases newTopologyCollectorCR_cases GetImage inst client h with
      hb | ⟨e', hb⟩ | ⟨child', hb, hname, -, -, -⟩
    · rw [hb] at hbuild; cases hbuild
    · rw [hb] at hbuild; cases hbuild
    · rw [hb] at hbuild
      simp only [Option.some.injEq, Prod.mk.injEq, and_true] at hbuild
      subst hbuild
      exact hname
  obtain ⟨ref, hmeta⟩ := SetControllerReference_ok _ _ _ _ _ hown
  have hmn : objectMeta.Name = inst.Name ++ "-topology" := by rw [hmeta]; exact hname
  have hcn : ({ child with toObjectMeta := objectMeta } : TopologyCollector).Name =
      inst.Name ++ "-topology" := hmn
  rw [topology_Reconcile_not_found GetImage inst client scheme h _ e child objectMeta hbuild
    hown hget hnf, if_pos hdel]
  have hpre : ∀ issued : History,
      History.failedDelete client h
        ((h ++ [Call.List .Node] ++ [Call.Get .TopologyCollector
            { Name := objectMeta.Name, Namespace := objectMeta.Namespace }] ++
          issued).drop h.length) =
      History.failedDelete client
        (h ++ [.List .Node] ++ [.Get .TopologyCollector
            { Name := objectMeta.Name, Namespace := objectMeta.Namespace }])
        issued := by
    intro issued
    rw [List.append_assoc, List.append_assoc, List.drop_left]
    simp [History.failedDelete]
  obtain ⟨hI, hfail, hshape⟩ := topology_removeFinalizer_spec inst
    { child with toObjectMeta := objectMeta } client
    (h ++ [.List .Node] ++ [.Get .TopologyCollector
      { Name := objectMeta.Name, Namespace := objectMeta.Namespace }])
    inst.Finalizers [] rfl (by simp)
  have hconv := topology_removeFinalizer_error inst { child with toObjectMeta := objectMeta }
    client
    (h ++ [.List .Node] ++ [.Get .TopologyCollector
      { Name := objectMeta.Name, Namespace := objectMeta.Namespace }])
    inst.Finalizers 0
  simp only [List.length_nil] at hI hfail hshape
  generalize topology.removeFinalizer inst { child with toObjectMeta := objectMeta } client
    (h ++ [Call.List .Node] ++ [Call.Get .TopologyCollector
      { Name := objectMeta.Name, Namespace := objectMeta.Namespace }])
    0 inst.Finalizers = res at hI hfail hshape hconv ⊢
  rw [hcn] at hshape
  obtain ⟨issued, hcalls, -⟩ := hI
  rw [hcalls, List.drop_left] at hfail hconv
  refine ⟨_, rfl, ?_, ?_, ?_, ?_⟩
  · intro err he
    rw [hcalls, hpre] at he
    exact hfail err he
  · intro err he
    refine ⟨by rw [hcalls, hpre]; exact hconv err he, ?_⟩
    rcases hshape with ⟨-, hi⟩ | ⟨-, ⟨e', -, hi⟩ | ⟨hn, -⟩⟩
    · rw [hi]
    · exact hi
    · rw [hn] at he; cases he
  · intro hn
    rcases hshape with ⟨hnot, hi⟩ | ⟨-, ⟨e', he', -⟩ | ⟨-, hi⟩⟩
    · rw [hi, List.erase_of_not_mem hnot]
    · rw [hn] at he'; cases he'
    · exact hi
  · intro hnot
    rcases hshape with ⟨-, hi⟩ | ⟨hmem, -⟩
    · rw [hi]; exact ⟨rfl, rfl⟩
    · exact absurd hmem hnot

/-- C16: finalizer removal is order-preserving. When the parent is deleting and the child is not
found, and no Delete of the cleanup is refused, certmgr Reconcile and topology Reconcile return
no error and leave the parent's finalizer list equal to the entry list with the first
occurrence of the child name erased (the other entries keep their order); when the child name
is not in the list, the list is unchanged and no error is returned. -/
theorem C16_finalizer_removal :
    (∀ (inst : Endpoint) (client : Client) (scheme : Scheme) (h : History) (e₀ e : GoError)
        (child : CertManager) (objectMeta : ObjectMeta),
      client.GetDeployment h
        { Name := "cert-manager-ibm-cert-manager", Namespace := "cert-manager" } = .error e₀ →
      certmgr.newCertManagerCR inst = (some child, none) →
      SetControllerReference .Endpoint inst.toObjectMeta child.toObjectMeta scheme =
        (objectMeta, none) →
      client.GetCertManager
        (h ++ [.Get .Deployment
          { Name := "cert-manager-ibm-cert-manager", Namespace := "cert-manager" }])
        { Name := objectMeta.Name, Namespace := objectMeta.Namespace } = .error e →
      e.IsNotFound = true → inst.DeletionTimestamp ≠ none →
      ∃ r, certmgr.Reconcile inst client scheme h = some r ∧
        (History.failedDelete client h (r.calls.drop h.length) = none →
          r.err = none ∧
          r.inst.Finalizers = inst.Finalizers.erase (inst.Name ++ "-certmgr") ∧
          r.inst = { inst with
            Finalizers := inst.Finalizers.erase (inst.Name ++ "-certmgr") }) ∧
        (inst.Name ++ "-certmgr" ∉ inst.Finalizers →
          r.err = none ∧ r.inst.Finalizers = inst.Finalizers)) ∧
    (∀ (GetImage : KlusterletService → String → Image × Option GoError)
        (inst : KlusterletService) (client : Client) (scheme : Scheme) (h : History)
        (e : GoError) (child : TopologyCollector) (objectMeta : ObjectMeta),
      topology.newTopologyCollectorCR GetImage inst client h =
        some ((some child, none), h ++ [.List .Node]) →
      SetControllerReference .KlusterletService inst.toObjectMeta child.toObjectMeta scheme =
        (objectMeta, none) →
      client.GetTopologyCollector (h ++ [.List .Node])
        { Name := objectMeta.Name, Namespace := objectMeta.Namespace } = .error e →
      e.IsNotFound = true → inst.DeletionTimestamp ≠ none →
      ∃ r, topology.Reconcile GetImage inst client scheme h = some r ∧
        (History.failedDelete client h (r.calls.drop h.length) = none →
          r.err = none ∧
          r.inst.Finalizers = inst.Finalizers.erase (inst.Name ++ "-topology") ∧
          r.inst = { inst with
            Finalizers := inst.Finalizers.erase (inst.Name ++ "-topology") }) ∧
        (inst.Name ++ "-topology" ∉ inst.Finalizers →
          r.err = none ∧ r.inst.Finalizers = inst.Finalizers)) := by
  constructor
  · intro inst client scheme h e₀ e child objectMeta hprobe hbuild hown hget hnf hdel
    obtain ⟨r, hr, -, hconv, herase, habsent⟩ := certmgr_Reconcile_finalize_spec inst client
      scheme h e₀ e child objectMeta hprobe hbuild hown hget hnf hdel
    refine ⟨r, hr, ?_, ?_⟩
    · intro hclean
      have hnone : r.err = none := by
        cases he : r.err with
        | none => rfl
        | some err =>
          have := (hconv err he).1
          rw [hclean] at this
          cases this
      exact ⟨hnone, by rw [herase hnone], herase hnone⟩
    · intro hnot
      exact ⟨(habsent hnot).1, by rw [(habsent hnot).2]⟩
  · intro GetImage inst client scheme h e child objectMeta hbuild hown hget hnf hdel
    obtain ⟨r, hr, -, hconv, herase, habsent⟩ := topology_Reconcile_finalize_spec GetImage inst
      client scheme h e child objectMeta hbuild hown hget hnf hdel
    refine ⟨r, hr, ?_, ?_⟩
    · intro hclean
      have hnone : r.err = none := by
        cases he : r.err with
        | none => rfl
        | some err =>
          have := (hconv err he).1
          rw [hclean] at this
          cases this
      exact ⟨hnone, by rw [herase hnone], herase hnone⟩
    · intro hnot
      exact ⟨(habsent hnot).1, by rw [(habsent hnot).2]⟩

theorem C16_finalizer_removal_witness :
    ∃ r, certmgr.Reconcile
        { Endpoint.sample with
          DeletionTimestamp := some 1, Finalizers := ["a", "c1-certmgr", "c"] }
        Client.memory Scheme.registered [] = some r ∧
      r.err = none ∧ r.inst.Finalizers = ["a", "c"] := by
  obtain ⟨r, hr, hclean, -⟩ := C16_finalizer_removal.1
    { Endpoint.sample with DeletionTimestamp := some 1, Finalizers := ["a", "c1-certmgr", "c"] }
    Client.memory Scheme.registered [] (.status "NotFound" "") (.status "NotFound" "")
    { CertManager.sample with OwnerReferences := [] } CertManager.sample.toObjectMeta
    (by rfl) (by decide) (by decide) (by rfl) (by rfl) (by decide)
  have hr' : certmgr.Reconcile
      { Endpoint.sample with
        DeletionTimestamp := some 1, Finalizers := ["a", "c1-certmgr", "c"] }
      Client.memory Scheme.registered [] =
      some ⟨true, none,
        { Endpoint.sample with DeletionTimestamp := some 1, Finalizers := ["a", "c"] },
        [.Get .Deployment
            { Name := "cert-manager-ibm-cert-manager", Namespace := "cert-manager" },
          .Get .CertManager { Name := "c1-certmgr", Namespace := "ns1" },
          .Get .ConfigMap { Name := "cert-manager-controller", Namespace := "ns1" },
          .Get .ClusterIssuer { Name := "c1-self-signed" }]⟩ := by decide
  rw [hr'] at hr
  cases hr
  have h2 := hclean (by decide)
  exact ⟨_, hr', h2.1, by rw [h2.2.1]; decide⟩

/-- C17 (as stated, refuted): with the parent deleting, the child not found and the child name
among the finalizers, the Gets of the ConfigMap and of the ClusterIssuer (certmgr) and of the
three Secrets (topology) fail with a timeout, an error other than not-found, and Reconcile
still removes the finalizer and returns no error. -/
theorem C17_get_error_still_removes :
    ((certmgr.Reconcile
        { Endpoint.sample with DeletionTimestamp := some 1, Finalizers := ["c1-certmgr"] }
        Client.memoryTimingOut Scheme.registered []).map
      (fun r => (r.requeue, r.err, r.inst.Finalizers, r.calls)) =
      some (true, none, [],
        [.Get .Deployment
            { Name := "cert-manager-ibm-cert-manager", Namespace := "cert-manager" },
          .Get .CertManager { Name := "c1-certmgr", Namespace := "ns1" },
          .Get .ConfigMap { Name := "cert-manager-controller", Namespace := "ns1" },
          .Get .ClusterIssuer { Name := "c1-self-signed" }])) ∧
    Client.memoryTimingOut.GetConfigMap
        [.Get .Deployment
            { Name := "cert-manager-ibm-cert-manager", Namespace := "cert-manager" },
          .Get .CertManager { Name := "c1-certmgr", Namespace := "ns1" }]
        { Name := "cert-manager-controller", Namespace := "ns1" } =
      .error (.status "Timeout" "") ∧
    (GoError.status "Timeout" "").IsNotFound = false ∧
    ((topology.Reconcile topology.resolveAll
        { KlusterletService.sample with
          DeletionTimestamp := some 1, Finalizers := ["c1-topology"] }
        Client.memoryTimingOut Scheme.registered []).map
      (fun r => (r.err, r.inst.Finalizers, r.calls)) =
      some (none, [],
        [.List .Node,
          .Get .TopologyCollector { Name := "c1-topology", Namespace := "ns1" },
          .Get .Secret { Name := "c1-topology-ca-cert", Namespace := "ns1" },
          .Get .Secret { Name := "c1-topology-server-secret", Namespace := "ns1" },
          .Get .Secret { Name := "c1-topology-client-secret", Namespace := "ns1" }])) ∧
    Client.memoryTimingOut.GetSecret
        [.List .Node, .Get .TopologyCollector { Name := "c1-topology", Namespace := "ns1" }]
        { Name := "c1-topology-ca-cert", Namespace := "ns1" } =
      .error (.status "Timeout" "") := by
  decide

/-- C17 (amended): in the parent-deleting / child-not-found branch of certmgr Reconcile and
topology Reconcile, whenever a Delete of the cleanup (of the ConfigMap, the ClusterIssuer or a
Secret) is refused, Reconcile returns that error and the parent's finalizer list on return is
the list on entry; more generally the list is unchanged whenever Reconcile returns an error. A
failed Get of such an object, whatever its error, is treated as the object being absent. -/
theorem C17_failed_delete_keeps_finalizer :
    (∀ (inst : Endpoint) (client : Client) (scheme : Scheme) (h : History) (e₀ e : GoError)
        (child : CertManager) (objectMeta : ObjectMeta),
      client.GetDeployment h
        { Name := "cert-manager-ibm-cert-manager", Namespace := "cert-manager" } = .error e₀ →
      certmgr.newCertManagerCR inst = (some child, none) →
      SetControllerReference .Endpoint inst.toObjectMeta child.toObjectMeta scheme =
        (objectMeta, none) →
      client.GetCertManager
        (h ++ [.Get .Deployment
          { Name := "cert-manager-ibm-cert-manager", Namespace := "cert-manager" }])
        { Name := objectMeta.Name, Namespace := objectMeta.Namespace } = .error e →
      e.IsNotFound = true → inst.DeletionTimestamp ≠ none →
      ∃ r, certmgr.Reconcile inst client scheme h = some r ∧
        (∀ err, History.failedDelete client h (r.calls.drop h.length) = some err →
          r.err = some err ∧ r.inst.Finalizers = inst.Finalizers) ∧
        (r.err ≠ none → r.inst.Finalizers = inst.Finalizers)) ∧
    (∀ (GetImage : KlusterletService → String → Image × Option GoError)
        (inst : KlusterletService) (client : Client) (scheme : Scheme) (h : History)
        (e : GoError) (child : TopologyCollector) (objectMeta : ObjectMeta),
      topology.newTopologyCollectorCR GetImage inst client h =
        some ((some child, none), h ++ [.List .Node]) →
      SetControllerReference .KlusterletService inst.toObjectMeta child.toObjectMeta scheme =
        (objectMeta, none) →
      client.GetTopologyCollector (h ++ [.List .Node])
        { Name := objectMeta.Name, Namespace := objectMeta.Namespace } = .error e →
      e.IsNotFound = true → inst.DeletionTimestamp ≠ none →
      ∃ r, topology.Reconcile GetImage inst client scheme h = some r ∧
        (∀ err, History.failedDelete client h (r.calls.drop h.length) = some err →
          r.err = some err ∧ r.inst.Finalizers = inst.Finalizers) ∧
        (r.err ≠ none → r.inst.Finalizers = inst.Finalizers)) := by
  constructor
  · intro inst client scheme h e₀ e child objectMeta hprobe hbuild hown hget hnf hdel
    obtain ⟨r, hr, hfail, hconv, -, -⟩ := certmgr_Reconcile_finalize_spec inst client
      scheme h e₀ e child objectMeta hprobe hbuild hown hget hnf hdel
    have herr : r.err ≠ none → r.inst.Finalizers = inst.Finalizers := by
      intro hne
      cases he : r.err with
      | none => exact absurd he hne
      | some err => rw [(hconv err he).2]
    refine ⟨r, hr, ?_, herr⟩
    intro err hfd
    have he := hfail err hfd
    exact ⟨he, herr (by rw [he]; simp)⟩
  · intro GetImage inst client scheme h e child objectMeta hbuild hown hget hnf hdel
    obtain ⟨r, hr, hfail, hconv, -, -⟩ := topology_Reconcile_finalize_spec GetImage inst
      client scheme h e child objectMeta hbuild hown hget hnf hdel
    have herr : r.err ≠ none → r.inst.Finalizers = inst.Finalizers := by
      intro hne
      cases he : r.err with
      | none => exact absurd he hne
      | some err => rw [(hconv err he).2]
    refine ⟨r, hr, ?_, herr⟩
    intro err hfd
    have he := hfail err hfd
    exact ⟨he, herr (by rw [he]; simp)⟩

theorem C17_failed_delete_keeps_finalizer_witness :
    ∃ r, certmgr.Reconcile
        { Endpoint.sample with DeletionTimestamp := some 1, Finalizers := ["c1-certmgr"] }
        (Client.memoryRefusing .ConfigMap) Scheme.registered
        [.Create (.configMap { Name := "cert-manager-controller", Namespace := "ns1" })] =
        some r ∧
      r.err = some (.status "InternalError" "") ∧ r.inst.Finalizers = ["c1-certmgr"] := by
  obtain ⟨r, hr, hfail, -⟩ := C17_failed_delete_keeps_finalizer.1
    { Endpoint.sample with DeletionTimestamp := some 1, Finalizers := ["c1-certmgr"] }
    (Client.memoryRefusing .ConfigMap) Scheme.registered
    [.Create (.configMap { Name := "cert-manager-controller", Namespace := "ns1" })]
    (.status "NotFound" "") (.status "NotFound" "")
    { CertManager.sample with OwnerReferences := [] } CertManager.sample.toObjectMeta
    (by rfl) (by decide) (by decide) (by rfl) (by rfl) (by decide)
  have hr' : certmgr.Reconcile
      { Endpoint.sample with DeletionTimestamp := some 1, Finalizers := ["c1-certmgr"] }
      (Client.memoryRefusing .ConfigMap) Scheme.registered
      [.Create (.configMap { Name := "cert-manager-controller", Namespace := "ns1" })] =
      some ⟨false, some (.status "InternalError" ""),
        { Endpoint.sample with DeletionTimestamp := some 1, Finalizers := ["c1-certmgr"] },
        [.Create (.configMap { Name := "cert-manager-controller", Namespace := "ns1" }),
          .Get .Deployment
            { Name := "cert-manager-ibm-cert-manager", Namespace := "cert-manager" },
          .Get .CertManager { Name := "c1-certmgr", Namespace := "ns1" },
          .Get .ConfigMap { Name := "cert-manager-controller", Namespace := "ns1" },
          .Delete (.configMap { Name := "cert-manager-controller", Namespace := "ns1" })]⟩ := by
    decide
  rw [hr'] at hr
  cases hr
  have h2 := hfail (.status "InternalError" "") (by decide)
  exact ⟨_, hr', h2.1, h2.2⟩

/-- C18 (as stated, refuted): a parent that is not deleting, whose finalizer list is the single
token of its child (no duplicate), is reconciled against a store that does not hold the child:
certmgr Reconcile and topology Reconcile create the child and return the list with the token
twice. -/
theorem C18_token_appended_twice :
    ["c1-certmgr"].Nodup ∧
    (certmgr.Reconcile { Endpoint.sample with Finalizers := ["c1-certmgr"] }
        Client.memory Scheme.registered []).map
      (fun r => (r.requeue, r.err, r.inst.Finalizers)) =
      some (false, none, ["c1-certmgr", "c1-certmgr"]) ∧
    ¬ ["c1-certmgr", "c1-certmgr"].Nodup ∧
    ["c1-topology"].Nodup ∧
    (topology.Reconcile topology.resolveAll
        { KlusterletService.sample with Finalizers := ["c1-topology"] }
        Client.memory Scheme.registered []).map
      (fun r => (r.err, r.inst.Finalizers)) =
      some (none, ["c1-topology", "c1-topology"]) ∧
    ¬ ["c1-topology", "c1-topology"].Nodup := by
  decide

/-- C18 (amended): certmgr Reconcile and topology Reconcile append the child's token without
testing whether it is present, so they preserve duplicate-freeness of the parent's finalizer
list only when the parent is deleting or the token is not in the list on entry: for every such
parent whose list has no duplicate and every store, the list on return has no duplicate
(certmgr Reconcile always returns; topology Reconcile whenever it returns). -/
theorem C18_nodup_preserved :
    (∀ (inst : Endpoint) (client : Client) (scheme : Scheme) (h : History),
      inst.Finalizers.Nodup →
      (inst.DeletionTimestamp ≠ none ∨ inst.Name ++ "-certmgr" ∉ inst.Finalizers) →
      ∃ r, certmgr.Reconcile inst client scheme h = some r ∧ r.inst.Finalizers.Nodup) ∧
    (∀ (GetImage : KlusterletService → String → Image × Option GoError)
        (inst : KlusterletService) (client : Client) (scheme : Scheme) (h : History)
        (r : topology.ReconcileResult),
      inst.Finalizers.Nodup →
      (inst.DeletionTimestamp ≠ none ∨ inst.Name ++ "-topology" ∉ inst.Finalizers) →
      topology.Reconcile GetImage inst client scheme h = some r →
      r.inst.Finalizers.Nodup) := by
  constructor
  · intro inst client scheme h hnd hor
    obtain ⟨r, hr, hshape, -⟩ := certmgr_Reconcile_global inst client scheme h
    refine ⟨r, hr, ?_⟩
    rcases hshape with hs | ⟨hlive, hs⟩ | ⟨-, hs⟩
    · rw [hs]; exact hnd
    · rw [hs]
      rcases hor with hdel | hnot
      · exact absurd hlive hdel
      · exact List.Nodup.append hnd (List.nodup_singleton _) (by simpa using hnot)
    · rw [hs]; exact hnd.erase _
  · intro GetImage inst client scheme h r hnd hor hr
    obtain ⟨hshape, -⟩ := topology_Reconcile_global GetImage inst client scheme h r hr
    rcases hshape with hs | ⟨hlive, hs⟩ | ⟨-, hs⟩
    · rw [hs]; exact hnd
    · rw [hs]
      rcases hor with hdel | hnot
      · exact absurd hlive hdel
      · exact List.Nodup.append hnd (List.nodup_singleton _) (by simpa using hnot)
    · rw [hs]; exact hnd.erase _

theorem C18_nodup_preserved_witness :
    ∃ r, certmgr.Reconcile { Endpoint.sample with Finalizers := ["a"] }
        Client.memory Scheme.registered [] = some r ∧ r.inst.Finalizers.Nodup :=
  C18_nodup_preserved.1 { Endpoint.sample with Finalizers := ["a"] }
    Client.memory Scheme.registered [] (by decide) (Or.inr (by decide))

/-- C19 (code bug): certmgr Reconcile discards the result of createSelfSignClusterIssuer and
tests the stale error of the preceding Create instead. On a cluster whose API server refuses
writes of ClusterIssuers, with the parent not deleting and the child not found, ensuring the
ClusterIssuer fails with an internal error, yet Reconcile returns a nil error and appends the
child's finalizer token. -/
theorem C19_issuer_failure_ignored :
    (certmgr.Reconcile Endpoint.sample (Client.memoryRefusing .ClusterIssuer)
        Scheme.registered []).map
      (fun r => (r.requeue, r.err, r.inst.Finalizers)) =
      some (false, none, ["c1-certmgr"]) ∧
    (certmgr.Reconcile Endpoint.sample (Client.memoryRefusing .ClusterIssuer)
        Scheme.registered []).map
      (fun r => certmgr.createSelfSignClusterIssuer (Client.memoryRefusing .ClusterIssuer)
        Scheme.registered Endpoint.sample (r.calls.take 6)) =
      (certmgr.Reconcile Endpoint.sample (Client.memoryRefusing .ClusterIssuer)
        Scheme.registered []).map
      (fun r => (some (.status "InternalError" ""), r.calls)) ∧
    (certmgr.Reconcile Endpoint.sample (Client.memoryRefusing .ClusterIssuer)
        Scheme.registered []).map
      (fun r => r.calls.drop 6) =
      some [.Get .ClusterIssuer { Name := "c1-self-signed" },
        .Create (.clusterIssuer
          { Name := "c1-self-signed",
            OwnerReferences :=
              [{ APIVersion := "multicloud.ibm.com/v1beta1", Kind := "Endpoint", Name := "c1",
                 Controller := true, BlockOwnerDeletion := true }],
            Spec := { SelfSigned := true } })] ∧
    Endpoint.sample.DeletionTimestamp = none ∧
    Endpoint.sample.Finalizers = [] := by
  decide

/-- C20 (code bug): topology Reconcile returns nil after a failed Update of the observed child.
On a cluster that holds the child and whose API server refuses writes of TopologyCollectors,
with the parent not deleting and the collector enabled, Reconcile issues the Update, the
Update fails with an internal error, and Reconcile returns a nil error; certmgr Reconcile in
the same situation returns the error of its Update. -/
theorem C20_failed_update_returns_nil :
    (topology.Reconcile topology.resolveAll KlusterletService.sample
        (Client.memoryRefusing .TopologyCollector) Scheme.registered
        [.Create (.topologyCollector TopologyCollector.sample)]).map
      (fun r => (r.err, r.calls)) =
      some (none,
        [.Create (.topologyCollector TopologyCollector.sample),
          .List .Node,
          .Get .TopologyCollector { Name := "c1-topology", Namespace := "ns1" },
          .Update (.topologyCollector TopologyCollector.sample)]) ∧
    (Client.memoryRefusing .TopologyCollector).Update
        [.Create (.topologyCollector TopologyCollector.sample),
          .List .Node,
          .Get .TopologyCollector { Name := "c1-topology", Namespace := "ns1" }]
        (.topologyCollector TopologyCollector.sample) =
      some (.status "InternalError" "") ∧
    (certmgr.Reconcile Endpoint.sample (Client.memoryRefusing .CertManager) Scheme.registered
        [.Create (.certManager CertManager.sample)]).map
      (fun r => (r.requeue, r.err, r.calls)) =
      some (false, some (.status "InternalError" ""),
        [.Create (.certManager CertManager.sample),
          .Get .Deployment
            { Name := "cert-manager-ibm-cert-manager", Namespace := "cert-manager" },
          .Get .CertManager { Name := "c1-certmgr", Namespace := "ns1" },
          .Update (.certManager CertManager.sample)]) := by
  decide

/-! ## Conflicts, children being deleted, disabled add-ons -/

/-- C21 (as stated, refuted): on a cluster that holds the child and answers every Update with a
conflict, certmgr Reconcile of a parent that is not deleting issues its one Update, the Update
fails with a conflict, and Reconcile returns requeue=false with a nil error: plain success. -/
theorem C21_conflict_reported_as_success :
    (certmgr.Reconcile Endpoint.sample Client.memoryConflicting Scheme.registered
        [.Create (.certManager CertManager.sample)]).map
      (fun r => (r.requeue, r.err, r.calls)) =
      some (false, none,
        [.Create (.certManager CertManager.sample),
          .Get .Deployment
            { Name := "cert-manager-ibm-cert-manager", Namespace := "cert-manager" },
          .Get .CertManager { Name := "c1-certmgr", Namespace := "ns1" },
          .Update (.certManager CertManager.sample)]) ∧
    Client.memoryConflicting.Update
        [.Create (.certManager CertManager.sample),
          .Get .Deployment
            { Name := "cert-manager-ibm-cert-manager", Namespace := "cert-manager" },
          .Get .CertManager { Name := "c1-certmgr", Namespace := "ns1" }]
        (.certManager CertManager.sample) = some (.status "Conflict" "") ∧
    (GoError.status "Conflict" "").IsConflict = true := by
  decide

/-- C21 (amended): when the Update of the child in certmgr Reconcile fails with an
optimistic-concurrency conflict, Reconcile issues no further call in the same invocation (no
in-loop retry), and the conflict is dropped: Reconcile returns requeue=false with a nil error
and the unchanged parent, which is what it returns after a successful Update. -/
theorem C21_conflict_dropped (inst : Endpoint) (client : Client) (scheme : Scheme)
    (h : History) (e₀ err : GoError) (child found : CertManager) (objectMeta : ObjectMeta)
    (hprobe : client.GetDeployment h
      { Name := "cert-manager-ibm-cert-manager", Namespace := "cert-manager" } = .error e₀)
    (hbuild : certmgr.newCertManagerCR inst = (some child, none))
    (hown : SetControllerReference .Endpoint inst.toObjectMeta child.toObjectMeta scheme =
      (objectMeta, none))
    (hget : client.GetCertManager
      (h ++ [.Get .Deployment
        { Name := "cert-manager-ibm-cert-manager", Namespace := "cert-manager" }])
      { Name := objectMeta.Name, Namespace := objectMeta.Namespace } = .ok found)
    (hfound : found.DeletionTimestamp = none) (hlive : inst.DeletionTimestamp = none)
    (hupdate : client.Update
      (h ++ [.Get .Deployment
          { Name := "cert-manager-ibm-cert-manager", Namespace := "cert-manager" },
        .Get .CertManager { Name := objectMeta.Name, Namespace := objectMeta.Namespace }])
      (.certManager { found with Spec := child.Spec }) = some err)
    (hconflict : err.IsConflict = true) :
    certmgr.Reconcile inst client scheme h =
      some ⟨false, none, inst,
        h ++ [.Get .Deployment
            { Name := "cert-manager-ibm-cert-manager", Namespace := "cert-manager" },
          .Get .CertManager { Name := objectMeta.Name, Namespace := objectMeta.Namespace },
          .Update (.certManager { found with Spec := child.Spec })]⟩ := by
  rw [certmgr_Reconcile_found inst client scheme h e₀ child found objectMeta hprobe hbuild
    hown hget, if_pos hfound, if_pos hlive, hupdate]
  simp only [hconflict, if_true]

theorem C21_conflict_dropped_witness :
    certmgr.Reconcile Endpoint.sample Client.memoryConflicting Scheme.registered
        [.Create (.certManager CertManager.sample)] =
      some ⟨false, none, Endpoint.sample,
        [.Create (.certManager CertManager.sample),
          .Get .Deployment
            { Name := "cert-manager-ibm-cert-manager", Namespace := "cert-manager" },
          .Get .CertManager { Name := "c1-certmgr", Namespace := "ns1" },
          .Update (.certManager CertManager.sample)]⟩ :=
  C21_conflict_dropped Endpoint.sample Client.memoryConflicting Scheme.registered
    [.Create (.certManager CertManager.sample)] (.status "NotFound" "")
    (.status "Conflict" "") { CertManager.sample with OwnerReferences := [] }
    CertManager.sample CertManager.sample.toObjectMeta (by rfl) (by decide) (by decide)
    (by rfl) (by rfl) (by rfl) (by rfl) (by rfl)

/-- C22: when the observed child exists and carries a deletion timestamp, certmgr Reconcile and
appmgr Reconcile, for every parent (deleting or not, enabled or not) and whatever the helper
steps of appmgr are, issue no call after the Get of the child, so no Create, Update or Delete,
leave the parent and its finalizer list unchanged, and return requeue=true with a nil error. -/
theorem C22_child_being_deleted :
    (∀ (inst : Endpoint) (client : Client) (scheme : Scheme) (h : History) (e₀ : GoError)
        (child found : CertManager) (objectMeta : ObjectMeta),
      client.GetDeployment h
        { Name := "cert-manager-ibm-cert-manager", Namespace := "cert-manager" } = .error e₀ →
      certmgr.newCertManagerCR inst = (some child, none) →
      SetControllerReference .Endpoint inst.toObjectMeta child.toObjectMeta scheme =
        (objectMeta, none) →
      client.GetCertManager
        (h ++ [.Get .Deployment
          { Name := "cert-manager-ibm-cert-manager", Namespace := "cert-manager" }])
        { Name := objectMeta.Name, Namespace := objectMeta.Namespace } = .ok found →
      found.DeletionTimestamp ≠ none →
      ∃ r, certmgr.Reconcile inst client scheme h = some r ∧
        r.requeue = true ∧ r.err = none ∧ r.inst = inst ∧
        r.inst.Finalizers = inst.Finalizers ∧
        r.calls = h ++ [.Get .Deployment
            { Name := "cert-manager-ibm-cert-manager", Namespace := "cert-manager" },
          .Get .CertManager { Name := objectMeta.Name, Namespace := objectMeta.Namespace }] ∧
        ∀ c ∈ r.calls.drop h.length, c.isMutation = false) ∧
    (∀ (helpers : appmgr.Helpers) (inst : Endpoint) (client : Client) (scheme : Scheme)
        (h : History) (child found : ApplicationManager) (objectMeta : ObjectMeta),
      appmgr.newApplicationManagerCR inst = (some child, none) →
      SetControllerReference .Endpoint inst.toObjectMeta child.toObjectMeta scheme =
        (objectMeta, none) →
      client.GetApplicationManager h
        { Name := objectMeta.Name, Namespace := objectMeta.Namespace } = .ok found →
      found.DeletionTimestamp ≠ none →
      ∃ r, appmgr.Reconcile helpers inst client scheme h = some r ∧
        r.requeue = true ∧ r.err = none ∧ r.inst = inst ∧
        r.inst.Finalizers = inst.Finalizers ∧
        r.calls = h ++ [.Get .ApplicationManager
          { Name := objectMeta.Name, Namespace := objectMeta.Namespace }] ∧
        ∀ c ∈ r.calls.drop h.length, c.isMutation = false) := by
  constructor
  · intro inst client scheme h e₀ child found objectMeta hprobe hbuild hown hget hfound
    rw [certmgr_Reconcile_found inst client scheme h e₀ child found objectMeta hprobe hbuild
      hown hget, if_neg hfound]
    refine ⟨_, rfl, rfl, rfl, rfl, rfl, rfl, ?_⟩
    intro c hc
    simp only [List.drop_left, List.mem_cons, List.mem_singleton, List.not_mem_nil,
      or_false] at hc
    rcases hc with rfl | rfl <;> rfl
  · intro helpers inst client scheme h child found objectMeta hbuild hown hget hfound
    have key : appmgr.Reconcile helpers inst client scheme h =
        some ⟨true, none, inst,
          h ++ [.Get .ApplicationManager
            { Name := objectMeta.Name, Namespace := objectMeta.Namespace }]⟩ := by
      unfold appmgr.Reconcile
      simp only [hbuild, hown, Client.getApplicationManager, hget, hfound, if_false]
    refine ⟨_, key, rfl, rfl, rfl, rfl, rfl, ?_⟩
    intro c hc
    simp only [List.drop_left, List.mem_singleton] at hc
    subst hc
    rfl

theorem C22_child_being_deleted_witness :
    ∃ r, certmgr.Reconcile Endpoint.sample Client.memory Scheme.registered
        [.Create (.certManager { CertManager.sample with DeletionTimestamp := some 5 })] =
        some r ∧
      r.requeue = true ∧ r.err = none ∧ r.inst = Endpoint.sample ∧
      r.inst.Finalizers = Endpoint.sample.Finalizers ∧
      r.calls =
        [.Create (.certManager { CertManager.sample with DeletionTimestamp := some 5 })] ++
        [.Get .Deployment
            { Name := "cert-manager-ibm-cert-manager", Namespace := "cert-manager" },
          .Get .CertManager { Name := "c1-certmgr", Namespace := "ns1" }] ∧
      ∀ c ∈ r.calls.drop 1, c.isMutation = false :=
  C22_child_being_deleted.1 Endpoint.sample Client.memory Scheme.registered
    [.Create (.certManager { CertManager.sample with DeletionTimestamp := some 5 })]
    (.status "NotFound" "") { CertManager.sample with OwnerReferences := [] }
    { CertManager.sample with DeletionTimestamp := some 5 } CertManager.sample.toObjectMeta
    (by rfl) (by decide) (by decide) (by rfl) (by decide)

/-- C23 (as stated, refuted): appmgr Reconcile of a parent that is not deleting, with the
add-on disabled and the child not found, runs its finalize step: with a finalize step that
fails, Reconcile returns the error of that step, while with steps that do nothing it returns
success. -/
theorem C23_disabled_runs_finalize :
    Endpoint.sample.DeletionTimestamp = none ∧
    Endpoint.sample.Spec.ApplicationManagerConfig.Enabled = false ∧
    Client.memory.GetApplicationManager [] { Name := "c1-appmgr", Namespace := "ns1" } =
      .error (.status "NotFound" "") ∧
    appmgr.Reconcile appmgr.Helpers.failingFinalize Endpoint.sample Client.memory
        Scheme.registered [] =
      some ⟨false, some (.errorf "finalize failed"), Endpoint.sample,
        [.Get .ApplicationManager { Name := "c1-appmgr", Namespace := "ns1" }]⟩ ∧
    appmgr.Reconcile appmgr.Helpers.noop Endpoint.sample Client.memory Scheme.registered [] =
      some ⟨false, none, Endpoint.sample,
        [.Get .ApplicationManager { Name := "c1-appmgr", Namespace := "ns1" }]⟩ := by
  decide

/-- C23 (amended): when the parent is not deleting, the add-on is disabled and the child is not
found, topology Reconcile issues no call after the Get of the child, leaves the parent and its
finalizer list unchanged and returns a nil error; appmgr Reconcile runs its finalize step on
the parent and the desired child, and none of its create, update and delete steps: it returns
without requeue the error of finalize, or success when finalize succeeds, with the parent and
the calls as finalize left them. -/
theorem C23_disabled_without_child :
    (∀ (GetImage : KlusterletService → String → Image × Option GoError)
        (inst : KlusterletService) (client : Client) (scheme : Scheme) (h : History)
        (e : GoError) (child : TopologyCollector) (objectMeta : ObjectMeta),
      topology.newTopologyCollectorCR GetImage inst client h =
        some ((some child, none), h ++ [.List .Node]) →
      SetControllerReference .KlusterletService inst.toObjectMeta child.toObjectMeta scheme =
        (objectMeta, none) →
      client.GetTopologyCollector (h ++ [.List .Node])
        { Name := objectMeta.Name, Namespace := objectMeta.Namespace } = .error e →
      e.IsNotFound = true → inst.DeletionTimestamp = none →
      inst.Spec.TopologyCollectorConfig.Enabled = false →
      ∃ r, topology.Reconcile GetImage inst client scheme h = some r ∧
        r.err = none ∧ r.inst = inst ∧ r.inst.Finalizers = inst.Finalizers ∧
        r.calls = h ++ [.List .Node,
          .Get .TopologyCollector
            { Name := objectMeta.Name, Namespace := objectMeta.Namespace }] ∧
        ∀ c ∈ r.calls.drop h.length, c.isMutation = false) ∧
    (∀ (helpers : appmgr.Helpers) (inst : Endpoint) (client : Client) (scheme : Scheme)
        (h : History) (e : GoError) (child : ApplicationManager) (objectMeta : ObjectMeta),
      appmgr.newApplicationManagerCR inst = (some child, none) →
      SetControllerReference .Endpoint inst.toObjectMeta child.toObjectMeta scheme =
        (objectMeta, none) →
      client.GetApplicationManager h
        { Name := objectMeta.Name, Namespace := objectMeta.Namespace } = .error e →
      e.IsNotFound = true → inst.DeletionTimestamp = none →
      inst.Spec.ApplicationManagerConfig.Enabled = false →
      ∃ r, appmgr.Reconcile helpers inst client scheme h = some r ∧
        r.requeue = false ∧
        (r.err, r.inst, r.calls) =
          helpers.finalize inst { child with toObjectMeta := objectMeta } client
            (h ++ [.Get .ApplicationManager
              { Name := objectMeta.Name, Namespace := objectMeta.Namespace }]) ∧
        ∀ helpers' : appmgr.Helpers, helpers'.finalize = helpers.finalize →
          appmgr.Reconcile helpers' inst client scheme h = some r) := by
  constructor
  · intro GetImage inst client scheme h e child objectMeta hbuild hown hget hnf hlive hen
    rw [topology_Reconcile_not_found GetImage inst client scheme h _ e child objectMeta hbuild
      hown hget hnf, if_neg (by simp [hlive]), if_neg (by simp [hen])]
    refine ⟨_, rfl, rfl, rfl, rfl, by simp, ?_⟩
    intro c hc
    simp only [List.append_assoc, List.singleton_append, List.drop_left, List.mem_cons,
      List.mem_singleton, List.not_mem_nil, or_false] at hc
    rcases hc with rfl | rfl <;> rfl
  · intro helpers inst client scheme h e child objectMeta hbuild hown hget hnf hlive hen
    have key : ∀ helpers' : appmgr.Helpers, helpers'.finalize = helpers.finalize →
        appmgr.Reconcile helpers' inst client scheme h =
          some (match helpers.finalize inst { child with toObjectMeta := objectMeta } client
              (h ++ [.Get .ApplicationManager
                { Name := objectMeta.Name, Namespace := objectMeta.Namespace }]) with
            | (some err, inst', h') => ⟨false, some err, inst', h'⟩
            | (none, inst', h') => ⟨false, none, inst', h'⟩) := by
      intro helpers' hsame
      unfold appmgr.Reconcile
      simp only [hbuild, hown, Client.getApplicationManager, hget, hnf, hlive, hen, if_true,
        hsame, Bool.false_eq_true, if_false]
      rcases helpers.finalize inst _ client _ with ⟨_ | err, inst', h'⟩ <;> rfl
    refine ⟨_, key helpers rfl, ?_, ?_, key⟩
    · rcases helpers.finalize inst _ client _ with ⟨_ | err, inst', h'⟩ <;> rfl
    · rcases helpers.finalize inst _ client _ with ⟨_ | err, inst', h'⟩ <;> rfl

theorem C23_disabled_without_child_witness :
    ∃ r, topology.Reconcile topology.resolveAll
        ({ Name := "c1", Namespace := "ns1" } : KlusterletService) Client.memory
        Scheme.registered [] = some r ∧
      r.err = none ∧ r.inst = { Name := "c1", Namespace := "ns1" } ∧
      r.inst.Finalizers = [] ∧
      r.calls = [] ++ [.List .Node,
        .Get .TopologyCollector { Name := "c1-topology", Namespace := "ns1" }] ∧
      ∀ c ∈ r.calls.drop 0, c.isMutation = false :=
  C23_disabled_without_child.1 topology.resolveAll { Name := "c1", Namespace := "ns1" }
    Client.memory Scheme.registered [] (.status "NotFound" "")
    { TopologyCollector.sample with OwnerReferences := [] }
    TopologyCollector.sample.toObjectMeta (by decide) (by decide) (by rfl) (by rfl) (by rfl)
    (by rfl)

/-! ## The service account and the privileged binding -/

/-- Every run of the certmgr `createServiceAccount`: it fails on the owner reference; or the
Get of the service account fails with an error other than not-found; or the Create of the
absent service account fails; or the service account is ensured (found, or created) and the
privileged SecurityContextConstraints is read: a failed read ends the run with a nil error,
a successful one is followed by one Update that appends the user of the service account. -/
theorem certmgr_createServiceAccount_spec (client : Client) (scheme : Scheme) (inst : Endpoint)
    (child : CertManager) (h : History) :
    (∃ e, scheme.GVKForObject .Endpoint = .error e ∧
      certmgr.createServiceAccount client scheme inst child h = (some e, h)) ∨
    ∃ sa : ServiceAccount, sa.Name = child.Spec.ServiceAccount.Name ∧
      sa.Namespace = child.Namespace ∧
      ((∃ e, client.GetServiceAccount h
            { Name := child.Spec.ServiceAccount.Name, Namespace := child.Namespace } =
            .error e ∧ e.IsNotFound = false ∧
          certmgr.createServiceAccount client scheme inst child h =
            (some e, h ++ [.Get .ServiceAccount
              { Name := child.Spec.ServiceAccount.Name, Namespace := child.Namespace }])) ∨
        (∃ e err, client.GetServiceAccount h
            { Name := child.Spec.ServiceAccount.Name, Namespace := child.Namespace } =
            .error e ∧ e.IsNotFound = true ∧
          client.Create (h ++ [.Get .ServiceAccount
              { Name := child.Spec.ServiceAccount.Name, Namespace := child.Namespace }])
            (.serviceAccount sa) = some err ∧
          certmgr.createServiceAccount client scheme inst child h =
            (some err, h ++ [.Get .ServiceAccount
                { Name := child.Spec.ServiceAccount.Name, Namespace := child.Namespace },
              .Create (.serviceAccount sa)])) ∨
        ∃ pre,
          ((∃ found, client.GetServiceAccount h
                { Name := child.Spec.ServiceAccount.Name, Namespace := child.Namespace } =
                .ok found ∧
              pre = h ++ [.Get .ServiceAccount
                { Name := child.Spec.ServiceAccount.Name, Namespace := child.Namespace }]) ∨
            (∃ e, client.GetServiceAccount h
                { Name := child.Spec.ServiceAccount.Name, Namespace := child.Namespace } =
                .error e ∧ e.IsNotFound = true ∧
              client.Create (h ++ [.Get .ServiceAccount
                  { Name := child.Spec.ServiceAccount.Name, Namespace := child.Namespace }])
                (.serviceAccount sa) = none ∧
              pre = h ++ [.Get .ServiceAccount
                  { Name := child.Spec.ServiceAccount.Name, Namespace := child.Namespace },
                .Create (.serviceAccount sa)])) ∧
          ((∃ e, client.GetSecurityContextConstraints pre
                { Name := "privileged", Namespace := "" } = .error e ∧
              certmgr.createServiceAccount client scheme inst child h =
                (none, pre ++ [.Get .SecurityContextConstraints
                  { Name := "privileged", Namespace := "" }])) ∨
            (∃ scc, client.GetSecurityContextConstraints pre
                { Name := "privileged", Namespace := "" } = .ok scc ∧
              certmgr.createServiceAccount client scheme inst child h =
                (client.Update
                    (pre ++ [.Get .SecurityContextConstraints
                      { Name := "privileged", Namespace := "" }])
                    (.securityContextConstraints
                      { scc with
                        Users := scc.Users ++ ["system:serviceaccount:" ++ child.Namespace ++
                          ":" ++ child.Spec.ServiceAccount.Name] }),
                  pre ++ [.Get .SecurityContextConstraints
                      { Name := "privileged", Namespace := "" },
                    .Update (.securityContextConstraints
                      { scc with
                        Users := scc.Users ++ ["system:serviceaccount:" ++ child.Namespace ++
                          ":" ++ child.Spec.ServiceAccount.Name] })])))) := by
  unfold certmgr.createServiceAccount SetControllerReference
  cases hg : scheme.GVKForObject .Endpoint with
  | error e => exact Or.inl ⟨e, rfl, rfl⟩
  | ok gvk =>
    right
    refine ⟨{ Name := child.Spec.ServiceAccount.Name, Namespace := child.Namespace,
              OwnerReferences :=
                [{ APIVersion :=
                     if gvk.Group = "" then gvk.Version else gvk.Group ++ "/" ++ gvk.Version,
                   Kind := gvk.Kind, Name := inst.Name, UID := inst.UID,
                   Controller := true, BlockOwnerDeletion := true }],
              ImagePullSecrets := [inst.Spec.ImagePullSecret] }, rfl, rfl, ?_⟩
    dsimp only [Client.getServiceAccount, Client.create, Client.getSecurityContextConstraints,
      Client.update, List.nil_append]
    cases hsa : client.GetServiceAccount h
        { Name := child.Spec.ServiceAccount.Name, Namespace := child.Namespace } with
    | ok found =>
      refine Or.inr (Or.inr ⟨_, Or.inl ⟨found, rfl, rfl⟩, ?_⟩)
      dsimp only
      cases hscc : client.GetSecurityContextConstraints
          (h ++ [Call.Get Kind.ServiceAccount
            { Name := child.Spec.ServiceAccount.Name, Namespace := child.Namespace }])
          { Name := "privileged", Namespace := "" } with
      | error e => exact Or.inl ⟨e, rfl, rfl⟩
      | ok scc =>
        refine Or.inr ⟨scc, rfl, ?_⟩
        dsimp only
        cases client.Update _ _ <;> simp
    | error e =>
      dsimp only
      cases hnf : e.IsNotFound with
      | false => exact Or.inl ⟨e, rfl, hnf, by simp⟩
      | true =>
        right
        simp only [if_true]
        cases hc : client.Create (h ++ [Call.Get Kind.ServiceAccount
            { Name := child.Spec.ServiceAccount.Name, Namespace := child.Namespace }]) _ with
        | some err =>
          refine Or.inl ⟨e, err, rfl, hnf, rfl, ?_⟩
          simp
        | none =>
          refine Or.inr ⟨_, Or.inr ⟨e, rfl, hnf, rfl, rfl⟩, ?_⟩
          dsimp only
          cases hscc : client.GetSecurityContextConstraints
              (h ++ [Call.Get Kind.ServiceAccount
                  { Name := child.Spec.ServiceAccount.Name, Namespace := child.Namespace }] ++
                [Call.Create (.serviceAccount _)])
              { Name := "privileged", Namespace := "" } with
          | error e₂ =>
            refine Or.inl ⟨e₂, ?_, ?_⟩
            · simpa [List.append_assoc] using hscc
            · simp [List.append_assoc]
          | ok scc =>
            refine Or.inr ⟨scc, ?_, ?_⟩
            · simpa [List.append_assoc] using hscc
            · dsimp only
              simp only [List.append_assoc, List.singleton_append, List.cons_append,
                List.nil_append]
              cases client.Update _ _ <;> simp

/-- Every run of the topology `createServiceAccount`: it fails on the owner reference; or the
Get of the service account fails with an error other than not-found; or the Create of the
absent service account fails; or the service account is ensured (found, or created) and the
privileged SecurityContextConstraints is read: a failed read ends the run with a nil error,
a successful one is followed by one Update that appends the user of the service account. -/
theorem topology_createServiceAccount_spec (client : Client) (scheme : Scheme)
    (inst : KlusterletService) (child : TopologyCollector) (h : History) :
    (∃ e, scheme.GVKForObject .KlusterletService = .error e ∧
      topology.createServiceAccount client scheme inst child h = (some e, h)) ∨
    ∃ sa : ServiceAccount, sa.Name = child.Spec.ServiceAccount.Name ∧
      sa.Namespace = child.Namespace ∧
      ((∃ e, client.GetServiceAccount h
            { Name := child.Spec.ServiceAccount.Name, Namespace := child.Namespace } =
            .error e ∧ e.IsNotFound = false ∧
          topology.createServiceAccount client scheme inst child h =
            (some e, h ++ [.Get .ServiceAccount
              { Name := child.Spec.ServiceAccount.Name, Namespace := child.Namespace }])) ∨
        (∃ e err, client.GetServiceAccount h
            { Name := child.Spec.ServiceAccount.Name, Namespace := child.Namespace } =
            .error e ∧ e.IsNotFound = true ∧
          client.Create (h ++ [.Get .ServiceAccount
              { Name := child.Spec.ServiceAccount.Name, Namespace := child.Namespace }])
            (.serviceAccount sa) = some err ∧
          topology.createServiceAccount client scheme inst child h =
            (some err, h ++ [.Get .ServiceAccount
                { Name := child.Spec.ServiceAccount.Name, Namespace := child.Namespace },
              .Create (.serviceAccount sa)])) ∨
        ∃ pre,
          ((∃ found, client.GetServiceAccount h
                { Name := child.Spec.ServiceAccount.Name, Namespace := child.Namespace } =
                .ok found ∧
              pre = h ++ [.Get .ServiceAccount
                { Name := child.Spec.ServiceAccount.Name, Namespace := child.Namespace }]) ∨
            (∃ e, client.GetServiceAccount h
                { Name := child.Spec.ServiceAccount.Name, Namespace := child.Namespace } =
                .error e ∧ e.IsNotFound = true ∧
              client.Create (h ++ [.Get .ServiceAccount
                  { Name := child.Spec.ServiceAccount.Name, Namespace := child.Namespace }])
                (.serviceAccount sa) = none ∧
              pre = h ++ [.Get .ServiceAccount
                  { Name := child.Spec.ServiceAccount.Name, Namespace := child.Namespace },
                .Create (.serviceAccount sa)])) ∧
          ((∃ e, client.GetSecurityContextConstraints pre
                { Name := "privileged", Namespace := "" } = .error e ∧
              topology.createServiceAccount client scheme inst child h =
                (none, pre ++ [.Get .SecurityContextConstraints
                  { Name := "privileged", Namespace := "" }])) ∨
            (∃ scc, client.GetSecurityContextConstraints pre
                { Name := "privileged", Namespace := "" } = .ok scc ∧
              topology.createServiceAccount client scheme inst child h =
                (client.Update
                    (pre ++ [.Get .SecurityContextConstraints
                      { Name := "privileged", Namespace := "" }])
                    (.securityContextConstraints
                      { scc with
                        Users := scc.Users ++ ["system:serviceaccount:" ++ child.Namespace ++
                          ":" ++ child.Spec.ServiceAccount.Name] }),
                  pre ++ [.Get .SecurityContextConstraints
                      { Name := "privileged", Namespace := "" },
                    .Update (.securityContextConstraints
                      { scc with
                        Users := scc.Users ++ ["system:serviceaccount:" ++ child.Namespace ++
                          ":" ++ child.Spec.ServiceAccount.Name] })])))) := by
  unfold topology.createServiceAccount SetControllerReference
  cases hg : scheme.GVKForObject .KlusterletService with
  | error e => exact Or.inl ⟨e, rfl, rfl⟩
  | ok gvk =>
    right
    refine ⟨{ Name := child.Spec.ServiceAccount.Name, Namespace := child.Namespace,
              OwnerReferences :=
                [{ APIVersion :=
                     if gvk.Group = "" then gvk.Version else gvk.Group ++ "/" ++ gvk.Version,
                   Kind := gvk.Kind, Name := inst.Name, UID := inst.UID,
                   Controller := true, BlockOwnerDeletion := true }] }, rfl, rfl, ?_⟩
    dsimp only [Client.getServiceAccount, Client.create, Client.getSecurityContextConstraints,
      Client.update, List.nil_append]
    cases hsa : client.GetServiceAccount h
        { Name := child.Spec.ServiceAccount.Name, Namespace := child.Namespace } with
    | ok found =>
      refine Or.inr (Or.inr ⟨_, Or.inl ⟨found, rfl, rfl⟩, ?_⟩)
      dsimp only
      cases hscc : client.GetSecurityContextConstraints
          (h ++ [Call.Get Kind.ServiceAccount
            { Name := child.Spec.ServiceAccount.Name, Namespace := child.Namespace }])
          { Name := "privileged", Namespace := "" } with
      | error e => exact Or.inl ⟨e, rfl, rfl⟩
      | ok scc =>
        refine Or.inr ⟨scc, rfl, ?_⟩
        dsimp only
        cases client.Update _ _ <;> simp
    | error e =>
      dsimp only
      cases hnf : e.IsNotFound with
      | false => exact Or.inl ⟨e, rfl, hnf, by simp⟩
      | true =>
        right
        simp only [if_true]
        cases hc : client.Create (h ++ [Call.Get Kind.ServiceAccount
            { Name := child.Spec.ServiceAccount.Name, Namespace := child.Namespace }]) _ with
        | some err =>
          refine Or.inl ⟨e, err, rfl, hnf, rfl, ?_⟩
          simp
        | none =>
          refine Or.inr ⟨_, Or.inr ⟨e, rfl, hnf, rfl, rfl⟩, ?_⟩
          dsimp only
          cases hscc : client.GetSecurityContextConstraints
              (h ++ [Call.Get Kind.ServiceAccount
                  { Name := child.Spec.ServiceAccount.Name, Namespace := child.Namespace }] ++
                [Call.Create (.serviceAccount _)])
              { Name := "privileged", Namespace := "" } with
          | error e₂ =>
            refine Or.inl ⟨e₂, ?_, ?_⟩
            · simpa [List.append_assoc] using hscc
            · simp [List.append_assoc]
          | ok scc =>
            refine Or.inr ⟨scc, ?_, ?_⟩
            · simpa [List.append_assoc] using hscc
            · dsimp only
              simp only [List.append_assoc, List.singleton_append, List.cons_append,
                List.nil_append]
              cases client.Update _ _ <;> simp

/-- C24: the grant on the shared privileged binding. Every run of the certmgr and of the
topology `createServiceAccount` either returns an error before it reads the
SecurityContextConstraints "privileged" (no call on it is issued), or reads it after calls on
the service account only. If that Get fails, no further call is issued, so no Update, and the
function returns nil; if it succeeds, exactly one call follows: the Update of the fetched
object with "system:serviceaccount:<namespace>:<service-account-name>" appended at the end of
its Users list, whose result is returned. -/
theorem C24_privileged_grant :
    (∀ (client : Client) (scheme : Scheme) (inst : Endpoint) (child : CertManager)
        (h : History),
      (∃ err, (certmgr.createServiceAccount client scheme inst child h).1 = some err ∧
        ∀ c ∈ (certmgr.createServiceAccount client scheme inst child h).2.drop h.length,
          c.touches .SecurityContextConstraints = false) ∨
      ∃ pre, History.Issues (fun c => c.touches .ServiceAccount = true) h pre ∧
        ((∃ e, client.GetSecurityContextConstraints pre
              { Name := "privileged", Namespace := "" } = .error e ∧
            certmgr.createServiceAccount client scheme inst child h =
              (none, pre ++ [.Get .SecurityContextConstraints
                { Name := "privileged", Namespace := "" }])) ∨
          (∃ scc, client.GetSecurityContextConstraints pre
              { Name := "privileged", Namespace := "" } = .ok scc ∧
            certmgr.createServiceAccount client scheme inst child h =
              (client.Update
                  (pre ++ [.Get .SecurityContextConstraints
                    { Name := "privileged", Namespace := "" }])
                  (.securityContextConstraints
                    { scc with
                      Users := scc.Users ++ ["system:serviceaccount:" ++ child.Namespace ++
                        ":" ++ child.Spec.ServiceAccount.Name] }),
                pre ++ [.Get .SecurityContextConstraints
                    { Name := "privileged", Namespace := "" },
                  .Update (.securityContextConstraints
                    { scc with
                      Users := scc.Users ++ ["system:serviceaccount:" ++ child.Namespace ++
                        ":" ++ child.Spec.ServiceAccount.Name] })])))) ∧
    (∀ (client : Client) (scheme : Scheme) (inst : KlusterletService)
        (child : TopologyCollector) (h : History),
      (∃ err, (topology.createServiceAccount client scheme inst child h).1 = some err ∧
        ∀ c ∈ (topology.createServiceAccount client scheme inst child h).2.drop h.length,
          c.touches .SecurityContextConstraints = false) ∨
      ∃ pre, History.Issues (fun c => c.touches .ServiceAccount = true) h pre ∧
        ((∃ e, client.GetSecurityContextConstraints pre
              { Name := "privileged", Namespace := "" } = .error e ∧
            topology.createServiceAccount client scheme inst child h =
              (none, pre ++ [.Get .SecurityContextConstraints
                { Name := "privileged", Namespace := "" }])) ∨
          (∃ scc, client.GetSecurityContextConstraints pre
              { Name := "privileged", Namespace := "" } = .ok scc ∧
            topology.createServiceAccount client scheme inst child h =
              (client.Update
                  (pre ++ [.Get .SecurityContextConstraints
                    { Name := "privileged", Namespace := "" }])
                  (.securityContextConstraints
                    { scc with
                      Users := scc.Users ++ ["system:serviceaccount:" ++ child.Namespace ++
                        ":" ++ child.Spec.ServiceAccount.Name] }),
                pre ++ [.Get .SecurityContextConstraints
                    { Name := "privileged", Namespace := "" },
                  .Update (.securityContextConstraints
                    { scc with
                      Users := scc.Users ++ ["system:serviceaccount:" ++ child.Namespace ++
                        ":" ++ child.Spec.ServiceAccount.Name] })])))) := by
  constructor
  · intro client scheme inst child h
    rcases certmgr_createServiceAccount_spec client scheme inst child h with
      ⟨e, -, hr⟩ | ⟨sa, -, -, ⟨e, -, -, hr⟩ | ⟨e, err, -, -, -, hr⟩ | ⟨pre, hpre, hgrant⟩⟩
    · exact Or.inl ⟨e, by rw [hr], by rw [hr]; simp⟩
    · refine Or.inl ⟨e, by rw [hr], ?_⟩
      rw [hr]
      intro c hc
      simp only [List.drop_left, List.mem_singleton] at hc
      subst hc
      rfl
    · refine Or.inl ⟨err, by rw [hr], ?_⟩
      rw [hr]
      intro c hc
      simp only [List.drop_left, List.mem_cons, List.mem_singleton, List.not_mem_nil,
        or_false] at hc
      rcases hc with rfl | rfl <;> rfl
    · refine Or.inr ⟨pre, ?_, hgrant⟩
      rcases hpre with ⟨found, -, rfl⟩ | ⟨e, -, -, -, rfl⟩
      · exact ⟨[_], rfl, by simp [Call.touches]⟩
      · exact ⟨[_, _], rfl, by simp [Call.touches, Obj.kind]⟩
  · intro client scheme inst child h
    rcases topology_createServiceAccount_spec client scheme inst child h with
      ⟨e, -, hr⟩ | ⟨sa, -, -, ⟨e, -, -, hr⟩ | ⟨e, err, -, -, -, hr⟩ | ⟨pre, hpre, hgrant⟩⟩
    · exact Or.inl ⟨e, by rw [hr], by rw [hr]; simp⟩
    · refine Or.inl ⟨e, by rw [hr], ?_⟩
      rw [hr]
      intro c hc
      simp only [List.drop_left, List.mem_singleton] at hc
      subst hc
      rfl
    · refine Or.inl ⟨err, by rw [hr], ?_⟩
      rw [hr]
      intro c hc
      simp only [List.drop_left, List.mem_cons, List.mem_singleton, List.not_mem_nil,
        or_false] at hc
      rcases hc with rfl | rfl <;> rfl
    · refine Or.inr ⟨pre, ?_, hgrant⟩
      rcases hpre with ⟨found, -, rfl⟩ | ⟨e, -, -, -, rfl⟩
      · exact ⟨[_], rfl, by simp [Call.touches]⟩
      · exact ⟨[_, _], rfl, by simp [Call.touches, Obj.kind]⟩

/-! ## The in-memory cluster: what the history stored -/

theorem stored_get (h : History) (k : Kind) (key' : NamespacedName) (kind : Kind)
    (key : NamespacedName) :
    History.stored (h ++ [.Get k key']) kind key = History.stored h kind key := by
  simp [History.stored, List.foldl_append]

theorem stored_create (h : History) (obj : Obj) (kind : Kind) (key : NamespacedName) :
    History.stored (h ++ [.Create obj]) kind key =
      if obj.isAt kind key && (History.stored h kind key).isNone then some obj
      else History.stored h kind key := by
  simp [History.stored, List.foldl_append]

theorem stored_update (h : History) (obj : Obj) (kind : Kind) (key : NamespacedName) :
    History.stored (h ++ [.Update obj]) kind key =
      if obj.isAt kind key && (History.stored h kind key).isSome then some obj
      else History.stored h kind key := by
  simp [History.stored, List.foldl_append]

/-- The store after further calls is the store before them, replayed through these calls. -/
theorem stored_append (h t : History) (kind : Kind) (key : NamespacedName) :
    History.stored (h ++ t) kind key =
      t.foldl
        (fun held call =>
          match call with
          | .Create obj => if obj.isAt kind key && held.isNone then some obj else held
          | .Update obj => if obj.isAt kind key && held.isSome then some obj else held
          | .Delete obj => if obj.isAt kind key then none else held
          | _ => held)
        (History.stored h kind key) := by
  simp [History.stored, List.foldl_append]

/-- What the store holds under a kind and key has that kind and key. -/
theorem stored_isAt (h : History) (kind : Kind) (key : NamespacedName) (obj : Obj)
    (hs : History.stored h kind key = some obj) : obj.isAt kind key = true := by
  induction h using List.reverseRecOn generalizing obj with
  | nil => simp [History.stored] at hs
  | append_singleton h c ih =>
    cases c with
    | Get k key' => rw [stored_get] at hs; exact ih obj hs
    | List k =>
      have : History.stored (h ++ [.List k]) kind key = History.stored h kind key := by
        simp [History.stored, List.foldl_append]
      rw [this] at hs; exact ih obj hs
    | Create o =>
      rw [stored_create] at hs
      split at hs
      · rename_i hc
        cases hs
        simp only [Bool.and_eq_true] at hc
        exact hc.1
      · exact ih obj hs
    | Update o =>
      rw [stored_update] at hs
      split at hs
      · rename_i hc
        cases hs
        simp only [Bool.and_eq_true] at hc
        exact hc.1
      · exact ih obj hs
    | Delete o =>
      have : History.stored (h ++ [.Delete o]) kind key =
          if o.isAt kind key then none else History.stored h kind key := by
        simp [History.stored, List.foldl_append]
      rw [this] at hs
      split at hs
      · cases hs
      · exact ih obj hs

/-- On the in-memory cluster a Get of a ClusterIssuer answers with the stored issuer, and fails
with not-found exactly when nothing is stored under the key. -/
theorem memory_GetClusterIssuer (h : History) (key : NamespacedName) :
    (∃ o, History.stored h .ClusterIssuer key = some (.clusterIssuer o) ∧
      Client.memory.GetClusterIssuer h key = .ok o) ∨
    (History.stored h .ClusterIssuer key = none ∧
      Client.memory.GetClusterIssuer h key = .error (.status "NotFound" "")) := by
  cases hs : History.stored h .ClusterIssuer key with
  | none => right; simp [Client.memory, hs]
  | some obj =>
    have hat := stored_isAt h _ _ _ hs
    cases obj <;> simp [Obj.isAt, Obj.kind] at hat
    left
    exact ⟨_, rfl, by simp [Client.memory, hs]⟩

theorem memory_GetServiceAccount (h : History) (key : NamespacedName) :
    (∃ o, History.stored h .ServiceAccount key = some (.serviceAccount o) ∧
      Client.memory.GetServiceAccount h key = .ok o) ∨
    (History.stored h .ServiceAccount key = none ∧
      Client.memory.GetServiceAccount h key = .error (.status "NotFound" "")) := by
  cases hs : History.stored h .ServiceAccount key with
  | none => right; simp [Client.memory, hs]
  | some obj =>
    have hat := stored_isAt h _ _ _ hs
    cases obj <;> simp [Obj.isAt, Obj.kind] at hat
    left
    exact ⟨_, rfl, by simp [Client.memory, hs]⟩

theorem memory_GetSecurityContextConstraints (h : History) (key : NamespacedName) :
    (∃ o, History.stored h .SecurityContextConstraints key =
        some (.securityContextConstraints o) ∧
      Client.memory.GetSecurityContextConstraints h key = .ok o) ∨
    (History.stored h .SecurityContextConstraints key = none ∧
      Client.memory.GetSecurityContextConstraints h key = .error (.status "NotFound" "")) := by
  cases hs : History.stored h .SecurityContextConstraints key with
  | none => right; simp [Client.memory, hs]
  | some obj =>
    have hat := stored_isAt h _ _ _ hs
    cases obj <;> simp [Obj.isAt, Obj.kind] at hat
    left
    exact ⟨_, rfl, by simp [Client.memory, hs]⟩

/-! ## Running an ensure twice -/

/-- An existing ClusterIssuer is neither re-created nor modified: after a Get that finds it,
`createSelfSignClusterIssuer` issues no further call and returns nil. -/
theorem createSelfSignClusterIssuer_existing (client : Client) (scheme : Scheme) (cr : Endpoint)
    (h : History) (gvk : GroupVersionKind) (found : ClusterIssuer)
    (hg : scheme.GVKForObject .Endpoint = .ok gvk)
    (hget : client.GetClusterIssuer h { Name := cr.Name ++ "-self-signed" } = .ok found) :
    certmgr.createSelfSignClusterIssuer client scheme cr h =
      (none, h ++ [.Get .ClusterIssuer { Name := cr.Name ++ "-self-signed" }]) := by
  unfold certmgr.createSelfSignClusterIssuer SetControllerReference
  simp only [hg, Client.getClusterIssuer, hget]

/-- On the in-memory cluster that holds the service account and the privileged binding,
the certmgr `createServiceAccount` reads both and updates the binding with the user appended;
afterwards the store holds the updated binding and the same service account. -/
theorem certmgr_createServiceAccount_memory_existing (scheme : Scheme) (inst : Endpoint)
    (child : CertManager) (h : History) (gvk : GroupVersionKind) (sa : ServiceAccount)
    (scc : SecurityContextConstraints)
    (hg : scheme.GVKForObject .Endpoint = .ok gvk)
    (hsa : History.stored h .ServiceAccount
      { Name := child.Spec.ServiceAccount.Name, Namespace := child.Namespace } =
      some (.serviceAccount sa))
    (hscc : History.stored h .SecurityContextConstraints
      { Name := "privileged", Namespace := "" } = some (.securityContextConstraints scc)) :
    certmgr.createServiceAccount Client.memory scheme inst child h =
      (none, h ++ [.Get .ServiceAccount
          { Name := child.Spec.ServiceAccount.Name, Namespace := child.Namespace },
        .Get .SecurityContextConstraints { Name := "privileged", Namespace := "" },
        .Update (.securityContextConstraints
          { scc with
            Users := scc.Users ++ ["system:serviceaccount:" ++ child.Namespace ++ ":" ++
              child.Spec.ServiceAccount.Name] })]) ∧
    History.stored
        (h ++ [.Get .ServiceAccount
            { Name := child.Spec.ServiceAccount.Name, Namespace := child.Namespace },
          .Get .SecurityContextConstraints { Name := "privileged", Namespace := "" },
          .Update (.securityContextConstraints
            { scc with
              Users := scc.Users ++ ["system:serviceaccount:" ++ child.Namespace ++ ":" ++
                child.Spec.ServiceAccount.Name] })])
        .SecurityContextConstraints { Name := "privileged", Namespace := "" } =
      some (.securityContextConstraints
        { scc with
          Users := scc.Users ++ ["system:serviceaccount:" ++ child.Namespace ++ ":" ++
            child.Spec.ServiceAccount.Name] }) ∧
    History.stored
        (h ++ [.Get .ServiceAccount
            { Name := child.Spec.ServiceAccount.Name, Namespace := child.Namespace },
          .Get .SecurityContextConstraints { Name := "privileged", Namespace := "" },
          .Update (.securityContextConstraints
            { scc with
              Users := scc.Users ++ ["system:serviceaccount:" ++ child.Namespace ++ ":" ++
                child.Spec.ServiceAccount.Name] })])
        .ServiceAccount
        { Name := child.Spec.ServiceAccount.Name, Namespace := child.Namespace } =
      some (.serviceAccount sa) := by
  have hat := stored_isAt h _ _ _ hscc
  simp only [Obj.isAt, Obj.kind, Obj.objectMeta, Bool.and_eq_true, beq_iff_eq, true_and] at hat
  obtain ⟨hname, hns⟩ := hat
  have hgetsa : Client.memory.GetServiceAccount h
      { Name := child.Spec.ServiceAccount.Name, Namespace := child.Namespace } = .ok sa := by
    simp [Client.memory, hsa]
  have hgetscc : Client.memory.GetSecurityContextConstraints
      (h ++ [.Get .ServiceAccount
        { Name := child.Spec.ServiceAccount.Name, Namespace := child.Namespace }])
      { Name := "privileged", Namespace := "" } = .ok scc := by
    simp [Client.memory, stored_get, hscc]
  have hs2 : History.stored
      (h ++ [.Get .ServiceAccount
          { Name := child.Spec.ServiceAccount.Name, Namespace := child.Namespace },
        .Get .SecurityContextConstraints { Name := "privileged", Namespace := "" }])
      .SecurityContextConstraints { Name := "privileged", Namespace := "" } =
      some (.securityContextConstraints scc) := by
    rw [stored_append]
    simp [hscc]
  have hupd : ∀ users : List String, Client.memory.Update
      (h ++ [.Get .ServiceAccount
          { Name := child.Spec.ServiceAccount.Name, Namespace := child.Namespace },
        .Get .SecurityContextConstraints { Name := "privileged", Namespace := "" }])
      (.securityContextConstraints { scc with Users := users }) = none := by
    intro users
    simp [Client.memory, History.holds, Obj.kind, Obj.objectMeta, hname, hns, hs2]
  refine ⟨?_, ?_, ?_⟩
  · unfold certmgr.createServiceAccount SetControllerReference
    simp only [hg, Client.getServiceAccount, hgetsa, Client.getSecurityContextConstraints,
      hgetscc, Client.update, hupd, List.append_assoc, List.singleton_append, List.cons_append,
      List.nil_append]
  · rw [stored_append]
    simp [hscc, Obj.isAt, Obj.kind, Obj.objectMeta, hname, hns]
  · rw [stored_append]
    simp [hsa, Obj.isAt, Obj.kind]

/-- C25 (as stated, refuted): on the in-memory cluster that holds the privileged binding with
the single user "admin", the certmgr `createServiceAccount` is run twice in a row for the same
service account and both runs succeed: after the first run the binding's user list is "admin"
followed by the user of the service account, after the second run that user is there twice. -/
theorem C25_user_list_grows :
    (certmgr.createServiceAccount Client.memory Scheme.registered Endpoint.sample
      CertManager.sample
      [.Create (.securityContextConstraints { Name := "privileged", Users := ["admin"] })]).1 =
      none ∧
    (certmgr.createServiceAccount Client.memory Scheme.registered Endpoint.sample
      CertManager.sample
      (certmgr.createServiceAccount Client.memory Scheme.registered Endpoint.sample
        CertManager.sample
        [.Create (.securityContextConstraints
          { Name := "privileged", Users := ["admin"] })]).2).1 = none ∧
    History.stored
      (certmgr.createServiceAccount Client.memory Scheme.registered Endpoint.sample
        CertManager.sample
        [.Create (.securityContextConstraints { Name := "privileged", Users := ["admin"] })]).2
      .SecurityContextConstraints { Name := "privileged", Namespace := "" } =
      some (.securityContextConstraints
        { Name := "privileged", Users := ["admin", "system:serviceaccount:ns1:c1-certmgr"] }) ∧
    History.stored
      (certmgr.createServiceAccount Client.memory Scheme.registered Endpoint.sample
        CertManager.sample
        (certmgr.createServiceAccount Client.memory Scheme.registered Endpoint.sample
          CertManager.sample
          [.Create (.securityContextConstraints
            { Name := "privileged", Users := ["admin"] })]).2).2
      .SecurityContextConstraints { Name := "privileged", Namespace := "" } =
      some (.securityContextConstraints
        { Name := "privileged",
          Users := ["admin", "system:serviceaccount:ns1:c1-certmgr",
            "system:serviceaccount:ns1:c1-certmgr"] }) := by
  decide

/-- C25 (amended): the ensure of the ClusterIssuer is idempotent, the ensure of the service
account is not. (1) For every client, `createSelfSignClusterIssuer` issues no call after a Get
that finds the issuer, and (2) the certmgr `createServiceAccount` issues no call on the service
account after a Get that finds it: an existing object is neither re-created nor modified.
(3) On the in-memory cluster, for every store state, after a successful run of
`createSelfSignClusterIssuer` a second run issues one Get, succeeds, and leaves every stored
object as it was. (4) On the in-memory cluster, for every store state that holds the privileged
binding, after a successful run of `createServiceAccount` a second run succeeds, leaves the
service account as it was, and appends the user to the binding once more: the user list is the
original list with the user appended once after the first run and twice after the second. -/
theorem C25_ensure_twice :
    (∀ (client : Client) (scheme : Scheme) (cr : Endpoint) (h : History)
        (gvk : GroupVersionKind) (found : ClusterIssuer),
      scheme.GVKForObject .Endpoint = .ok gvk →
      client.GetClusterIssuer h { Name := cr.Name ++ "-self-signed" } = .ok found →
      certmgr.createSelfSignClusterIssuer client scheme cr h =
        (none, h ++ [.Get .ClusterIssuer { Name := cr.Name ++ "-self-signed" }])) ∧
    (∀ (client : Client) (scheme : Scheme) (inst : Endpoint) (child : CertManager)
        (h : History) (found : ServiceAccount),
      client.GetServiceAccount h
        { Name := child.Spec.ServiceAccount.Name, Namespace := child.Namespace } = .ok found →
      ∀ c ∈ (certmgr.createServiceAccount client scheme inst child h).2.drop h.length,
        c.touches .ServiceAccount = true →
        c = .Get .ServiceAccount
          { Name := child.Spec.ServiceAccount.Name, Namespace := child.Namespace }) ∧
    (∀ (scheme : Scheme) (cr : Endpoint) (h : History),
      (certmgr.createSelfSignClusterIssuer Client.memory scheme cr h).1 = none →
      certmgr.createSelfSignClusterIssuer Client.memory scheme cr
          (certmgr.createSelfSignClusterIssuer Client.memory scheme cr h).2 =
        (none, (certmgr.createSelfSignClusterIssuer Client.memory scheme cr h).2 ++
          [.Get .ClusterIssuer { Name := cr.Name ++ "-self-signed" }]) ∧
      ∀ kind key,
        History.stored
          (certmgr.createSelfSignClusterIssuer Client.memory scheme cr
            (certmgr.createSelfSignClusterIssuer Client.memory scheme cr h).2).2 kind key =
        History.stored (certmgr.createSelfSignClusterIssuer Client.memory scheme cr h).2
          kind key) ∧
    (∀ (scheme : Scheme) (inst : Endpoint) (child : CertManager) (h : History)
        (scc : SecurityContextConstraints),
      History.stored h .SecurityContextConstraints { Name := "privileged", Namespace := "" } =
        some (.securityContextConstraints scc) →
      (certmgr.createServiceAccount Client.memory scheme inst child h).1 = none →
      (certmgr.createServiceAccount Client.memory scheme inst child
        (certmgr.createServiceAccount Client.memory scheme inst child h).2).1 = none ∧
      History.stored (certmgr.createServiceAccount Client.memory scheme inst child h).2
          .SecurityContextConstraints { Name := "privileged", Namespace := "" } =
        some (.securityContextConstraints
          { scc with
            Users := scc.Users ++ ["system:serviceaccount:" ++ child.Namespace ++ ":" ++
              child.Spec.ServiceAccount.Name] }) ∧
      History.stored
          (certmgr.createServiceAccount Client.memory scheme inst child
            (certmgr.createServiceAccount Client.memory scheme inst child h).2).2
          .SecurityContextConstraints { Name := "privileged", Namespace := "" } =
        some (.securityContextConstraints
          { scc with
            Users := scc.Users ++
              ["system:serviceaccount:" ++ child.Namespace ++ ":" ++
                child.Spec.ServiceAccount.Name,
               "system:serviceaccount:" ++ child.Namespace ++ ":" ++
                child.Spec.ServiceAccount.Name] }) ∧
      History.stored
          (certmgr.createServiceAccount Client.memory scheme inst child
            (certmgr.createServiceAccount Client.memory scheme inst child h).2).2
          .ServiceAccount
          { Name := child.Spec.ServiceAccount.Name, Namespace := child.Namespace } =
        History.stored (certmgr.createServiceAccount Client.memory scheme inst child h).2
          .ServiceAccount
          { Name := child.Spec.ServiceAccount.Name, Namespace := child.Namespace }) := by
  refine ⟨?_, ?_, ?_, ?_⟩
  · intro client scheme cr h gvk found hg hget
    exact createSelfSignClusterIssuer_existing client scheme cr h gvk found hg hget
  · intro client scheme inst child h found hget c hc htouch
    rcases certmgr_createServiceAccount_spec client scheme inst child h with
      ⟨e, -, hr⟩ | ⟨sa, -, -, ⟨e, he, -, -⟩ | ⟨e, err, he, -, -, -⟩ | ⟨pre, hpre, hgrant⟩⟩
    · rw [hr] at hc; simp at hc
    · rw [hget] at he; cases he
    · rw [hget] at he; cases he
    · rcases hpre with ⟨found', -, rfl⟩ | ⟨e, he, -, -, -⟩
      · rcases hgrant with ⟨e, -, hr⟩ | ⟨scc, -, hr⟩
        · rw [hr] at hc
          simp only [List.append_assoc, List.singleton_append, List.drop_left, List.mem_cons,
            List.mem_singleton, List.not_mem_nil, or_false] at hc
          rcases hc with rfl | rfl
          · rfl
          · simp [Call.touches] at htouch
        · rw [hr] at hc
          simp only [List.append_assoc, List.singleton_append, List.drop_left, List.mem_cons,
            List.mem_singleton, List.not_mem_nil, or_false] at hc
          rcases hc with rfl | rfl | rfl
          · rfl
          · simp [Call.touches] at htouch
          · simp [Call.touches, Obj.kind] at htouch
      · rw [hget] at he; cases he
  · intro scheme cr h hok
    cases hg : scheme.GVKForObject .Endpoint with
    | error e =>
      have hfirst : certmgr.createSelfSignClusterIssuer Client.memory scheme cr h =
          (some e, h) := by
        unfold certmgr.createSelfSignClusterIssuer SetControllerReference
        simp only [hg]
      rw [hfirst] at hok
      cases hok
    | ok gvk =>
      rcases memory_GetClusterIssuer h { Name := cr.Name ++ "-self-signed" } with
        ⟨o, hs, hget⟩ | ⟨hs, hget⟩
      · rw [createSelfSignClusterIssuer_existing Client.memory scheme cr h gvk o hg hget]
        have hget₂ : Client.memory.GetClusterIssuer
            (h ++ [.Get .ClusterIssuer { Name := cr.Name ++ "-self-signed" }])
            { Name := cr.Name ++ "-self-signed" } = .ok o := by
          simp [Client.memory, stored_get, hs]
        rw [createSelfSignClusterIssuer_existing Client.memory scheme cr _ gvk o hg hget₂]
        exact ⟨rfl, fun kind key => stored_get _ _ _ _ _⟩
      · have hfirst : certmgr.createSelfSignClusterIssuer Client.memory scheme cr h =
            (Client.memory.Create
                (h ++ [.Get .ClusterIssuer { Name := cr.Name ++ "-self-signed" }])
                (.clusterIssuer
                  { Name := cr.Name ++ "-self-signed",
                    OwnerReferences :=
                      [{ APIVersion :=
                           if gvk.Group = "" then gvk.Version
                           else gvk.Group ++ "/" ++ gvk.Version,
                         Kind := gvk.Kind, Name := cr.Name, UID := cr.UID,
                         Controller := true, BlockOwnerDeletion := true }],
                    Spec := { SelfSigned := true } }),
              h ++ [.Get .ClusterIssuer { Name := cr.Name ++ "-self-signed" },
                .Create (.clusterIssuer
                  { Name := cr.Name ++ "-self-signed",
                    OwnerReferences :=
                      [{ APIVersion :=
                           if gvk.Group = "" then gvk.Version
                           else gvk.Group ++ "/" ++ gvk.Version,
                         Kind := gvk.Kind, Name := cr.Name, UID := cr.UID,
                         Controller := true, BlockOwnerDeletion := true }],
                    Spec := { SelfSigned := true } })]) := by
          unfold certmgr.createSelfSignClusterIssuer SetControllerReference
          simp only [hg, Client.getClusterIssuer, hget, GoError.IsNotFound, beq_self_eq_true,
            if_true, Client.create, List.append_assoc, List.singleton_append, List.nil_append]
        rw [hfirst]
        have hget₂ : Client.memory.GetClusterIssuer
            (h ++ [.Get .ClusterIssuer { Name := cr.Name ++ "-self-signed" },
              .Create (.clusterIssuer
                { Name := cr.Name ++ "-self-signed",
                  OwnerReferences :=
                    [{ APIVersion :=
                         if gvk.Group = "" then gvk.Version
                         else gvk.Group ++ "/" ++ gvk.Version,
                       Kind := gvk.Kind, Name := cr.Name, UID := cr.UID,
                       Controller := true, BlockOwnerDeletion := true }],
                  Spec := { SelfSigned := true } })])
            { Name := cr.Name ++ "-self-signed" } =
            .ok { Name := cr.Name ++ "-self-signed",
                  OwnerReferences :=
                    [{ APIVersion :=
                         if gvk.Group = "" then gvk.Version
                         else gvk.Group ++ "/" ++ gvk.Version,
                       Kind := gvk.Kind, Name := cr.Name, UID := cr.UID,
                       Controller := true, BlockOwnerDeletion := true }],
                  Spec := { SelfSigned := true } } := by
          simp [Client.memory, stored_append, hs, Obj.isAt, Obj.kind, Obj.objectMeta]
        rw [createSelfSignClusterIssuer_existing Client.memory scheme cr _ gvk _ hg hget₂]
        exact ⟨rfl, fun kind key => stored_get _ _ _ _ _⟩
  · intro scheme inst child h scc hscc hok
    have hat := stored_isAt h _ _ _ hscc
    simp only [Obj.isAt, Obj.kind, Obj.objectMeta, Bool.and_eq_true, beq_iff_eq, true_and]
      at hat
    obtain ⟨hname, hns⟩ := hat
    rcases certmgr_createServiceAccount_spec Client.memory scheme inst child h with
      ⟨e, -, hr⟩ | ⟨sa, hsaname, hsans, ⟨e, -, -, hr⟩ | ⟨e, err, -, -, -, hr⟩ |
        ⟨pre, hpre, hgrant⟩⟩
    · rw [hr] at hok; cases hok
    · rw [hr] at hok; cases hok
    · rw [hr] at hok; cases hok
    · have hg : ∃ gvk, scheme.GVKForObject .Endpoint = .ok gvk := by
        cases hg : scheme.GVKForObject .Endpoint with
        | ok gvk => exact ⟨gvk, rfl⟩
        | error e =>
          have hfirst : certmgr.createServiceAccount Client.memory scheme inst child h =
              (some e, h) := by
            unfold certmgr.createServiceAccount SetControllerReference
            simp only [hg]
          rw [hfirst] at hok
          cases hok
      obtain ⟨gvk, hg⟩ := hg
      -- the store before the binding is read
      have hpre_facts : (∃ sa', History.stored pre .ServiceAccount
            { Name := child.Spec.ServiceAccount.Name, Namespace := child.Namespace } =
            some (.serviceAccount sa')) ∧
          History.stored pre .SecurityContextConstraints
            { Name := "privileged", Namespace := "" } =
            some (.securityContextConstraints scc) := by
        rcases hpre with ⟨found, hget, rfl⟩ | ⟨e, hget, -, hcreate, rfl⟩
        · rcases memory_GetServiceAccount h
              { Name := child.Spec.ServiceAccount.Name, Namespace := child.Namespace } with
            ⟨o, hs, hget'⟩ | ⟨hs, hget'⟩
          · exact ⟨⟨o, by rw [stored_get, hs]⟩, by rw [stored_get, hscc]⟩
          · rw [hget] at hget'; cases hget'
        · rcases memory_GetServiceAccount h
              { Name := child.Spec.ServiceAccount.Name, Namespace := child.Namespace } with
            ⟨o, hs, hget'⟩ | ⟨hs, hget'⟩
          · rw [hget] at hget'; cases hget'
          · refine ⟨⟨sa, ?_⟩, ?_⟩
            · rw [stored_append]
              simp [hs, Obj.isAt, Obj.kind, Obj.objectMeta, hsaname, hsans]
            · rw [stored_append]
              simp [hscc, Obj.isAt, Obj.kind]
      obtain ⟨⟨sa', hsa'⟩, hscc'⟩ := hpre_facts
      rcases hgrant with ⟨e, hget, -⟩ | ⟨scc', hget, hr⟩
      · rcases memory_GetSecurityContextConstraints pre
            { Name := "privileged", Namespace := "" } with ⟨o, -, hget'⟩ | ⟨hs, -⟩
        · rw [hget] at hget'; cases hget'
        · rw [hscc'] at hs; cases hs
      · have hsame : scc' = scc := by
          rcases memory_GetSecurityContextConstraints pre
              { Name := "privileged", Namespace := "" } with ⟨o, hs, hget'⟩ | ⟨hs, -⟩
          · rw [hget] at hget'
            rw [hscc'] at hs
            cases hget'
            cases hs
            rfl
          · rw [hscc'] at hs; cases hs
        subst hsame
        rw [hr]
        dsimp only
        have h₁scc : History.stored
            (pre ++ [.Get .SecurityContextConstraints
                { Name := "privileged", Namespace := "" },
              .Update (.securityContextConstraints
                { scc' with
                  Users := scc'.Users ++ ["system:serviceaccount:" ++ child.Namespace ++
                    ":" ++ child.Spec.ServiceAccount.Name] })])
            .SecurityContextConstraints { Name := "privileged", Namespace := "" } =
            some (.securityContextConstraints
              { scc' with
                Users := scc'.Users ++ ["system:serviceaccount:" ++ child.Namespace ++
                  ":" ++ child.Spec.ServiceAccount.Name] }) := by
          rw [stored_append]
          simp [hscc', Obj.isAt, Obj.kind, Obj.objectMeta, hname, hns]
        have h₁sa : History.stored
            (pre ++ [.Get .SecurityContextConstraints
                { Name := "privileged", Namespace := "" },
              .Update (.securityContextConstraints
                { scc' with
                  Users := scc'.Users ++ ["system:serviceaccount:" ++ child.Namespace ++
                    ":" ++ child.Spec.ServiceAccount.Name] })])
            .ServiceAccount
            { Name := child.Spec.ServiceAccount.Name, Namespace := child.Namespace } =
            some (.serviceAccount sa') := by
          rw [stored_append]
          simp [hsa', Obj.isAt, Obj.kind]
        obtain ⟨hrun, hstored, hsastored⟩ :=
          certmgr_createServiceAccount_memory_existing scheme inst child _ gvk sa' _ hg h₁sa
            h₁scc
        rw [hrun]
        refine ⟨rfl, h₁scc, ?_, ?_⟩
        · rw [hstored]
          simp [List.append_assoc]
        · rw [hsastored, h₁sa]

theorem C25_ensure_twice_witness :
    (certmgr.createServiceAccount Client.memory Scheme.registered Endpoint.sample
      CertManager.sample
      (certmgr.createServiceAccount Client.memory Scheme.registered Endpoint.sample
        CertManager.sample
        [.Create (.securityContextConstraints
          { Name := "privileged", Users := ["admin"] })]).2).1 = none ∧
    History.stored
        (certmgr.createServiceAccount Client.memory Scheme.registered Endpoint.sample
          CertManager.sample
          (certmgr.createServiceAccount Client.memory Scheme.registered Endpoint.sample
            CertManager.sample
            [.Create (.securityContextConstraints
              { Name := "privileged", Users := ["admin"] })]).2).2
        .SecurityContextConstraints { Name := "privileged", Namespace := "" } =
      some (.securityContextConstraints
        { ({ Name := "privileged", Users := ["admin"] } : SecurityContextConstraints) with
          Users := ["admin"] ++
            ["system:serviceaccount:" ++ "ns1" ++ ":" ++ "c1-certmgr",
             "system:serviceaccount:" ++ "ns1" ++ ":" ++ "c1-certmgr"] }) :=
  have hrun := C25_ensure_twice.2.2.2 Scheme.registered Endpoint.sample CertManager.sample
    [.Create (.securityContextConstraints { Name := "privileged", Users := ["admin"] })]
    { Name := "privileged", Users := ["admin"] } (by decide) (by decide)
  ⟨hrun.1, hrun.2.2.1⟩

/-! ## The tables across versions -/

/-- A key is found in an association list exactly when it is among the keys. -/
theorem lookup_isSome_iff (l : List (String × String)) (k : String) :
    (l.lookup k).isSome ↔ k ∈ l.map Prod.fst := by
  induction l with
  | nil => simp
  | cons p l ih =>
    rcases p with ⟨a, b⟩
    by_cases hk : k = a
    · subst hk
      simp [List.lookup]
    · have hb : (k == a) = false := by simpa using hk
      simp [List.lookup, hb, ih, hk]

/-- A component has an image name at a version exactly when it is a key of the version's
image-name table. -/
theorem imageNameFor_isSome_iff (version name : String) :
    (imageNameFor version name).isSome ↔
      name ∈ ((versionComponentImageNameMap.lookup version).getD []).map Prod.fst := by
  unfold imageNameFor
  cases versionComponentImageNameMap.lookup version with
  | none => simp
  | some componentImageMap => simp

/-- A component has a tag at a version exactly when it is a key of the version's tag table. -/
theorem tagFor_isSome_iff (version name : String) :
    (tagFor version name).isSome ↔
      name ∈ ((versionComponentTagMap.lookup version).getD []).map Prod.fst := by
  unfold tagFor
  cases versionComponentTagMap.lookup version with
  | none => simp
  | some componentTagMap => simp

/-- C27 (code bug): the image-name table is not nested across versions. The key
"helmcrd_admission_controller" of version "3.2.0" (written with underscores, where the tag
table of the same version and the later versions write "helmcrd-admission-controller") is not a
key of version "3.2.1", and the key "monitoring-router" of version "3.2.1" is not a key of
version "latest"; these are the only two keys that break the nesting of the image-name table,
and the tag table is nested. -/
theorem C27_name_table_not_nested :
    ((imageNameFor "3.2.0" "helmcrd_admission_controller").isSome ∧
      imageNameFor "3.2.1" "helmcrd_admission_controller" = none) ∧
    ((imageNameFor "3.2.1" "monitoring-router").isSome ∧
      imageNameFor "latest" "monitoring-router" = none) ∧
    (tagFor "3.2.0" "helmcrd_admission_controller" = none ∧
      (tagFor "3.2.0" "helmcrd-admission-controller").isSome ∧
      imageNameFor "3.2.0" "helmcrd-admission-controller" = none) ∧
    (∀ name, (imageNameFor "3.2.0" name).isSome → ¬ (imageNameFor "3.2.1" name).isSome →
      name = "helmcrd_admission_controller") ∧
    (∀ name, (imageNameFor "3.2.1" name).isSome → ¬ (imageNameFor "latest" name).isSome →
      name = "monitoring-router") ∧
    (∀ name, (tagFor "3.2.0" name).isSome → (tagFor "3.2.1" name).isSome) ∧
    (∀ name, (tagFor "3.2.1" name).isSome → (tagFor "latest" name).isSome) := by
  refine ⟨by decide, by decide, by decide, ?_, ?_, ?_, ?_⟩
  · intro name
    simp only [imageNameFor_isSome_iff]
    revert name
    decide
  · intro name
    simp only [imageNameFor_isSome_iff]
    revert name
    decide
  · intro name
    simp only [tagFor_isSome_iff]
    revert name
    decide
  · intro name
    simp only [tagFor_isSome_iff]
    revert name
    decide

/-- C28: resolution is monotone across versions. For every component name and every other field
of the parent (registry override, name postfix, pull policy, metadata), if GetImage succeeds at
version "3.2.0" it succeeds at "3.2.1", and if it succeeds at "3.2.1" it succeeds at "latest";
the key sets of the image-name table are not nested: "monitoring-router" is a key at "3.2.1"
and not at "latest", and it does not resolve at "3.2.1". -/
theorem C28_resolution_monotone :
    (∀ (m : ObjectMeta) (s : EndpointSpec) (name : String),
      (GetImage { m with Spec := { s with Version := "3.2.0" } } name).2 = none →
      (GetImage { m with Spec := { s with Version := "3.2.1" } } name).2 = none) ∧
    (∀ (m : ObjectMeta) (s : EndpointSpec) (name : String),
      (GetImage { m with Spec := { s with Version := "3.2.1" } } name).2 = none →
      (GetImage { m with Spec := { s with Version := "latest" } } name).2 = none) ∧
    ((imageNameFor "3.2.1" "monitoring-router").isSome ∧
      imageNameFor "latest" "monitoring-router" = none ∧
      tagFor "3.2.1" "monitoring-router" = none) := by
  refine ⟨?_, ?_, by decide⟩
  · intro m s name h
    rw [GetImage_ok_iff] at h ⊢
    simp only [imageNameFor_isSome_iff, tagFor_isSome_iff] at h ⊢
    obtain ⟨h1, h2⟩ := h
    revert h2
    revert h1
    revert name
    decide
  · intro m s name h
    rw [GetImage_ok_iff] at h ⊢
    simp only [imageNameFor_isSome_iff, tagFor_isSome_iff] at h ⊢
    obtain ⟨h1, h2⟩ := h
    revert h2
    revert h1
    revert name
    decide

theorem C28_resolution_monotone_witness :
    (GetImage { Spec := { Version := "3.2.1", ImageRegistry := "reg", ImageNamePostfix := "-x" } }
      "router").2 = none :=
  C28_resolution_monotone.1 {} { ImageRegistry := "reg", ImageNamePostfix := "-x" } "router"
    (by decide)

/-- Resolution of a component that no version has fails: with the version error when the
version is not a key, with the component error otherwise. -/
theorem GetImage_collector (inst : Endpoint) :
    (inst.Spec.Version ∈ ["3.2.0", "3.2.1", "latest"] →
      (GetImage inst "weave").2 = none ∧
      (GetImage inst "collector").2 =
        some (.errorf "unable to locate image name for component collector")) ∧
    (inst.Spec.Version ∉ ["3.2.0", "3.2.1", "latest"] →
      (GetImage inst "weave").2 =
        some (.errorf ("unable to locate image name for version " ++ inst.Spec.Version))) := by
  constructor
  · intro hv
    simp only [List.mem_cons, List.mem_singleton, List.not_mem_nil, or_false] at hv
    rcases hv with hv | hv | hv <;>
      exact ⟨by unfold GetImage; rw [hv]; simp [versionComponentImageNameMap,
          versionComponentTagMap, List.lookup],
        by unfold GetImage; rw [hv]; simp [versionComponentImageNameMap, List.lookup]⟩
  · intro hv
    have hk : versionComponentImageNameMap.lookup inst.Spec.Version = none := by
      have := (version_key_iff inst.Spec.Version).1
      cases hl : versionComponentImageNameMap.lookup inst.Spec.Version with
      | none => rfl
      | some x => rw [hl] at this; exact absurd (this.1 rfl) hv
    unfold GetImage
    rw [hk]

/-- C29: "collector" is not a key of the image-name table of any version, so GetImage of
"collector" fails for every parent. Consequently, when the images of the topology collector
are resolved against these tables (whatever Endpoint the parent is resolved as),
newTopologyCollectorCR returns an error and no child for every parent, without a client call,
and topology Reconcile returns that error with the history and the parent, and so the
finalizer list, unchanged. The error is the component error of "collector" when the version is
a key of the table, and the version error of "weave" otherwise. -/
theorem C29_collector_unresolvable :
    (∀ version, imageNameFor version "collector" = none) ∧
    (∀ inst : Endpoint, ∃ e, (GetImage inst "collector").2 = some e) ∧
    (∀ (toEndpoint : KlusterletService → Endpoint) (inst : KlusterletService)
        (client : Client) (scheme : Scheme) (h : History),
      ∃ err,
        topology.newTopologyCollectorCR (fun cr name => GetImage (toEndpoint cr) name)
          inst client h = some ((none, some err), h) ∧
        topology.Reconcile (fun cr name => GetImage (toEndpoint cr) name)
          inst client scheme h = some ⟨some err, inst, h⟩ ∧
        ((toEndpoint inst).Spec.Version ∈ ["3.2.0", "3.2.1", "latest"] →
          err = .errorf "unable to locate image name for component collector") ∧
        ((toEndpoint inst).Spec.Version ∉ ["3.2.0", "3.2.1", "latest"] →
          err = .errorf ("unable to locate image name for version " ++
            (toEndpoint inst).Spec.Version))) := by
  have hnone : ∀ version, imageNameFor version "collector" = none := by
    intro version
    cases hn : imageNameFor version "collector" with
    | none => rfl
    | some x =>
      have hs : (imageNameFor version "collector").isSome := by rw [hn]; rfl
      have hv : version ∈ ["3.2.0", "3.2.1", "latest"] := by
        apply (version_key_iff version).1.1
        unfold imageNameFor at hn
        cases hl : versionComponentImageNameMap.lookup version with
        | none => simp [hl] at hn
        | some x => rfl
      simp only [List.mem_cons, List.mem_singleton, List.not_mem_nil, or_false] at hv
      rcases hv with rfl | rfl | rfl <;> exact absurd hs (by decide)
  refine ⟨hnone, fun inst => GetImage_error_of_missing inst _ (Or.inl (hnone _)), ?_⟩
  intro toEndpoint inst client scheme h
  by_cases hv : (toEndpoint inst).Spec.Version ∈ ["3.2.0", "3.2.1", "latest"]
  · obtain ⟨hw, hc⟩ := (GetImage_collector (toEndpoint inst)).1 hv
    have hbuild : topology.newTopologyCollectorCR (fun cr name => GetImage (toEndpoint cr) name)
        inst client h =
        some ((none, some (.errorf "unable to locate image name for component collector")),
          h) := by
      unfold topology.newTopologyCollectorCR
      rcases hw' : GetImage (toEndpoint inst) "weave" with ⟨i1, e1⟩
      rw [hw'] at hw
      dsimp only at hw
      subst hw
      rcases hc' : GetImage (toEndpoint inst) "collector" with ⟨i2, e2⟩
      rw [hc'] at hc
      dsimp only at hc
      subst hc
      simp only [hw', hc']
    refine ⟨_, hbuild, ?_, fun _ => rfl, fun hn => absurd hv hn⟩
    unfold topology.Reconcile
    simp only [hbuild]
  · have hw := (GetImage_collector (toEndpoint inst)).2 hv
    have hbuild : topology.newTopologyCollectorCR (fun cr name => GetImage (toEndpoint cr) name)
        inst client h =
        some ((none, some (.errorf ("unable to locate image name for version " ++
          (toEndpoint inst).Spec.Version))), h) := by
      unfold topology.newTopologyCollectorCR
      rcases hw' : GetImage (toEndpoint inst) "weave" with ⟨i1, e1⟩
      rw [hw'] at hw
      dsimp only at hw
      subst hw
      simp only [hw']
    refine ⟨_, hbuild, ?_, fun hn => absurd hn hv, fun _ => rfl⟩
    unfold topology.Reconcile
    simp only [hbuild]

/-! ## The ManagedCluster controller -/

/-- The function `newKlusterletAddonConfig` returns nil exactly when the cluster is not hosted
and its type is neither "ClusterClaim" nor "Hypershift"; every config it returns is named and
namespaced by its argument. -/
theorem newKlusterletAddonConfig_spec (clusterType name : String) (hosted : Bool) :
    (managedcluster.newKlusterletAddonConfig clusterType name hosted = none ↔
      hosted = false ∧ clusterType ≠ "ClusterClaim" ∧ clusterType ≠ "Hypershift") ∧
    (∀ kac, managedcluster.newKlusterletAddonConfig clusterType name hosted = some kac →
      kac.Name = name ∧ kac.Namespace = name) := by
  unfold managedcluster.newKlusterletAddonConfig managedcluster.clusterTypeClusterClaim
    managedcluster.clusterTypeHypershift
  cases hosted with
  | true => simp
  | false =>
    by_cases h1 : clusterType = "ClusterClaim"
    · simp [h1]
    · by_cases h2 : clusterType = "Hypershift"
      · simp [h2]
      · simp [h1, h2]

/-- A cluster that passes the guard of `Reconcile` gets a config. -/
theorem newKlusterletAddonConfig_of_guard (keys : common) (cluster : ManagedCluster)
    (hguard : managedcluster.hostedAddOnEnabled keys cluster.toObjectMeta = true ∨
      managedcluster.hypershiftCluster cluster.toObjectMeta = true ∨
      managedcluster.clusterClaimCluster cluster.toObjectMeta = true) :
    ∃ kac, managedcluster.newKlusterletAddonConfig (managedcluster.clusterType cluster)
        cluster.Name (managedcluster.hostedAddOnEnabled keys cluster.toObjectMeta) = some kac ∧
      kac.Name = cluster.Name ∧ kac.Namespace = cluster.Name := by
  cases hk : managedcluster.newKlusterletAddonConfig (managedcluster.clusterType cluster)
      cluster.Name (managedcluster.hostedAddOnEnabled keys cluster.toObjectMeta) with
  | some kac =>
    exact ⟨kac, rfl, (newKlusterletAddonConfig_spec _ _ _).2 kac hk⟩
  | none =>
    exfalso
    obtain ⟨hh, hc, hy⟩ := (newKlusterletAddonConfig_spec _ _ _).1.1 hk
    unfold managedcluster.clusterType managedcluster.clusterTypeClusterClaim
      managedcluster.clusterTypeHypershift at hc hy
    rcases hguard with hg | hg | hg
    · rw [hh] at hg; cases hg
    · by_cases hcl : managedcluster.clusterClaimCluster cluster.toObjectMeta = true
      · simp [hcl] at hc
      · simp [hcl, hg] at hy
    · simp [hg] at hc

/-- The three outcomes of `createKlusterletAddonConfig` for a cluster that passes the guard of
`Reconcile`: the config exists; the Get fails with an error other than not-found; or the config
is not found, and the new config is created. -/
theorem createKlusterletAddonConfig_cases (keys : common) (client : managedcluster.Client)
    (cluster : ManagedCluster) (h : List managedcluster.Call)
    (hguard : managedcluster.hostedAddOnEnabled keys cluster.toObjectMeta = true ∨
      managedcluster.hypershiftCluster cluster.toObjectMeta = true ∨
      managedcluster.clusterClaimCluster cluster.toObjectMeta = true) :
    (∃ found, client.GetKlusterletAddonConfig h
          { Namespace := cluster.Name, Name := cluster.Name } = .ok found ∧
        managedcluster.createKlusterletAddonConfig keys client cluster h =
          (none, h ++ [.GetKlusterletAddonConfig
            { Namespace := cluster.Name, Name := cluster.Name }])) ∨
    (∃ e, client.GetKlusterletAddonConfig h
          { Namespace := cluster.Name, Name := cluster.Name } = .error e ∧
        e.IsNotFound = false ∧
        managedcluster.createKlusterletAddonConfig keys client cluster h =
          (some (.errorf ("retreive KlusterletAddonConfig " ++ cluster.Name ++ " error: " ++
              e.Error)),
            h ++ [.GetKlusterletAddonConfig
              { Namespace := cluster.Name, Name := cluster.Name }])) ∨
    (∃ e kac, client.GetKlusterletAddonConfig h
          { Namespace := cluster.Name, Name := cluster.Name } = .error e ∧
        e.IsNotFound = true ∧
        managedcluster.newKlusterletAddonConfig (managedcluster.clusterType cluster)
          cluster.Name (managedcluster.hostedAddOnEnabled keys cluster.toObjectMeta) =
          some kac ∧
        kac.Name = cluster.Name ∧ kac.Namespace = cluster.Name ∧
        managedcluster.createKlusterletAddonConfig keys client cluster h =
          ((client.Create
              (h ++ [.GetKlusterletAddonConfig
                { Namespace := cluster.Name, Name := cluster.Name }]) kac).map
            (fun err => .errorf ("create KlusterletAddonConfig " ++ cluster.Name ++
              " error: " ++ err.Error)),
            h ++ [.GetKlusterletAddonConfig
                { Namespace := cluster.Name, Name := cluster.Name },
              .Create kac])) := by
  obtain ⟨kac, hk, hname, hns⟩ := newKlusterletAddonConfig_of_guard keys cluster hguard
  unfold managedcluster.createKlusterletAddonConfig
  dsimp only
  cases hget : client.GetKlusterletAddonConfig h
      { Namespace := cluster.Name, Name := cluster.Name } with
  | ok found => exact Or.inl ⟨found, rfl, rfl⟩
  | error e =>
    right
    dsimp only
    cases hnf : e.IsNotFound with
    | false => exact Or.inl ⟨e, rfl, hnf, by simp⟩
    | true =>
      refine Or.inr ⟨e, kac, rfl, hnf, hk, hname, hns, ?_⟩
      simp only [if_true, hk]
      cases client.Create _ kac <;> simp

/-- The outcomes of `Reconcile`: the Get of the cluster fails, and the error is returned unless
it is not-found; the cluster is skipped (deleted, or not passing the guard, or automatic
installation disabled) with no further call; or `createKlusterletAddonConfig` runs. -/
theorem managedcluster_Reconcile_cases (keys : common) (client : managedcluster.Client)
    (request : NamespacedName) (h : List managedcluster.Call) :
    (∃ e, client.GetManagedCluster h { Name := request.Name } = .error e ∧
      managedcluster.Reconcile keys client request h =
        (if e.IsNotFound then none else some e,
          h ++ [.GetManagedCluster { Name := request.Name }])) ∨
    ∃ cluster, client.GetManagedCluster h { Name := request.Name } = .ok cluster ∧
      ((¬ (Time.IsZero cluster.DeletionTimestamp = true ∧
            (managedcluster.hostedAddOnEnabled keys cluster.toObjectMeta = true ∨
              managedcluster.hypershiftCluster cluster.toObjectMeta = true ∨
              managedcluster.clusterClaimCluster cluster.toObjectMeta = true) ∧
            ∀ value, cluster.Annotations.lookup
                managedcluster.disableAddonAutomaticInstallationAnnotationKey = some value →
              strings.EqualFold value "true" = false) ∧
          managedcluster.Reconcile keys client request h =
            (none, h ++ [.GetManagedCluster { Name := request.Name }])) ∨
        (Time.IsZero cluster.DeletionTimestamp = true ∧
          (managedcluster.hostedAddOnEnabled keys cluster.toObjectMeta = true ∨
            managedcluster.hypershiftCluster cluster.toObjectMeta = true ∨
            managedcluster.clusterClaimCluster cluster.toObjectMeta = true) ∧
          (∀ value, cluster.Annotations.lookup
              managedcluster.disableAddonAutomaticInstallationAnnotationKey = some value →
            strings.EqualFold value "true" = false) ∧
          managedcluster.Reconcile keys client request h =
            managedcluster.createKlusterletAddonConfig keys client cluster
              (h ++ [.GetManagedCluster { Name := request.Name }]))) := by
  unfold managedcluster.Reconcile
  cases hget : client.GetManagedCluster h { Name := request.Name } with
  | error e =>
    refine Or.inl ⟨e, rfl, ?_⟩
    dsimp only
    cases e.IsNotFound <;> simp
  | ok cluster =>
    refine Or.inr ⟨cluster, rfl, ?_⟩
    dsimp only
    cases hz : Time.IsZero cluster.DeletionTimestamp with
    | false => exact Or.inl ⟨by simp, by simp⟩
    | true =>
      by_cases hguard : managedcluster.hostedAddOnEnabled keys cluster.toObjectMeta = true ∨
          managedcluster.hypershiftCluster cluster.toObjectMeta = true ∨
          managedcluster.clusterClaimCluster cluster.toObjectMeta = true
      · have hnot : ¬ (¬ managedcluster.hostedAddOnEnabled keys cluster.toObjectMeta = true ∧
            ¬ managedcluster.hypershiftCluster cluster.toObjectMeta = true ∧
            ¬ managedcluster.clusterClaimCluster cluster.toObjectMeta = true) := by
          rintro ⟨h1, h2, h3⟩
          rcases hguard with hg | hg | hg
          · exact h1 hg
          · exact h2 hg
          · exact h3 hg
        simp only [not_true_eq_false, if_false, hnot]
        cases hl : cluster.Annotations.lookup
            managedcluster.disableAddonAutomaticInstallationAnnotationKey with
        | none => exact Or.inr ⟨trivial, hguard, by simp, rfl⟩
        | some value =>
          dsimp only
          cases hf : strings.EqualFold value "true" with
          | true =>
            refine Or.inl ⟨?_, by simp⟩
            rintro ⟨-, -, hall⟩
            have := hall value rfl
            rw [hf] at this
            cases this
          | false =>
            refine Or.inr ⟨trivial, hguard, ?_, by simp⟩
            intro v hv
            cases hv
            exact hf
      · have hyes : ¬ managedcluster.hostedAddOnEnabled keys cluster.toObjectMeta = true ∧
            ¬ managedcluster.hypershiftCluster cluster.toObjectMeta = true ∧
            ¬ managedcluster.clusterClaimCluster cluster.toObjectMeta = true :=
          ⟨fun hg => hguard (Or.inl hg), fun hg => hguard (Or.inr (Or.inl hg)),
            fun hg => hguard (Or.inr (Or.inr hg))⟩
        refine Or.inl ⟨fun hc => hguard hc.2.1, ?_⟩
        simp [hyes]

/-- A message of `fmt.Errorf` that starts with another letter is not the "new
KlusterletAddonConfig" message. -/
theorem errorf_message_ne (a b : String) :
    ("create KlusterletAddonConfig " ++ a ≠ "new KlusterletAddonConfig " ++ b) ∧
    ("retreive KlusterletAddonConfig " ++ a ≠ "new KlusterletAddonConfig " ++ b) := by
  constructor
  · intro heq
    have hd := congrArg String.data heq
    simp only [String.data_append] at hd
    simp at hd
  · intro heq
    have hd := congrArg String.data heq
    simp only [String.data_append] at hd
    simp at hd

/-- The condition of the specification, unfolded. -/
theorem createCondition_iff (keys : common) (client : managedcluster.Client)
    (request : NamespacedName) (h : List managedcluster.Call) :
    managedcluster.createCondition keys client request h = true ↔
      ∃ cluster e, client.GetManagedCluster h { Name := request.Name } = .ok cluster ∧
        (Time.IsZero cluster.DeletionTimestamp = true ∧
          (managedcluster.hostedAddOnEnabled keys cluster.toObjectMeta = true ∨
            managedcluster.hypershiftCluster cluster.toObjectMeta = true ∨
            managedcluster.clusterClaimCluster cluster.toObjectMeta = true) ∧
          ∀ value, cluster.Annotations.lookup
              managedcluster.disableAddonAutomaticInstallationAnnotationKey = some value →
            strings.EqualFold value "true" = false) ∧
        client.GetKlusterletAddonConfig
          (h ++ [.GetManagedCluster { Name := request.Name }])
          { Namespace := cluster.Name, Name := cluster.Name } = .error e ∧
        e.IsNotFound = true := by
  unfold managedcluster.createCondition managedcluster.hypershiftCluster
    managedcluster.clusterClaimCluster
  cases hget : client.GetManagedCluster h { Name := request.Name } with
  | error e => simp
  | ok cluster =>
    dsimp only
    constructor
    · intro hc
      simp only [Bool.and_eq_true, Bool.or_eq_true] at hc
      obtain ⟨⟨⟨hz, hg⟩, hd⟩, hk⟩ := hc
      cases hkac : client.GetKlusterletAddonConfig
          (h ++ [.GetManagedCluster { Name := request.Name }])
          { Namespace := cluster.Name, Name := cluster.Name } with
      | ok found => rw [hkac] at hk; cases hk
      | error e =>
        rw [hkac] at hk
        refine ⟨cluster, e, rfl, ⟨hz, ?_, ?_⟩, hkac, hk⟩
        · rcases hg with (hg | hg) | hg
          · exact Or.inl hg
          · exact Or.inr (Or.inl hg)
          · exact Or.inr (Or.inr hg)
        · intro value hv
          rw [hv] at hd
          simpa using hd
    · rintro ⟨cluster', e, hok, ⟨hz, hg, hd⟩, hkac, hnf⟩
      cases hok
      simp only [Bool.and_eq_true, Bool.or_eq_true]
      refine ⟨⟨⟨hz, ?_⟩, ?_⟩, ?_⟩
      · rcases hg with hg | hg | hg
        · exact Or.inl (Or.inl hg)
        · exact Or.inl (Or.inr hg)
        · exact Or.inr hg
      · cases hl : cluster.Annotations.lookup
            managedcluster.disableAddonAutomaticInstallationAnnotationKey with
        | none => rfl
        | some value => simp [hd value hl]
      · rw [hkac]
        exact hnf

/-- C26: `ReconcileManagedCluster.Reconcile` issues a Create of a KlusterletAddonConfig if and
only if the ManagedCluster is found, its deletion timestamp is zero, it is hosted-add-on
enabled or its provisioner annotation contains the Hypershift or the ClusterClaim marker, its
disable-automatic-installation annotation is absent or not equal to "true" ignoring case, and
the Get of the KlusterletAddonConfig named and namespaced after the cluster answers not-found.
In that case the calls are the two Gets and one Create of a config named and namespaced after
the cluster, and the result is the wrapped error of the Create. In every other case no Create
is issued, and Reconcile returns nil unless a Get failed with an error other than not-found. -/
theorem C26_creates_iff (keys : common) (client : managedcluster.Client)
    (request : NamespacedName) (h : List managedcluster.Call) :
    ((∃ obj, managedcluster.Call.Create obj ∈
        (managedcluster.Reconcile keys client request h).2.drop h.length) ↔
      managedcluster.createCondition keys client request h = true) ∧
    (managedcluster.createCondition keys client request h = true →
      ∃ cluster kac, client.GetManagedCluster h { Name := request.Name } = .ok cluster ∧
        kac.Name = cluster.Name ∧ kac.Namespace = cluster.Name ∧
        managedcluster.Reconcile keys client request h =
          ((client.Create
              (h ++ [.GetManagedCluster { Name := request.Name },
                .GetKlusterletAddonConfig
                  { Namespace := cluster.Name, Name := cluster.Name }]) kac).map
            (fun err => .errorf ("create KlusterletAddonConfig " ++ cluster.Name ++
              " error: " ++ err.Error)),
            h ++ [.GetManagedCluster { Name := request.Name },
              .GetKlusterletAddonConfig { Namespace := cluster.Name, Name := cluster.Name },
              .Create kac])) ∧
    (managedcluster.createCondition keys client request h = false →
      (∀ c ∈ (managedcluster.Reconcile keys client request h).2.drop h.length,
        ∀ obj, c ≠ .Create obj) ∧
      ((managedcluster.Reconcile keys client request h).1 = none ∨
        (∃ e, client.GetManagedCluster h { Name := request.Name } = .error e ∧
          e.IsNotFound = false ∧
          (managedcluster.Reconcile keys client request h).1 = some e) ∨
        (∃ cluster e, client.GetManagedCluster h { Name := request.Name } = .ok cluster ∧
          client.GetKlusterletAddonConfig
            (h ++ [.GetManagedCluster { Name := request.Name }])
            { Namespace := cluster.Name, Name := cluster.Name } = .error e ∧
          e.IsNotFound = false ∧
          (managedcluster.Reconcile keys client request h).1 =
            some (.errorf ("retreive KlusterletAddonConfig " ++ cluster.Name ++ " error: " ++
              e.Error))))) := by
  have hcondfalse : (¬ ∃ cluster e,
      client.GetManagedCluster h { Name := request.Name } = .ok cluster ∧
        (Time.IsZero cluster.DeletionTimestamp = true ∧
          (managedcluster.hostedAddOnEnabled keys cluster.toObjectMeta = true ∨
            managedcluster.hypershiftCluster cluster.toObjectMeta = true ∨
            managedcluster.clusterClaimCluster cluster.toObjectMeta = true) ∧
          ∀ value, cluster.Annotations.lookup
              managedcluster.disableAddonAutomaticInstallationAnnotationKey = some value →
            strings.EqualFold value "true" = false) ∧
        client.GetKlusterletAddonConfig
          (h ++ [.GetManagedCluster { Name := request.Name }])
          { Namespace := cluster.Name, Name := cluster.Name } = .error e ∧
        e.IsNotFound = true) →
      managedcluster.createCondition keys client request h = false := by
    intro hno
    cases hc : managedcluster.createCondition keys client request h with
    | false => rfl
    | true => exact absurd ((createCondition_iff keys client request h).1 hc) hno
  rcases managedcluster_Reconcile_cases keys client request h with
    ⟨e, hget, hr⟩ | ⟨cluster, hget, ⟨hskip, hr⟩ | ⟨hz, hguard, hdis, hr⟩⟩
  · have hc : managedcluster.createCondition keys client request h = false := by
      apply hcondfalse
      rintro ⟨cluster, e', hok, -⟩
      rw [hget] at hok
      cases hok
    rw [hc, hr]
    refine ⟨by simp, fun hn => (by cases hn), fun _ => ⟨by simp, ?_⟩⟩
    cases hnf : e.IsNotFound with
    | true => exact Or.inl (by simp)
    | false => exact Or.inr (Or.inl ⟨e, hget, hnf, by simp⟩)
  · have hc : managedcluster.createCondition keys client request h = false := by
      apply hcondfalse
      rintro ⟨cluster', e', hok, hcond, -⟩
      rw [hget] at hok
      cases hok
      exact hskip hcond
    rw [hc, hr]
    exact ⟨by simp, fun hn => (by cases hn), fun _ => ⟨by simp, Or.inl rfl⟩⟩
  · rcases createKlusterletAddonConfig_cases keys client cluster
        (h ++ [.GetManagedCluster { Name := request.Name }]) hguard with
      ⟨found, hkac, hr'⟩ | ⟨e, hkac, hnf, hr'⟩ | ⟨e, kac, hkac, hnf, -, hname, hns, hr'⟩
    · have hc : managedcluster.createCondition keys client request h = false := by
        apply hcondfalse
        rintro ⟨cluster', e', hok, -, hk, -⟩
        rw [hget] at hok
        cases hok
        rw [hkac] at hk
        cases hk
      rw [hc, hr, hr']
      exact ⟨by simp, fun hn => (by cases hn), fun _ => ⟨by simp, Or.inl rfl⟩⟩
    · have hc : managedcluster.createCondition keys client request h = false := by
        apply hcondfalse
        rintro ⟨cluster', e', hok, -, hk, hnf'⟩
        rw [hget] at hok
        cases hok
        rw [hkac] at hk
        cases hk
        rw [hnf] at hnf'
        cases hnf'
      rw [hc, hr, hr']
      exact ⟨by simp, fun hn => (by cases hn),
        fun _ => ⟨by simp, Or.inr (Or.inr ⟨cluster, e, hget, hkac, hnf, rfl⟩)⟩⟩
    · have hc : managedcluster.createCondition keys client request h = true :=
        (createCondition_iff keys client request h).2
          ⟨cluster, e, hget, ⟨hz, hguard, hdis⟩, hkac, hnf⟩
      rw [hc, hr, hr']
      refine ⟨⟨fun _ => rfl, fun _ => ⟨kac, by simp⟩⟩, fun _ => ⟨cluster, kac, hget, hname, hns,
        by simp⟩, fun hn => by cases hn⟩

theorem C26_creates_iff_witness :
    ∃ cluster kac,
      (managedcluster.Client.holding ManagedCluster.sample).GetManagedCluster []
        { Name := "cluster1" } = .ok cluster ∧
      kac.Name = cluster.Name ∧ kac.Namespace = cluster.Name ∧
      managedcluster.Reconcile common.sample (managedcluster.Client.holding ManagedCluster.sample)
          { Name := "cluster1" } [] =
        (((managedcluster.Client.holding ManagedCluster.sample).Create
            ([] ++ [.GetManagedCluster { Name := "cluster1" },
              .GetKlusterletAddonConfig
                { Namespace := cluster.Name, Name := cluster.Name }]) kac).map
          (fun err => .errorf ("create KlusterletAddonConfig " ++ cluster.Name ++
            " error: " ++ err.Error)),
          [] ++ [.GetManagedCluster { Name := "cluster1" },
            .GetKlusterletAddonConfig { Namespace := cluster.Name, Name := cluster.Name },
            .Create kac]) :=
  (C26_creates_iff common.sample (managedcluster.Client.holding ManagedCluster.sample)
    { Name := "cluster1" } []).2.1 (by decide)

/-- C30: the nil-config error is unreachable from `Reconcile`. For every ManagedCluster that
passes the guard (hosted-add-on enabled, or Hypershift marker, or ClusterClaim marker),
`newKlusterletAddonConfig` of its cluster type, name and hosted flag is non-nil, so
`createKlusterletAddonConfig` does not return the "new KlusterletAddonConfig" error for it, and
neither does `Reconcile` once it has fetched the cluster; `newKlusterletAddonConfig` returns
nil exactly when the hosted flag is false and the cluster type is neither "ClusterClaim" nor
"Hypershift". -/
theorem C30_nil_config_unreachable :
    (∀ (keys : common) (cluster : ManagedCluster),
      (managedcluster.hostedAddOnEnabled keys cluster.toObjectMeta = true ∨
        managedcluster.hypershiftCluster cluster.toObjectMeta = true ∨
        managedcluster.clusterClaimCluster cluster.toObjectMeta = true) →
      (∃ kac, managedcluster.newKlusterletAddonConfig (managedcluster.clusterType cluster)
        cluster.Name (managedcluster.hostedAddOnEnabled keys cluster.toObjectMeta) =
        some kac) ∧
      ∀ (client : managedcluster.Client) (h : List managedcluster.Call),
        (managedcluster.createKlusterletAddonConfig keys client cluster h).1 ≠
          some (.errorf ("new KlusterletAddonConfig " ++ cluster.Name))) ∧
    (∀ (keys : common) (client : managedcluster.Client) (request : NamespacedName)
        (h : List managedcluster.Call) (cluster : ManagedCluster),
      client.GetManagedCluster h { Name := request.Name } = .ok cluster →
      (managedcluster.Reconcile keys client request h).1 ≠
        some (.errorf ("new KlusterletAddonConfig " ++ cluster.Name))) ∧
    (∀ (clusterType name : String) (hosted : Bool),
      managedcluster.newKlusterletAddonConfig clusterType name hosted = none ↔
        hosted = false ∧ clusterType ≠ "ClusterClaim" ∧ clusterType ≠ "Hypershift") := by
  have hcreate : ∀ (keys : common) (cluster : ManagedCluster),
      (managedcluster.hostedAddOnEnabled keys cluster.toObjectMeta = true ∨
        managedcluster.hypershiftCluster cluster.toObjectMeta = true ∨
        managedcluster.clusterClaimCluster cluster.toObjectMeta = true) →
      ∀ (client : managedcluster.Client) (h : List managedcluster.Call),
        (managedcluster.createKlusterletAddonConfig keys client cluster h).1 ≠
          some (.errorf ("new KlusterletAddonConfig " ++ cluster.Name)) := by
    intro keys cluster hguard client h
    rcases createKlusterletAddonConfig_cases keys client cluster h hguard with
      ⟨found, -, hr⟩ | ⟨e, -, -, hr⟩ | ⟨e, kac, -, -, -, -, -, hr⟩
    · rw [hr]; simp
    · rw [hr]
      intro heq
      simp only [Option.some.injEq, GoError.errorf.injEq, String.append_assoc] at heq
      exact (errorf_message_ne _ _).2 heq
    · rw [hr]
      cases client.Create _ kac with
      | none => simp
      | some err =>
        intro heq
        simp only [Option.map_some', Option.some.injEq, GoError.errorf.injEq,
          String.append_assoc] at heq
        exact (errorf_message_ne _ _).1 heq
  refine ⟨fun keys cluster hguard => ⟨?_, hcreate keys cluster hguard⟩, ?_,
    fun clusterType name hosted => (newKlusterletAddonConfig_spec clusterType name hosted).1⟩
  · obtain ⟨kac, hk, -⟩ := newKlusterletAddonConfig_of_guard keys cluster hguard
    exact ⟨kac, hk⟩
  · intro keys client request h cluster hget
    rcases managedcluster_Reconcile_cases keys client request h with
      ⟨e, hget', -⟩ | ⟨cluster', hget', ⟨-, hr⟩ | ⟨-, hguard, -, hr⟩⟩
    · rw [hget] at hget'; cases hget'
    · rw [hr]; simp
    · rw [hget] at hget'
      cases hget'
      rw [hr]
      exact hcreate keys cluster hguard client _

theorem C30_nil_config_unreachable_witness :
    (∃ kac, managedcluster.newKlusterletAddonConfig
        (managedcluster.clusterType ManagedCluster.sample) ManagedCluster.sample.Name
        (managedcluster.hostedAddOnEnabled common.sample ManagedCluster.sample.toObjectMeta) =
        some kac) ∧
      ∀ (client : managedcluster.Client) (h : List managedcluster.Call),
        (managedcluster.createKlusterletAddonConfig common.sample client ManagedCluster.sample
          h).1 ≠ some (.errorf ("new KlusterletAddonConfig " ++ ManagedCluster.sample.Name)) :=
  C30_nil_config_unreachable.1 common.sample ManagedCluster.sample (Or.inr (Or.inr (by decide)))

/-! ## Default add-on selection and the container runtime -/

/-- C31: default add-on selection. Every non-nil result of `newKlusterletAddonConfig` has its
name, namespace, Spec.ClusterName and Spec.ClusterNamespace equal to the name argument and the
policy controller enabled. With the hosted flag true the result is non-nil and the other four
add-ons (application manager, cert policy, IAM policy, search collector) are disabled, whatever
the cluster type. With the hosted flag false, "ClusterClaim" enables all five and "Hypershift"
enables exactly cert policy, IAM policy and the policy controller. `clusterType` returns
"ClusterClaim" whenever the provisioner annotation contains the ClusterClaim marker, also when
it contains the Hypershift marker as well. -/
theorem C31_default_addons :
    (∀ (clusterType name : String) (hosted : Bool) (kac : KlusterletAddonConfig),
      managedcluster.newKlusterletAddonConfig clusterType name hosted = some kac →
      kac.Name = name ∧ kac.Namespace = name ∧ kac.Spec.ClusterName = name ∧
        kac.Spec.ClusterNamespace = name ∧ kac.Spec.PolicyController.Enabled = true) ∧
    (∀ (clusterType name : String),
      ∃ kac, managedcluster.newKlusterletAddonConfig clusterType name true = some kac ∧
        kac.Spec.ApplicationManagerConfig.Enabled = false ∧
        kac.Spec.CertPolicyControllerConfig.Enabled = false ∧
        kac.Spec.IAMPolicyControllerConfig.Enabled = false ∧
        kac.Spec.SearchCollectorConfig.Enabled = false) ∧
    (∀ (name : String),
      ∃ kac, managedcluster.newKlusterletAddonConfig "ClusterClaim" name false = some kac ∧
        kac.Spec.ApplicationManagerConfig.Enabled = true ∧
        kac.Spec.CertPolicyControllerConfig.Enabled = true ∧
        kac.Spec.IAMPolicyControllerConfig.Enabled = true ∧
        kac.Spec.PolicyController.Enabled = true ∧
        kac.Spec.SearchCollectorConfig.Enabled = true) ∧
    (∀ (name : String),
      ∃ kac, managedcluster.newKlusterletAddonConfig "Hypershift" name false = some kac ∧
        kac.Spec.ApplicationManagerConfig.Enabled = false ∧
        kac.Spec.CertPolicyControllerConfig.Enabled = true ∧
        kac.Spec.IAMPolicyControllerConfig.Enabled = true ∧
        kac.Spec.PolicyController.Enabled = true ∧
        kac.Spec.SearchCollectorConfig.Enabled = false) ∧
    (∀ (cluster : ManagedCluster),
      strings.Contains (cluster.annotationAt managedcluster.provisionerAnnotation)
        "ClusterClaim.hive.openshift.io" = true →
      managedcluster.clusterType cluster = "ClusterClaim") := by
  refine ⟨?_, ?_, ?_, ?_, ?_⟩
  · intro clusterType name hosted kac hk
    unfold managedcluster.newKlusterletAddonConfig at hk
    split at hk
    · cases hk; exact ⟨rfl, rfl, rfl, rfl, rfl⟩
    · split at hk
      · cases hk; exact ⟨rfl, rfl, rfl, rfl, rfl⟩
      · split at hk
        · cases hk; exact ⟨rfl, rfl, rfl, rfl, rfl⟩
        · cases hk
  · intro clusterType name
    exact ⟨_, rfl, rfl, rfl, rfl, rfl⟩
  · intro name
    exact ⟨_, rfl, rfl, rfl, rfl, rfl, rfl⟩
  · intro name
    exact ⟨_, rfl, rfl, rfl, rfl, rfl, rfl⟩
  · intro cluster hc
    unfold managedcluster.clusterType managedcluster.clusterClaimCluster
    rw [hc]
    rfl

theorem C31_default_addons_witness :
    managedcluster.clusterType
      { Name := "cluster1"
        Annotations :=
          [("cluster.open-cluster-management.io/provisioner",
            "HypershiftDeployment.cluster.open-cluster-management.io/ClusterClaim.hive.openshift.io")] } =
      "ClusterClaim" :=
  C31_default_addons.2.2.2.2
    { Name := "cluster1"
      Annotations :=
        [("cluster.open-cluster-management.io/provisioner",
          "HypershiftDeployment.cluster.open-cluster-management.io/ClusterClaim.hive.openshift.io")] }
    (by decide)

/-- The first piece of a split is what precedes the first separator. -/
theorem splitOn_head (sep : Char) (l : List Char) :
    (l.splitOn sep)[0]? = some (l.takeWhile (fun c => c != sep)) := by
  unfold List.splitOn
  induction l with
  | nil => rfl
  | cons x xs ih =>
    rw [List.splitOnP_cons]
    by_cases hx : x = sep
    · subst hx
      simp
    · have hb : (x == sep) = false := by simpa using hx
      have hn : (x != sep) = true := by simp [bne, hb]
      rw [hb, List.takeWhile_cons, hn]
      simp only [Bool.false_eq_true, if_false, if_true]
      cases hs : List.splitOnP (fun c => c == sep) xs with
      | nil => exact absurd hs (List.splitOnP_ne_nil _ _)
      | cons first rest =>
        rw [hs] at ih
        simp only [List.getElem?_cons_zero, Option.some.injEq] at ih
        simp [List.modifyHead, ih]

/-- C32: `determineRuntime` returns "docker" whenever listing the nodes fails. Whenever the
listing succeeds with a non-empty node list it returns the part of the first node's
ContainerRuntimeVersion that precedes the first ":" (the whole string if it contains no ":"),
whatever the other nodes are. It panics exactly when the listing succeeds with an empty node
list: the first piece of the split always exists. In every case it issues one List call. -/
theorem C32_determineRuntime :
    (∀ (client : Client) (h : History) (e : GoError),
      client.ListNodes h = .error e →
      topology.determineRuntime client h = some ("docker", h ++ [.List .Node])) ∧
    (∀ (client : Client) (h : History) (node : Node) (rest : List Node),
      client.ListNodes h = .ok { Items := node :: rest } →
      topology.determineRuntime client h =
        some (String.mk (node.Status.NodeInfo.ContainerRuntimeVersion.data.takeWhile
          (fun c => c != ':')), h ++ [.List .Node]) ∧
      (':' ∉ node.Status.NodeInfo.ContainerRuntimeVersion.data →
        topology.determineRuntime client h =
          some (node.Status.NodeInfo.ContainerRuntimeVersion, h ++ [.List .Node]))) ∧
    (∀ (client : Client) (h : History),
      topology.determineRuntime client h = none ↔ client.ListNodes h = .ok { Items := [] }) ∧
    (∀ s : String, (strings.Split s ':')[0]? ≠ none) := by
  have hsplit : ∀ s : String,
      (strings.Split s ':')[0]? = some (String.mk (s.data.takeWhile (fun c => c != ':'))) := by
    intro s
    unfold strings.Split
    rw [List.getElem?_map, splitOn_head]
    rfl
  have hnode : ∀ (client : Client) (h : History) (node : Node) (rest : List Node),
      client.ListNodes h = .ok { Items := node :: rest } →
      topology.determineRuntime client h =
        some (String.mk (node.Status.NodeInfo.ContainerRuntimeVersion.data.takeWhile
          (fun c => c != ':')), h ++ [.List .Node]) := by
    intro client h node rest hl
    unfold topology.determineRuntime
    simp only [Client.listNodes, hl, List.getElem?_cons_zero, hsplit]
  refine ⟨?_, ?_, ?_, ?_⟩
  · intro client h e hl
    unfold topology.determineRuntime
    simp only [Client.listNodes, hl]
  · intro client h node rest hl
    refine ⟨hnode client h node rest hl, ?_⟩
    intro hno
    rw [hnode client h node rest hl]
    have htw : node.Status.NodeInfo.ContainerRuntimeVersion.data.takeWhile
        (fun c => c != ':') = node.Status.NodeInfo.ContainerRuntimeVersion.data := by
      rw [List.takeWhile_eq_self_iff]
      intro c hc
      simp only [bne_iff_ne, ne_eq]
      rintro rfl
      exact hno hc
    rw [htw]
  · intro client h
    cases hl : client.ListNodes h with
    | error e =>
      have : topology.determineRuntime client h = some ("docker", h ++ [.List .Node]) := by
        unfold topology.determineRuntime
        simp only [Client.listNodes, hl]
      rw [this]
      simp
    | ok nodelist =>
      rcases nodelist with ⟨items⟩
      cases items with
      | nil =>
        have : topology.determineRuntime client h = none := by
          unfold topology.determineRuntime
          simp only [Client.listNodes, hl, List.getElem?_nil]
        rw [this]
        simp
      | cons node rest =>
        rw [hnode client h node rest hl]
        simp
  · intro s
    rw [hsplit]
    simp

theorem C32_determineRuntime_witness :
    topology.determineRuntime Client.memory [] = some ("docker", [] ++ [.List .Node]) ∧
    topology.determineRuntime Client.unavailable [] = some ("docker", [] ++ [.List .Node]) :=
  ⟨by
      have h := (C32_determineRuntime.2.1 Client.memory []
        { Status := { NodeInfo := { ContainerRuntimeVersion := "docker://18.9.7" } } } []
        (by rfl)).1
      rw [h]
      decide,
    C32_determineRuntime.1 Client.unavailable [] (.status "ServiceUnavailable" "") (by rfl)⟩

/-! ## Reconciling twice -/

/-- On the in-memory cluster a Get of a Deployment answers with the stored deployment, and fails
with not-found exactly when nothing is stored under the key. -/
theorem memory_GetDeployment (h : History) (key : NamespacedName) :
    (∃ o, History.stored h .Deployment key = some (.deployment o) ∧
      Client.memory.GetDeployment h key = .ok o) ∨
    (History.stored h .Deployment key = none ∧
      Client.memory.GetDeployment h key = .error (.status "NotFound" "")) := by
  cases hs : History.stored h .Deployment key with
  | none => right; simp [Client.memory, hs]
  | some obj =>
    have hat := stored_isAt h _ _ _ hs
    cases obj <;> simp [Obj.isAt, Obj.kind] at hat
    left
    exact ⟨_, rfl, by simp [Client.memory, hs]⟩

/-- On the in-memory cluster, after a successful run of `createSelfSignClusterIssuer` the store
holds the issuer, and what it holds under every other kind is what it held before. -/
theorem createSelfSignClusterIssuer_memory_stored (scheme : Scheme) (cr : Endpoint)
    (h : History)
    (hok : (certmgr.createSelfSignClusterIssuer Client.memory scheme cr h).1 = none) :
    ∃ gvk o, scheme.GVKForObject .Endpoint = .ok gvk ∧
      History.stored (certmgr.createSelfSignClusterIssuer Client.memory scheme cr h).2
        .ClusterIssuer { Name := cr.Name ++ "-self-signed" } = some (.clusterIssuer o) ∧
      ∀ kind key, kind ≠ .ClusterIssuer →
        History.stored (certmgr.createSelfSignClusterIssuer Client.memory scheme cr h).2
          kind key = History.stored h kind key := by
  cases hg : scheme.GVKForObject .Endpoint with
  | error e =>
    have hfirst : certmgr.createSelfSignClusterIssuer Client.memory scheme cr h =
        (some e, h) := by
      unfold certmgr.createSelfSignClusterIssuer SetControllerReference
      simp only [hg]
    rw [hfirst] at hok
    cases hok
  | ok gvk =>
    rcases memory_GetClusterIssuer h { Name := cr.Name ++ "-self-signed" } with
      ⟨o, hs, hget⟩ | ⟨hs, hget⟩
    · rw [createSelfSignClusterIssuer_existing Client.memory scheme cr h gvk o hg hget]
      exact ⟨gvk, o, rfl, by rw [stored_get, hs], fun kind key _ => stored_get _ _ _ _ _⟩
    · have hfirst : certmgr.createSelfSignClusterIssuer Client.memory scheme cr h =
          (Client.memory.Create
              (h ++ [.Get .ClusterIssuer { Name := cr.Name ++ "-self-signed" }])
              (.clusterIssuer
                { Name := cr.Name ++ "-self-signed",
                  OwnerReferences :=
                    [{ APIVersion :=
                         if gvk.Group = "" then gvk.Version
                         else gvk.Group ++ "/" ++ gvk.Version,
                       Kind := gvk.Kind, Name := cr.Name, UID := cr.UID,
                       Controller := true, BlockOwnerDeletion := true }],
                  Spec := { SelfSigned := true } }),
            h ++ [.Get .ClusterIssuer { Name := cr.Name ++ "-self-signed" },
              .Create (.clusterIssuer
                { Name := cr.Name ++ "-self-signed",
                  OwnerReferences :=
                    [{ APIVersion :=
                         if gvk.Group = "" then gvk.Version
                         else gvk.Group ++ "/" ++ gvk.Version,
                       Kind := gvk.Kind, Name := cr.Name, UID := cr.UID,
                       Controller := true, BlockOwnerDeletion := true }],
                  Spec := { SelfSigned := true } })]) := by
        unfold certmgr.createSelfSignClusterIssuer SetControllerReference
        simp only [hg, Client.getClusterIssuer, hget, GoError.IsNotFound, beq_self_eq_true,
          if_true, Client.create, List.append_assoc, List.singleton_append, List.nil_append]
      rw [hfirst]
      refine ⟨gvk,
        { Name := cr.Name ++ "-self-signed",
          OwnerReferences :=
            [{ APIVersion :=
                 if gvk.Group = "" then gvk.Version else gvk.Group ++ "/" ++ gvk.Version,
               Kind := gvk.Kind, Name := cr.Name, UID := cr.UID,
               Controller := true, BlockOwnerDeletion := true }],
          Spec := { SelfSigned := true } }, rfl, ?_, ?_⟩
      · rw [stored_append]
        simp [hs, Obj.isAt, Obj.kind, Obj.objectMeta]
      · intro kind key hkind
        rw [stored_append]
        simp only [List.foldl_cons, List.foldl_nil, Obj.isAt, Obj.kind, Bool.and_eq_true,
          beq_iff_eq]
        rw [if_neg]
        rintro ⟨⟨⟨hc, -⟩, -⟩, -⟩
        exact hkind hc.symm

/-- C11 (amended): Reconcile is idempotent where it does not reach the child, and not where it
finds it. (1) certmgr, platform certificate manager present: on the in-memory cluster, for
every parent and every store state in which the probe of the Deployment
"cert-manager-ibm-cert-manager" succeeds, after one successful Reconcile a second Reconcile
succeeds, leaves the parent unchanged and issues two Gets and no store mutation. (2) certmgr,
for every client: when the probe of that Deployment fails, the desired child is built and
owned, the parent is not deleting and the Get of the child finds a child that is not being
deleted, Reconcile issues exactly one store mutation, an Update of the fetched child with its
Spec set to the desired spec, whether or not the two specs differ; the parent and its
finalizers are unchanged, and when the specs are equal the object written equals the fetched
one. (3) topology, for every client: the same as (2) when the desired child is built and owned,
the parent is not deleting, the add-on is enabled and the Get of the child finds a child that
is not being deleted; the returned error is nil. -/
theorem C11_steady_state_update :
    (∀ (inst : Endpoint) (scheme : Scheme) (h : History) (deployment : Deployment)
        (r₁ : ReconcileResult),
      Client.memory.GetDeployment h
        { Name := "cert-manager-ibm-cert-manager", Namespace := "cert-manager" } =
        .ok deployment →
      certmgr.Reconcile inst Client.memory scheme h = some r₁ → r₁.err = none →
      ∃ r₂, certmgr.Reconcile r₁.inst Client.memory scheme r₁.calls = some r₂ ∧
        r₂.err = none ∧ r₂.requeue = false ∧ r₂.inst = inst ∧ r₁.inst = inst ∧
        r₂.calls = r₁.calls ++ [.Get .Deployment
            { Name := "cert-manager-ibm-cert-manager", Namespace := "cert-manager" },
          .Get .ClusterIssuer { Name := inst.Name ++ "-self-signed" }] ∧
        ∀ c ∈ r₂.calls.drop r₁.calls.length, c.isMutation = false) ∧
    (∀ (inst : Endpoint) (client : Client) (scheme : Scheme) (h : History) (e₀ : GoError)
        (child found : CertManager) (objectMeta : ObjectMeta),
      client.GetDeployment h
        { Name := "cert-manager-ibm-cert-manager", Namespace := "cert-manager" } = .error e₀ →
      certmgr.newCertManagerCR inst = (some child, none) →
      SetControllerReference .Endpoint inst.toObjectMeta child.toObjectMeta scheme =
        (objectMeta, none) →
      client.GetCertManager
        (h ++ [.Get .Deployment
          { Name := "cert-manager-ibm-cert-manager", Namespace := "cert-manager" }])
        { Name := objectMeta.Name, Namespace := objectMeta.Namespace } = .ok found →
      found.DeletionTimestamp = none → inst.DeletionTimestamp = none →
      ∃ r, certmgr.Reconcile inst client scheme h = some r ∧ r.inst = inst ∧
        r.calls = h ++ [.Get .Deployment
            { Name := "cert-manager-ibm-cert-manager", Namespace := "cert-manager" },
          .Get .CertManager { Name := objectMeta.Name, Namespace := objectMeta.Namespace },
          .Update (.certManager { found with Spec := child.Spec })] ∧
        (found.Spec = child.Spec → ({ found with Spec := child.Spec } : CertManager) = found)) ∧
    (∀ (GetImage : KlusterletService → String → Image × Option GoError)
        (inst : KlusterletService) (client : Client) (scheme : Scheme) (h : History)
        (child found : TopologyCollector) (objectMeta : ObjectMeta),
      topology.newTopologyCollectorCR GetImage inst client h =
        some ((some child, none), h ++ [.List .Node]) →
      SetControllerReference .KlusterletService inst.toObjectMeta child.toObjectMeta scheme =
        (objectMeta, none) →
      client.GetTopologyCollector (h ++ [.List .Node])
        { Name := objectMeta.Name, Namespace := objectMeta.Namespace } = .ok found →
      found.DeletionTimestamp = none → inst.DeletionTimestamp = none →
      inst.Spec.TopologyCollectorConfig.Enabled = true →
      ∃ r, topology.Reconcile GetImage inst client scheme h = some r ∧ r.inst = inst ∧
        r.err = none ∧
        r.calls = h ++ [.List .Node,
          .Get .TopologyCollector { Name := objectMeta.Name, Namespace := objectMeta.Namespace },
          .Update (.topologyCollector { found with Spec := child.Spec })] ∧
        (found.Spec = child.Spec →
          ({ found with Spec := child.Spec } : TopologyCollector) = found)) := by
  refine ⟨?_, ?_, ?_⟩
  · intro inst scheme h deployment r₁ hprobe hr₁ herr
    rw [certmgr_Reconcile_probe_ok inst Client.memory scheme h deployment hprobe] at hr₁
    simp only [Option.some.injEq] at hr₁
    subst hr₁
    dsimp only at herr ⊢
    obtain ⟨gvk, o, hg, hst, hother⟩ := createSelfSignClusterIssuer_memory_stored scheme inst
      (h ++ [.Get .Deployment
        { Name := "cert-manager-ibm-cert-manager", Namespace := "cert-manager" }]) herr
    have hdep : History.stored h .Deployment
        { Name := "cert-manager-ibm-cert-manager", Namespace := "cert-manager" } =
        some (.deployment deployment) := by
      rcases memory_GetDeployment h
          { Name := "cert-manager-ibm-cert-manager", Namespace := "cert-manager" } with
        ⟨d, hs, hget⟩ | ⟨-, hget⟩
      · rw [hprobe] at hget
        cases hget
        exact hs
      · rw [hprobe] at hget
        cases hget
    have hprobe₂ : Client.memory.GetDeployment
        (certmgr.createSelfSignClusterIssuer Client.memory scheme inst
          (h ++ [.Get .Deployment
            { Name := "cert-manager-ibm-cert-manager", Namespace := "cert-manager" }])).2
        { Name := "cert-manager-ibm-cert-manager", Namespace := "cert-manager" } =
        .ok deployment := by
      have hs : History.stored
          (certmgr.createSelfSignClusterIssuer Client.memory scheme inst
            (h ++ [.Get .Deployment
              { Name := "cert-manager-ibm-cert-manager", Namespace := "cert-manager" }])).2
          .Deployment
          { Name := "cert-manager-ibm-cert-manager", Namespace := "cert-manager" } =
          some (.deployment deployment) := by
        rw [hother _ _ (by decide), stored_get, hdep]
      rcases memory_GetDeployment
          (certmgr.createSelfSignClusterIssuer Client.memory scheme inst
            (h ++ [.Get .Deployment
              { Name := "cert-manager-ibm-cert-manager", Namespace := "cert-manager" }])).2
          { Name := "cert-manager-ibm-cert-manager", Namespace := "cert-manager" } with
        ⟨d, hs', hget⟩ | ⟨hs', -⟩
      · rw [hs] at hs'
        cases hs'
        exact hget
      · rw [hs] at hs'
        cases hs'
    rw [certmgr_Reconcile_probe_ok inst Client.memory scheme _ deployment hprobe₂]
    have hget₂ : Client.memory.GetClusterIssuer
        ((certmgr.createSelfSignClusterIssuer Client.memory scheme inst
          (h ++ [.Get .Deployment
            { Name := "cert-manager-ibm-cert-manager", Namespace := "cert-manager" }])).2 ++
          [.Get .Deployment
            { Name := "cert-manager-ibm-cert-manager", Namespace := "cert-manager" }])
        { Name := inst.Name ++ "-self-signed" } = .ok o := by
      rcases memory_GetClusterIssuer
          ((certmgr.createSelfSignClusterIssuer Client.memory scheme inst
            (h ++ [.Get .Deployment
              { Name := "cert-manager-ibm-cert-manager", Namespace := "cert-manager" }])).2 ++
            [.Get .Deployment
              { Name := "cert-manager-ibm-cert-manager", Namespace := "cert-manager" }])
          { Name := inst.Name ++ "-self-signed" } with
        ⟨o', hs', hget⟩ | ⟨hs', -⟩
      · rw [stored_get, hst] at hs'
        cases hs'
        exact hget
      · rw [stored_get, hst] at hs'
        cases hs'
    rw [createSelfSignClusterIssuer_existing Client.memory scheme inst _ gvk o hg hget₂]
    refine ⟨_, rfl, rfl, rfl, rfl, rfl, by simp, ?_⟩
    intro c hc
    simp only [List.append_assoc, List.singleton_append, List.drop_left, List.mem_cons,
      List.mem_singleton, List.not_mem_nil, or_false] at hc
    rcases hc with rfl | rfl <;> rfl
  · intro inst client scheme h e₀ child found objectMeta hprobe hbuild hown hget hfound hlive
    rw [certmgr_Reconcile_found inst client scheme h e₀ child found objectMeta hprobe hbuild
      hown hget, if_pos hfound, if_pos hlive]
    have heq : found.Spec = child.Spec →
        ({ found with Spec := child.Spec } : CertManager) = found := by
      intro hs; rw [← hs]
    cases client.Update _ _ with
    | none => exact ⟨_, rfl, rfl, rfl, heq⟩
    | some err => exact ⟨_, rfl, rfl, rfl, heq⟩
  · intro GetImage inst client scheme h child found objectMeta hbuild hown hget hfound hlive hen
    rw [topology_Reconcile_found GetImage inst client scheme h _ child found objectMeta hbuild
      hown hget, if_pos hfound, if_neg (by simp [hlive, hen])]
    refine ⟨_, rfl, rfl, rfl, by simp, ?_⟩
    intro hs; rw [← hs]

theorem C11_steady_state_update_witness :
    (∃ r, certmgr.Reconcile Endpoint.sample Client.memory Scheme.registered
        [.Create (.certManager CertManager.sample)] = some r ∧
      r.inst = Endpoint.sample ∧
      r.calls = [.Create (.certManager CertManager.sample),
        .Get .Deployment
          { Name := "cert-manager-ibm-cert-manager", Namespace := "cert-manager" },
        .Get .CertManager { Name := "c1-certmgr", Namespace := "ns1" },
        .Update (.certManager CertManager.sample)]) ∧
    (∃ r₂, certmgr.Reconcile Endpoint.sample Client.memory Scheme.registered
        [.Create (.deployment
            { Name := "cert-manager-ibm-cert-manager", Namespace := "cert-manager" }),
          .Create (.certManager CertManager.sample),
          .Get .Deployment
            { Name := "cert-manager-ibm-cert-manager", Namespace := "cert-manager" },
          .Get .ClusterIssuer { Name := "c1-self-signed" },
          .Create (.clusterIssuer
            { Name := "c1-self-signed",
              OwnerReferences :=
                [{ APIVersion := "multicloud.ibm.com/v1beta1", Kind := "Endpoint", Name := "c1",
                   Controller := true, BlockOwnerDeletion := true }],
              Spec := { SelfSigned := true } })] = some r₂ ∧
      r₂.err = none ∧
      ∀ c ∈ r₂.calls.drop 5, c.isMutation = false) := by
  constructor
  · obtain ⟨r, hr, hinst, hcalls, -⟩ := C11_steady_state_update.2.1 Endpoint.sample
      Client.memory Scheme.registered [.Create (.certManager CertManager.sample)]
      (.status "NotFound" "") { CertManager.sample with OwnerReferences := [] }
      CertManager.sample CertManager.sample.toObjectMeta (by rfl) (by decide) (by decide)
      (by rfl) (by rfl) (by rfl)
    exact ⟨r, hr, hinst, hcalls⟩
  · obtain ⟨r₂, hr₂, herr, -, -, -, -, hmut⟩ := C11_steady_state_update.1 Endpoint.sample
      Scheme.registered
      [.Create (.deployment
          { Name := "cert-manager-ibm-cert-manager", Namespace := "cert-manager" }),
        .Create (.certManager CertManager.sample)]
      { Name := "cert-manager-ibm-cert-manager", Namespace := "cert-manager" }
      ⟨false, none, Endpoint.sample,
        [.Create (.deployment
            { Name := "cert-manager-ibm-cert-manager", Namespace := "cert-manager" }),
          .Create (.certManager CertManager.sample),
          .Get .Deployment
            { Name := "cert-manager-ibm-cert-manager", Namespace := "cert-manager" },
          .Get .ClusterIssuer { Name := "c1-self-signed" },
          .Create (.clusterIssuer
            { Name := "c1-self-signed",
              OwnerReferences :=
                [{ APIVersion := "multicloud.ibm.com/v1beta1", Kind := "Endpoint", Name := "c1",
                   Controller := true, BlockOwnerDeletion := true }],
              Spec := { SelfSigned := true } })]⟩
      (by decide) (by decide) (by rfl)
    exact ⟨r₂, hr₂, herr, hmut⟩

end Klusterlet
